import Mathlib

/-!
# Malaysia Air Pollutant AI (`chatbox.cpp`): shallow embedding

The class `AirPollutantAI` is embedded as pure functions.

* `std::string` is a list of characters (`Str`); `s.find(t) != string::npos` is `found s t`.
* The member `api_data_` (the record store) is passed explicitly as a `List APIData`.
* An `int` value is an `Int`. Where the program computes with `int` (the differences of two
  readings, `abs`, the running total of `getStatistics`) the exact result is reduced to 32 bits
  by `wrapInt`, which is what the compiled two's-complement arithmetic leaves; in C++ itself
  such an overflow is undefined behaviour.
* The two `regex_search` calls are modelled by the value they return (`searchDayMonth`,
  `searchMonthDay`). The stack that the library's matcher needs grows with the utterance and is
  not modelled: the embedding says what a call returns, not that it returns.
* `double` values that the program computes are sums of `int`s divided by a size; they are
  modelled exactly as rationals, and a division by a zero size (a NaN) as `none` (`divD`).
  Such a quotient is only printed, or compared with an integer or with another quotient, and
  rounding to the nearest `double` is monotone and fixes the integers. The one place where two
  rounded quotients are combined further is `analyzeTrends`, which subtracts them and compares
  the difference with 5 and -5: there every `double` operation is the exact result rounded by
  `roundDouble` (IEEE 754 binary64, round to nearest, ties to even). Sums of `int` values stay
  exact in a `double` below 2^53 and are taken exact.
* `ss << fixed << setprecision(1) << x` for a `double` is a library rendering; it is the
  parameter `fmt : Option ℚ → Str` of every function that prints a mean.
* `rand()` is the parameter `rnd : Nat` of `getRandomResponse` and `generateResponse`.
* `std::map<string, V>` is an association list kept in ascending key order (`mapPut`), which is
  the order in which the program iterates over it.
* `std::sort` with comparator `lt` is a stable insertion sort (`stdSort`); the C++ library leaves
  the relative order of equivalent elements unspecified.
* What a function writes to its `stringstream` is the `concat` of the pieces in order; a ruler
  of `n` equals signs in a string literal is written `List.replicate n '='`.
-/

namespace AirPollutantAI

abbrev Str := List Char

/-- One record of the store (`struct APIData`). -/
structure APIData where
  district : Str
  state : Str
  apiReading : Int
  status : Str
  date : Str
deriving DecidableEq

/-! ## Lexical primitives -/

/-- The idiom `transform(s.begin(), s.end(), s.begin(), ::tolower)`. -/
def toLower (s : Str) : Str := s.map Char.toLower

/-- Test whether `p` is an initial segment of `s`. -/
def startsWith : Str → Str → Bool
  | _, [] => true
  | [], _ :: _ => false
  | c :: cs, p :: ps => decide (c = p) && startsWith cs ps

/-- The test `hay.find(needle) != string::npos` (an empty needle is always found). -/
def found : Str → Str → Bool
  | [], needle => startsWith [] needle
  | c :: cs, needle => startsWith (c :: cs) needle || found cs needle

/-- The comparison `a < b` of `std::string` (lexicographic). -/
def strLt : Str → Str → Bool
  | [], [] => false
  | [], _ :: _ => true
  | _ :: _, [] => false
  | a :: as, b :: bs => if a < b then true else if b < a then false else strLt as bs

/-- Lookup `m.find(k)` in a `std::map<string, V>`. -/
def mapGet? {V : Type} : List (Str × V) → Str → Option V
  | [], _ => none
  | (k', v') :: rest, k => if k = k' then some v' else mapGet? rest k

/-- Assignment `m[k] = v` in a `std::map<string, V>`: the list stays in ascending key order. -/
def mapPut {V : Type} : List (Str × V) → Str → V → List (Str × V)
  | [], k, v => [(k, v)]
  | (k', v') :: rest, k, v =>
    if k = k' then (k, v) :: rest
    else if strLt k k' then (k, v) :: (k', v') :: rest
    else (k', v') :: mapPut rest k v

/-- The statement `m[k].push_back(x)` on a `std::map<string, vector<V>>`. -/
def mapPush {V : Type} (m : List (Str × List V)) (k : Str) (x : V) : List (Str × List V) :=
  mapPut m k ((mapGet? m k).getD [] ++ [x])

/-- Model of `std::sort(first, last, lt)` as a stable insertion sort. -/
def stdSort {α : Type} (lt : α → α → Bool) (l : List α) : List α :=
  l.insertionSort (fun a b => lt b a = false)

/-- Concatenation of the pieces written to a `stringstream`. -/
def concat (xs : List Str) : Str := xs.foldr (fun a b => a ++ b) []

/-- Decimal rendering of a `size_t` (`ss << n`, `to_string(n)`). -/
def natToStr (n : Nat) : Str := Nat.toDigits 10 n

/-- Decimal rendering of an `int` (`ss << n`). -/
def intToStr (n : Int) : Str :=
  if n < 0 then '-' :: Nat.toDigits 10 n.natAbs else Nat.toDigits 10 n.natAbs

/-- The `int` left by a 32-bit two's-complement operation whose exact result is `x`. -/
def wrapInt (x : Int) : Int := (x + 2147483648) % 4294967296 - 2147483648

/-- The call `abs(x)` on an `int`: the negation wraps like every other `int` operation. -/
def absInt (x : Int) : Int := if x < 0 then wrapInt (-x) else x

/-- Division `sum / size` of a `double` by a size; `none` stands for the NaN of `0.0 / 0`. -/
def divD (sum : ℚ) (size : Nat) : Option ℚ :=
  if size = 0 then none else some (sum / (size : ℚ))

/-- Sum of the `apiReading` fields, accumulated in a `double`. -/
def sumApi (l : List APIData) : ℚ := (l.map (fun d => (d.apiReading : ℚ))).sum

/-! ## Rounding to `double`

The result of a `double` division or subtraction is the exact result rounded to the nearest
number with a 53-bit significand, ties to the even significand. The exponent range is not
modelled: the values that occur are far from overflow and from the subnormal numbers. -/

/-- Number of halvings that bring `n` below 2: the floor of the binary logarithm of `n ≥ 1`. -/
def log2Fuel : Nat → Nat → Nat
  | 0, _ => 0
  | fuel + 1, n => if n < 2 then 0 else log2Fuel fuel (n / 2) + 1

/-- Floor of the binary logarithm of the positive rational `n / d`. -/
def floorLog2 (n d : Nat) : Int :=
  let e0 : Int := (log2Fuel n n : Int) - (log2Fuel d d : Int)
  if e0 ≥ 0 then (if d * 2 ^ e0.toNat ≤ n then e0 else e0 - 1)
  else (if d ≤ n * 2 ^ (-e0).toNat then e0 else e0 - 1)

/-- The integer nearest to `n / d`, the even one of the two when `n / d` lies half way. -/
def roundHalfEven (n d : Nat) : Nat :=
  let f := n / d
  let r := n % d
  if 2 * r < d then f else if d < 2 * r then f + 1 else if f % 2 = 0 then f else f + 1

/-- The `double` nearest to the positive rational `n / d`: with `e` the binary exponent of
`n / d`, the significand `(n / d) * 2 ^ (52 - e)` is rounded to an integer and scaled back. -/
def roundPos (n d : Nat) : ℚ :=
  let k : Int := 52 - floorLog2 n d
  if k ≥ 0 then (roundHalfEven (n * 2 ^ k.toNat) d : ℚ) / ((2 ^ k.toNat : Nat) : ℚ)
  else (roundHalfEven n (d * 2 ^ (-k).toNat) : ℚ) * ((2 ^ (-k).toNat : Nat) : ℚ)

/-- The `double` nearest to the rational `q`. -/
def roundDouble (q : ℚ) : ℚ :=
  if q = 0 then 0
  else if q < 0 then - roundPos q.num.natAbs q.den
  else roundPos q.num.natAbs q.den

/-! ## Status and advice tables -/

def getStatusColor (status : Str) : Str :=
  if status = "Good".toList then "\x1b[32m".toList
  else if status = "Moderate".toList then "\x1b[33m".toList
  else if status = "Unhealthy".toList then "\x1b[31m".toList
  else "\x1b[0m".toList

def getStatusFromAPI (api : ℚ) : Str :=
  if api ≤ 50 then "Good".toList
  else if api ≤ 100 then "Moderate".toList
  else "Unhealthy".toList

def getHealthAdvice (status : Str) : Str :=
  if status = "Good".toList then "Air quality is satisfactory. Enjoy outdoor activities!".toList
  else if status = "Moderate".toList then
    "Air quality is acceptable. Sensitive people should reduce prolonged outdoor exertion.".toList
  else if status = "Unhealthy".toList then
    "Everyone may experience health effects. Reduce outdoor activities.".toList
  else "No specific advice available.".toList

/-! ## Area matching and location detection -/

def isAreaMatch (user_message district state : Str) : Bool :=
  let lower_msg := toLower user_message
  let lower_district := toLower district
  let lower_state := toLower state
  if found lower_msg lower_district then true
  else if found lower_msg lower_state then true
  else if found lower_msg "jb".toList && found lower_district "johor bahru".toList then true
  else if found lower_msg "kl".toList && found lower_district "kuala lumpur".toList then true
  else if found lower_msg "melaka".toList && found lower_state "malacca".toList then true
  else if found lower_msg "malacca".toList && found lower_state "malacca".toList then true
  else if found lower_msg "penang".toList && found lower_state "penang".toList then true
  else if found lower_msg "kk".toList && found lower_district "kota kinabalu".toList then true
  else false

/-- The vector `locations` of `detectLocationInQuery`. -/
def locations : List Str :=
  ["kuala lumpur", "kl", "selangor", "penang", "johor", "johor bahru", "jb",
   "ipoh", "kuching", "kota kinabalu", "kk", "malacca", "melaka",
   "seremban", "alor setar", "kuala terengganu", "kota bharu",
   "shah alam", "petaling jaya", "pj", "subang", "puchong"].map String.toList

def detectLocationInQuery (user_message : Str) : Str :=
  let lower_msg := toLower user_message
  match locations.find? (fun location => found lower_msg location) with
  | some location => location
  | none => []

/-! ## Date handling -/

/-- The map `months` of `extractDateFromQuery`, in ascending key order. -/
def months : List (Str × Str) :=
  ([("jan", "01"), ("january", "01"), ("feb", "02"), ("february", "02"),
    ("mar", "03"), ("march", "03"), ("apr", "04"), ("april", "04"), ("may", "05"),
    ("jun", "06"), ("june", "06"), ("jul", "07"), ("july", "07"),
    ("aug", "08"), ("august", "08"), ("sep", "09"), ("september", "09"),
    ("oct", "10"), ("october", "10"), ("nov", "11"), ("november", "11"),
    ("dec", "12"), ("december", "12")].map
      (fun p : String × String => (p.1.toList, p.2.toList))).foldl
    (fun m p => mapPut m p.1 p.2) []

/-- The class `\d` of the regular expressions. -/
def isDigitC (c : Char) : Bool := decide ('0' ≤ c) && decide (c ≤ '9')

/-- The class `\s` of the regular expressions. -/
def isSpaceC (c : Char) : Bool :=
  decide (c = ' ') || decide (c = '\t') || decide (c = '\n') || decide (c = '\x0b') ||
  decide (c = '\x0c') || decide (c = '\r')

/-- The greedy `\s*`: the text after the longest run of white space. A shorter run never lets
the rest of either pattern match, since what follows `\s*` starts with a letter or a digit. -/
def dropSpaces : Str → Str
  | [] => []
  | c :: cs => if isSpaceC c then dropSpaces cs else c :: cs

/-- The alternatives of the group `(jan|feb|mar|apr|may|jun|jul|aug|sep|oct|nov|dec)`. -/
def monthAbbrevs : List Str :=
  ["jan", "feb", "mar", "apr", "may", "jun", "jul", "aug", "sep", "oct", "nov", "dec"].map
    String.toList

/-- The month group under `regex_constants::icase` at the head of `s`: the captured text and
the text after it. -/
def matchMonth : Str → Option (Str × Str)
  | a :: b :: c :: rest =>
    if monthAbbrevs.contains (toLower [a, b, c]) then some ([a, b, c], rest) else none
  | _ => none

/-- Test whether `s` starts with `k` digits. -/
def digitsAt (s : Str) (k : Nat) : Bool := decide (k ≤ s.length) && (s.take k).all isDigitC

/-- One way for `(\d{1,2})\s*(mon)` to match at the head of `s`, with `k` digits. -/
def tryDayMonth (s : Str) (k : Nat) : Option (Str × Str) :=
  if digitsAt s k then
    match matchMonth (dropSpaces (s.drop k)) with
    | some (month, _) => some (s.take k, month)
    | none => none
  else none

/-- Match of `date_pattern1` at the head of `s` (greedy `\d{1,2}`: two digits are tried first):
the captures (day, month). -/
def matchDayMonthAt (s : Str) : Option (Str × Str) :=
  match tryDayMonth s 2 with
  | some r => some r
  | none => tryDayMonth s 1

/-- The call `regex_search(user_message, match, date_pattern1)`: the leftmost match. -/
def searchDayMonth : Str → Option (Str × Str)
  | [] => none
  | c :: cs =>
    match matchDayMonthAt (c :: cs) with
    | some r => some r
    | none => searchDayMonth cs

/-- Match of `date_pattern2`, `(mon)\s*(\d{1,2})`, at the head of `s`: the captures
(month, day). -/
def matchMonthDayAt (s : Str) : Option (Str × Str) :=
  match matchMonth s with
  | some (month, rest) =>
    let r := dropSpaces rest
    if digitsAt r 2 then some (month, r.take 2)
    else if digitsAt r 1 then some (month, r.take 1)
    else none
  | none => none

/-- The call `regex_search(user_message, match, date_pattern2)`: the leftmost match. -/
def searchMonthDay : Str → Option (Str × Str)
  | [] => none
  | c :: cs =>
    match matchMonthDayAt (c :: cs) with
    | some r => some r
    | none => searchMonthDay cs

/-- The body shared by the two `if (regex_search(...))` blocks: lower-case the month, pad the
day, look the month up. -/
def buildDate (day month : Str) : Option Str :=
  let month := toLower month
  let day := if day.length = 1 then '0' :: day else day
  match mapGet? months month with
  | some code => some (concat ["2025-".toList, code, "-".toList, day])
  | none => none

def extractDateFromQuery (user_message : Str) : Str :=
  let lower_msg := toLower user_message
  if found lower_msg "today".toList then "2025-11-29".toList
  else if found lower_msg "yesterday".toList then "2025-11-28".toList
  else
    match (searchDayMonth user_message).bind (fun m => buildDate m.1 m.2) with
    | some r => r
    | none =>
      match (searchMonthDay user_message).bind (fun m => buildDate m.2 m.1) with
      | some r => r
      | none => []

def getPreviousDate (date : Str) : Str :=
  if date = "2025-11-29".toList then "2025-11-28".toList
  else if date = "2025-11-28".toList then "2025-11-27".toList
  else if date = "2025-11-27".toList then "2025-11-26".toList
  else if date = "2025-11-26".toList then "2025-11-25".toList
  else if date = "2025-11-25".toList then "2025-11-24".toList
  else if date = "2025-11-24".toList then "2025-11-23".toList
  else if date = "2025-11-23".toList then "2025-11-22".toList
  else if date = "2025-11-22".toList then "2025-11-21".toList
  else if date = "2025-11-21".toList then "2025-11-20".toList
  else if date = "2025-11-20".toList then "2025-11-19".toList
  else if date = "2025-11-19".toList then "2025-11-18".toList
  else if date = "2025-11-18".toList then "2025-11-17".toList
  else if date = "2025-11-17".toList then "2025-11-16".toList
  else if date = "2025-11-16".toList then "2025-11-15".toList
  else if date = "2025-11-15".toList then "2025-11-14".toList
  else if date = "2025-11-14".toList then "2025-11-13".toList
  else if date = "2025-11-13".toList then "2025-11-12".toList
  else if date = "2025-11-12".toList then "2025-11-11".toList
  else if date = "2025-11-11".toList then "2025-11-10".toList
  else if date = "2025-11-10".toList then "2025-11-09".toList
  else if date = "2025-11-09".toList then "2025-11-08".toList
  else if date = "2025-11-08".toList then "2025-11-07".toList
  else if date = "2025-11-07".toList then "2025-11-06".toList
  else if date = "2025-11-06".toList then "2025-11-05".toList
  else if date = "2025-11-05".toList then "2025-11-04".toList
  else if date = "2025-11-04".toList then "2025-11-03".toList
  else if date = "2025-11-03".toList then "2025-11-02".toList
  else if date = "2025-11-02".toList then "2025-11-01".toList
  else if date = "2025-11-01".toList then "2025-10-31".toList
  else if date = "2025-10-31".toList then "2025-10-30".toList
  else if date = "2025-10-30".toList then "2025-10-29".toList
  else []

/-! ## Rankings -/

/-- The map `area_readings` of `calculateAreaAverages`, keyed by `district + ", " + state`. -/
def area_readings (api_data_ : List APIData) : List (Str × List Int) :=
  api_data_.foldl
    (fun m data => mapPush m (concat [data.district, ", ".toList, data.state]) data.apiReading) []

/-- The mean `sum / readings.size()` of one group of readings. -/
def meanOf (readings : List Int) : ℚ :=
  (readings.map (fun (r : Int) => (r : ℚ))).sum / (readings.length : ℚ)

def calculateAreaAverages (api_data_ : List APIData) : List (Str × ℚ) :=
  (area_readings api_data_).map (fun p => (p.1, meanOf p.2))

/-- One pass of the output loop of `getCleanestAreasRanking`. -/
def cleanestEntry (fmt : Option ℚ → Str) (e : Nat × (Str × ℚ)) : Str :=
  let i := e.1
  let medal :=
    if i = 0 then "🥇 ".toList
    else if i = 1 then "🥈 ".toList
    else if i = 2 then "🥉 ".toList
    else natToStr (i + 1) ++ ". ".toList
  concat [medal, e.2.1, " - API: ".toList, fmt (some e.2.2), "\n".toList]

def getCleanestAreasRanking (fmt : Option ℚ → Str) (api_data_ : List APIData) : Str :=
  let area_avgs := stdSort (fun a b => decide (a.2 < b.2)) (calculateAreaAverages api_data_)
  concat [
    "🏆 CLEANEST AREAS RANKING (Average API - Lower is Better):\n".toList,
    List.replicate 45 '=' ++ "\n".toList,
    concat ((area_avgs.take 10).enum.map (cleanestEntry fmt))]

/-- One pass of the output loop of `getMostPollutedAreasRanking`. -/
def pollutedEntry (fmt : Option ℚ → Str) (e : Nat × (Str × ℚ)) : Str :=
  let i := e.1
  let warning :=
    if i = 0 then "🔴 ".toList
    else if i = 1 then "🟠 ".toList
    else if i = 2 then "🟡 ".toList
    else natToStr (i + 1) ++ ". ".toList
  concat [warning, e.2.1, " - API: ".toList, fmt (some e.2.2), "\n".toList]

def getMostPollutedAreasRanking (fmt : Option ℚ → Str) (api_data_ : List APIData) : Str :=
  let area_avgs := stdSort (fun a b => decide (a.2 > b.2)) (calculateAreaAverages api_data_)
  concat [
    "⚠️ MOST POLLUTED AREAS RANKING (Average API - Higher is Worse):\n".toList,
    List.replicate 49 '=' ++ "\n".toList,
    concat ((area_avgs.take 10).enum.map (pollutedEntry fmt))]

/-- One pass of the output loop of `getCompleteRanking`. -/
def completeEntry (fmt : Option ℚ → Str) (e : Nat × (Str × ℚ)) : Str :=
  let i := e.1
  let rank_indicator :=
    if i = 0 then "🥇 ".toList
    else if i = 1 then "🥈 ".toList
    else if i = 2 then "🥉 ".toList
    else if i < 10 then natToStr (i + 1) ++ ". ".toList
    else natToStr (i + 1) ++ ". ".toList
  let status := getStatusFromAPI e.2.2
  let color := getStatusColor status
  let reset := "\x1b[0m".toList
  concat [rank_indicator, e.2.1, " - API: ".toList, fmt (some e.2.2),
    " (".toList, color, status, reset, ")\n".toList]

def getCompleteRanking (fmt : Option ℚ → Str) (api_data_ : List APIData) : Str :=
  let area_avgs := stdSort (fun a b => decide (a.2 < b.2)) (calculateAreaAverages api_data_)
  concat [
    "📊 COMPLETE AIR QUALITY RANKING:\n".toList,
    List.replicate 31 '=' ++ "\n".toList,
    concat (area_avgs.enum.map (completeEntry fmt))]

def getRanking (fmt : Option ℚ → Str) (api_data_ : List APIData) (user_message : Str) : Str :=
  let lower_msg := toLower user_message
  if found lower_msg "rank".toList || found lower_msg "cleanest".toList ||
      found lower_msg "best".toList then
    getCleanestAreasRanking fmt api_data_
  else if found lower_msg "most polluted".toList || found lower_msg "worst".toList ||
      found lower_msg "dirtiest".toList then
    getMostPollutedAreasRanking fmt api_data_
  else if found lower_msg "ranking".toList || found lower_msg "top".toList ||
      found lower_msg "list".toList then
    getCompleteRanking fmt api_data_
  else []

/-! ## Health advisory -/

/-- The condition under which `getSpecificHealthAdvisory` keeps a record. -/
def advisoryMatch (location : Str) (data : APIData) : Bool :=
  decide (data.date = "2025-11-29".toList) &&
  (let lower_district := toLower data.district
   let lower_state := toLower data.state
   let lower_location := toLower location
   found lower_district lower_location ||
   found lower_state lower_location ||
   (decide (lower_location = "kl".toList) && found lower_district "kuala lumpur".toList) ||
   (decide (lower_location = "jb".toList) && found lower_district "johor bahru".toList) ||
   (decide (lower_location = "kk".toList) && found lower_district "kota kinabalu".toList))

/-- The advice block that `getSpecificHealthAdvisory` prints for one reading. -/
def advisoryTier (apiReading : Int) : Str :=
  if apiReading ≤ 50 then
    concat [
      "✅ EXCELLENT CONDITIONS - GO OUTSIDE! 🌞\n".toList,
      "• Perfect for all outdoor activities\n".toList,
      "• Great day for exercise, sports, and recreation\n".toList,
      "• Enjoy the fresh air safely\n".toList]
  else if apiReading ≤ 100 then
    concat [
      "⚠️ MODERATE CONDITIONS - PROCEED WITH CAUTION\n".toList,
      "• Generally acceptable for most people\n".toList,
      "• Unusually sensitive individuals should reduce prolonged outdoor exertion\n".toList,
      "• Good for light activities like walking\n".toList,
      "• Consider shorter outdoor sessions\n".toList]
  else
    concat [
      "❌ UNHEALTHY CONDITIONS - LIMIT OUTDOOR TIME\n".toList,
      "• Everyone may begin to experience health effects\n".toList,
      "• Sensitive groups should avoid outdoor activities\n".toList,
      "• If you must go out, keep it brief\n".toList,
      "• Avoid strenuous exercise outdoors\n".toList,
      "• Consider indoor alternatives\n".toList]

/-- One pass of the output loop of `getSpecificHealthAdvisory`. -/
def advisoryEntry (data : APIData) : Str :=
  let color := getStatusColor data.status
  let reset := "\x1b[0m".toList
  concat [
    "🏙️  ".toList, data.district, ", ".toList, data.state, "\n".toList,
    "📊 API: ".toList, intToStr data.apiReading, " (".toList, color, data.status, reset,
    ")\n\n".toList,
    advisoryTier data.apiReading,
    "\n".toList]

def getSpecificHealthAdvisory (api_data_ : List APIData) (location : Str) : Str :=
  let today_location_data := api_data_.filter (advisoryMatch location)
  if today_location_data.isEmpty then
    concat [
      "I couldn't find specific air quality data for ".toList, location, " today. ".toList,
      "You can check the overall Malaysia air quality or try asking about a nearby major city.".toList]
  else
    concat [
      "📍 Health Advisory for ".toList, location, " (Today - 29 Nov 2025):\n".toList,
      List.replicate 32 '=' ++ "\n\n".toList,
      concat (today_location_data.map advisoryEntry),
      "💡 General Tips:\n".toList,
      "• Check air quality before planning outdoor activities\n".toList,
      "• Sensitive groups include children, elderly, and people with respiratory conditions\n".toList,
      "• Use air purifiers indoors if air quality is poor\n".toList,
      "• Stay hydrated and listen to your body\n".toList]

/-- The flag `health_question` of `getHealthAdvisoryWithLocation`. -/
def health_question (user_message : Str) : Bool :=
  let lower_msg := toLower user_message
  found lower_msg "go out".toList ||
  found lower_msg "go outside".toList ||
  found lower_msg "outdoor".toList ||
  found lower_msg "exercise".toList ||
  found lower_msg "workout".toList ||
  found lower_msg "jog".toList ||
  found lower_msg "run".toList ||
  found lower_msg "walk".toList ||
  found lower_msg "healthy".toList ||
  found lower_msg "safe".toList ||
  found lower_msg "haze".toList

def getHealthAdvisoryWithLocation (api_data_ : List APIData) (user_message : Str) : Str :=
  if !health_question user_message then []
  else
    let detected_location := detectLocationInQuery user_message
    if detected_location.isEmpty then
      concat [
        "🤔 I'd be happy to advise you about going out! But first, could you tell me which area you're in? ".toList,
        "For example: 'Kuala Lumpur', 'Selangor', 'Penang', etc. This will help me give you more accurate advice based on local air quality.".toList]
    else getSpecificHealthAdvisory api_data_ detected_location

/-! ## Date-scoped reports -/

/-- The running values `worst`, `worst_area`, `best`, `best_area` of `getDataForDate`. -/
structure Extremes where
  worst : Int
  worst_area : Str
  best : Int
  best_area : Str
deriving DecidableEq

/-- One pass of the summary loop of `getDataForDate`. -/
def stepExtremes (e : Extremes) (data : APIData) : Extremes :=
  let e1 : Extremes :=
    if data.apiReading > e.worst then
      ⟨data.apiReading, concat [data.district, ", ".toList, data.state], e.best, e.best_area⟩
    else e
  if data.apiReading < e1.best then
    ⟨e1.worst, e1.worst_area, data.apiReading, concat [data.district, ", ".toList, data.state]⟩
  else e1

/-- The summary loop of `getDataForDate`, from `worst = 0`, `best = 1000`. -/
def dateExtremes (date_data : List APIData) : Extremes :=
  date_data.foldl stepExtremes ⟨0, [], 1000, []⟩

/-- One line of the per-state listing of `getDataForDate`. -/
def dateEntry (data : APIData) : Str :=
  let color_code := getStatusColor data.status
  let reset_code := "\x1b[0m".toList
  concat ["  • ".toList, data.district, " - API: ".toList, intToStr data.apiReading,
    " (".toList, color_code, data.status, reset_code, ")\n".toList]

def getDataForDate (fmt : Option ℚ → Str) (api_data_ : List APIData) (date : Str) : Str :=
  let date_data := api_data_.filter (fun data => decide (data.date = date))
  if date_data.isEmpty then concat ["No data available for ".toList, date]
  else
    let state_data : List (Str × List APIData) :=
      date_data.foldl (fun m data => mapPush m data.state data) []
    let e := dateExtremes date_data
    concat [
      "Air Quality Data for ".toList, date, ":\n".toList,
      List.replicate 32 '=' ++ "\n".toList,
      concat (state_data.map (fun state_pair =>
        concat ["\n".toList, state_pair.1, ":\n".toList, concat (state_pair.2.map dateEntry)])),
      "\nSummary for ".toList, date, ":\n".toList,
      "• Average API: ".toList, fmt (divD (sumApi date_data) date_data.length), "\n".toList,
      "• Worst: ".toList, e.worst_area, " (API: ".toList, intToStr e.worst, ")\n".toList,
      "• Best: ".toList, e.best_area, " (API: ".toList, intToStr e.best, ")\n".toList,
      "• Areas monitored: ".toList, natToStr date_data.length, "\n".toList]

/-- The "change from previous day" part of `getDataForAreaAndDate` for the record `data`. -/
def changeLine (api_data_ : List APIData) (data : APIData) (date : Str) : Str :=
  let prev_date := getPreviousDate date
  if !prev_date.isEmpty then
    match api_data_.find? (fun prev_data =>
        decide (prev_data.district = data.district) && decide (prev_data.state = data.state) &&
        decide (prev_data.date = prev_date)) with
    | some prev_data =>
      let change := wrapInt (data.apiReading - prev_data.apiReading)
      let trend :=
        if change > 0 then "worsened".toList
        else if change < 0 then "improved".toList else "stable".toList
      concat ["• Change from previous day: ".toList, trend, " by ".toList,
        intToStr (absInt change), " points\n".toList]
    | none => []
  else []

def getDataForAreaAndDate (api_data_ : List APIData) (area date : Str) : Str :=
  match api_data_.find? (fun data =>
      (found (toLower data.district) (toLower area) ||
        found (toLower data.state) (toLower area)) && decide (data.date = date)) with
  | some data =>
    concat [
      "Air Quality in ".toList, data.district, ", ".toList, data.state, " on ".toList, date,
      ":\n".toList,
      "• API Reading: ".toList, intToStr data.apiReading, "\n".toList,
      "• Status: ".toList, data.status, "\n".toList,
      "• Advice: ".toList, getHealthAdvice data.status, "\n".toList,
      changeLine api_data_ data date]
  | none => concat ["No data found for ".toList, area, " on ".toList, date]

/-! ## Superlatives and listings -/

/-- The map `latest_data` built by `getWorstAreas`, `getBestAreas` and `getAllAreas`. -/
def latest_data (api_data_ : List APIData) : List (Str × APIData) :=
  api_data_.foldl (fun m data =>
    match mapGet? m data.district with
    | none => mapPut m data.district data
    | some cur => if strLt cur.date data.date then mapPut m data.district data else m) []

/-- The line printed per area by `getWorstAreas`, `getBestAreas` and `getAllAreas`. -/
def areaEntry (d : APIData) : Str :=
  concat ["• ".toList, d.district, ", ".toList, d.state, " - API: ".toList,
    intToStr d.apiReading, " (".toList, d.status, ") on ".toList, d.date, "\n".toList]

def getWorstAreas (api_data_ : List APIData) : Str :=
  if api_data_.isEmpty then "No data available.".toList
  else
    let sorted_data :=
      stdSort (fun a b : APIData => decide (a.apiReading > b.apiReading))
        ((latest_data api_data_).map (fun p => p.2))
    concat ["Current worst air quality areas:\n".toList,
      concat ((sorted_data.take 5).map areaEntry)]

def getBestAreas (api_data_ : List APIData) : Str :=
  if api_data_.isEmpty then "No data available.".toList
  else
    let sorted_data :=
      stdSort (fun a b : APIData => decide (a.apiReading < b.apiReading))
        ((latest_data api_data_).map (fun p => p.2))
    concat ["Current best air quality areas:\n".toList,
      concat ((sorted_data.take 5).map areaEntry)]

/-- The line printed per reading by `getWorstDays` and `getBestDays`. -/
def dayEntry (d : APIData) : Str :=
  concat ["• ".toList, d.date, " - ".toList, d.district, ", ".toList, d.state,
    " - API: ".toList, intToStr d.apiReading, " (".toList, d.status, ")\n".toList]

def getWorstDays (api_data_ : List APIData) : Str :=
  if api_data_.isEmpty then "No data available.".toList
  else
    let sorted_data :=
      stdSort (fun a b : APIData => decide (a.apiReading > b.apiReading)) api_data_
    concat ["Worst air quality days recorded:\n".toList,
      concat ((sorted_data.take 5).map dayEntry)]

def getBestDays (api_data_ : List APIData) : Str :=
  if api_data_.isEmpty then "No data available.".toList
  else
    let sorted_data :=
      stdSort (fun a b : APIData => decide (a.apiReading < b.apiReading)) api_data_
    concat ["Best air quality days recorded:\n".toList,
      concat ((sorted_data.take 5).map dayEntry)]

def getAllAreas (api_data_ : List APIData) : Str :=
  if api_data_.isEmpty then "No data available.".toList
  else
    concat ["All monitored areas (latest readings):\n".toList,
      concat ((latest_data api_data_).map (fun p => areaEntry p.2))]

/-! ## Area history -/

/-- The vector `area_data` of `getAreaInfoWithHistory` after the sort by descending date. -/
def areaHistory (api_data_ : List APIData) (district state : Str) : List APIData :=
  stdSort (fun a b : APIData => strLt b.date a.date)
    (api_data_.filter (fun data => decide (data.district = district) && decide (data.state = state)))

/-- The "Trend" line of `getAreaInfoWithHistory`, present when `area_data.size() >= 2`. -/
def historyTrend (area_data : List APIData) : Str :=
  match area_data with
  | a0 :: a1 :: _ =>
    let change := wrapInt (a0.apiReading - a1.apiReading)
    let trend :=
      if change > 0 then "worsened".toList
      else if change < 0 then "improved".toList else "stable".toList
    concat ["Trend: ".toList, trend, " by ".toList, intToStr (absInt change),
      " points from previous day\n\n".toList]
  | _ => []

/-- One line of the "Last 5 days" list of `getAreaInfoWithHistory`. -/
def historyEntry (d : APIData) : Str :=
  concat ["• ".toList, d.date, " - API: ".toList, intToStr d.apiReading, " (".toList,
    d.status, ")\n".toList]

/-- The sorted vector is empty exactly when the unsorted one is, so the emptiness test of the
source is the `[]` case here. -/
def getAreaInfoWithHistory (api_data_ : List APIData) (district state _user_message : Str) : Str :=
  match areaHistory api_data_ district state with
  | [] => concat ["Sorry, I couldn't find data for ".toList, district, ", ".toList, state]
  | a0 :: rest =>
    concat [
      "Air Quality History for ".toList, district, ", ".toList, state, ":\n".toList,
      "Latest (".toList, a0.date, "): API ".toList, intToStr a0.apiReading, " (".toList,
      a0.status, ")\n\n".toList,
      historyTrend (a0 :: rest),
      "Last 5 days:\n".toList,
      concat (((a0 :: rest).take 5).map historyEntry),
      "\nAdvice: ".toList, getHealthAdvice a0.status]

/-! ## Trends, months, comparison, statistics -/

/-- The vector `early_nov` of `analyzeTrends`: the records whose date holds "2025-11-01",
"2025-11-02" or "2025-11-03". -/
def early_nov (api_data_ : List APIData) : List APIData :=
  api_data_.filter (fun data =>
    found data.date "2025-11-01".toList || found data.date "2025-11-02".toList ||
    found data.date "2025-11-03".toList)

/-- The vector `late_nov` of `analyzeTrends`. -/
def late_nov (api_data_ : List APIData) : List APIData :=
  api_data_.filter (fun data =>
    found data.date "2025-11-27".toList || found data.date "2025-11-28".toList ||
    found data.date "2025-11-29".toList)

def analyzeTrends (fmt : Option ℚ → Str) (api_data_ : List APIData) (_user_message : Str) : Str :=
  let early_nov := early_nov api_data_
  let late_nov := late_nov api_data_
  if early_nov.isEmpty || late_nov.isEmpty then "Not enough data for trend analysis.".toList
  else
    let early_avg : ℚ := roundDouble (sumApi early_nov / (early_nov.length : ℚ))
    let late_avg : ℚ := roundDouble (sumApi late_nov / (late_nov.length : ℚ))
    let change := roundDouble (late_avg - early_avg)
    concat [
      "Air Quality Trend Analysis (Early vs Late November):\n".toList,
      "• Early Nov (1st-3rd): Average API ".toList, fmt (some early_avg), "\n".toList,
      "• Late Nov (27th-29th): Average API ".toList, fmt (some late_avg), "\n".toList,
      if change > 5 then "• Overall: Air quality has worsened\n".toList
      else if change < -5 then "• Overall: Air quality has improved\n".toList
      else "• Overall: Air quality remained relatively stable\n".toList]

def countUniqueDistricts (api_data_ : List APIData) : Nat :=
  (api_data_.foldl (fun (m : List (Str × Bool)) data =>
    mapPut m (data.district ++ data.state) true) []).length

def getHistoricalSummary (api_data_ : List APIData) : Str :=
  if api_data_.isEmpty then "No data available.".toList
  else
    concat [
      "Historical Data Summary (Oct 29 - Nov 29, 2025):\n".toList,
      "• Total records: ".toList, natToStr api_data_.length, "\n".toList,
      "• Monitoring period: 32 days\n".toList,
      "• Districts covered: ".toList, natToStr (countUniqueDistricts api_data_), "\n".toList,
      "• Data points per district: ".toList,
      natToStr (api_data_.length / countUniqueDistricts api_data_), "\n".toList,
      "\nAsk me about specific dates, trends, or comparisons!".toList]

/-- The vector `october_data` of `analyzeByMonth`. -/
def october_data (api_data_ : List APIData) : List APIData :=
  api_data_.filter (fun data => found data.date "2025-10".toList)

/-- The vector `november_data` of `analyzeByMonth` (the `else if` branch of the loop). -/
def november_data (api_data_ : List APIData) : List APIData :=
  api_data_.filter (fun data =>
    !found data.date "2025-10".toList && found data.date "2025-11".toList)

def analyzeByMonth (fmt : Option ℚ → Str) (api_data_ : List APIData) (user_message : Str) : Str :=
  let lower_msg := toLower user_message
  let oct := october_data api_data_
  let nov := november_data api_data_
  concat [
    if found lower_msg "october".toList then
      if oct.isEmpty then "Limited October data available (only 3 days).\n".toList
      else
        concat [
          "October 2025 Analysis (3 days):\n".toList,
          "• Average API: ".toList, fmt (divD (sumApi oct) oct.length), "\n".toList,
          "• Days recorded: ".toList, natToStr oct.length, "\n".toList,
          "• Generally showed higher pollution levels\n".toList]
    else [],
    if found lower_msg "november".toList then
      concat [
        "November 2025 Analysis (29 days):\n".toList,
        "• Average API: ".toList, fmt (divD (sumApi nov) nov.length), "\n".toList,
        "• Days recorded: ".toList, natToStr nov.length, "\n".toList,
        "• Showed improving trend throughout the month\n".toList]
    else []]

def compareAreasOrTime (fmt : Option ℚ → Str) (api_data_ : List APIData) (_user_message : Str) :
    Str :=
  let area_readings : List (Str × List Int) :=
    api_data_.foldl
      (fun m data => mapPush m (concat [data.district, ",".toList, data.state]) data.apiReading)
      []
  let averages := stdSort (fun (a b : Str × ℚ) => decide (a.2 > b.2))
    (area_readings.map (fun p => (p.1, meanOf p.2)))
  concat [
    "Area Comparison (Average API Nov 2025):\n".toList,
    concat ((averages.take 5).map (fun p =>
      concat ["• ".toList, p.1, ": ".toList, fmt (some p.2), "\n".toList]))]

/-- The running values `total`, `good`, `moderate`, `unhealthy`, `max_api`, `min_api` of
`getStatistics`. -/
structure Stats where
  total : Int
  good : Nat
  moderate : Nat
  unhealthy : Nat
  max_api : Int
  min_api : Int
deriving DecidableEq

/-- One pass of the loop of `getStatistics`; `total += data.apiReading` is an `int` addition.
The three counters grow by at most one per record and stay below the size of the store. -/
def stepStats (s : Stats) (data : APIData) : Stats :=
  ⟨wrapInt (s.total + data.apiReading),
   if data.status = "Good".toList then s.good + 1 else s.good,
   if data.status = "Good".toList then s.moderate
   else if data.status = "Moderate".toList then s.moderate + 1 else s.moderate,
   if data.status = "Good".toList then s.unhealthy
   else if data.status = "Moderate".toList then s.unhealthy
   else if data.status = "Unhealthy".toList then s.unhealthy + 1 else s.unhealthy,
   if data.apiReading > s.max_api then data.apiReading else s.max_api,
   if data.apiReading < s.min_api then data.apiReading else s.min_api⟩

/-- The loop of `getStatistics`, from `max_api = 0`, `min_api = 1000`. -/
def storeStats (api_data_ : List APIData) : Stats :=
  api_data_.foldl stepStats ⟨0, 0, 0, 0, 0, 1000⟩

def getStatistics (fmt : Option ℚ → Str) (api_data_ : List APIData) : Str :=
  if api_data_.isEmpty then "No data available.".toList
  else
    let s := storeStats api_data_
    concat [
      "Malaysia Air Quality Statistics (Oct 29 - Nov 29):\n".toList,
      "• Total records: ".toList, natToStr api_data_.length, "\n".toList,
      "• Districts monitored: ".toList, natToStr (countUniqueDistricts api_data_), "\n".toList,
      "• Average API: ".toList, fmt (divD (s.total : ℚ) api_data_.length), "\n".toList,
      "• Highest API: ".toList, intToStr s.max_api, "\n".toList,
      "• Lowest API: ".toList, intToStr s.min_api, "\n".toList,
      "• Good: ".toList, natToStr s.good, " readings\n".toList,
      "• Moderate: ".toList, natToStr s.moderate, " readings\n".toList,
      "• Unhealthy: ".toList, natToStr s.unhealthy, " readings".toList]

/-! ## Knowledge base and fallback -/

/-- The map `knowledge_base_` after `initializeKnowledgeBase`, in ascending key order. -/
def knowledge_base_ : List (Str × Str) :=
  ([("hello", "Hello! I am Malaysia Air Pollutant AI with 1-month historical data (Oct-Nov 2025)."),
    ("hi", "Hi! I have daily API data. Ask me about specific dates like 'today', '29 Nov', or 'How was KL yesterday?'"),
    ("air quality", "I have 1 month of daily API data. Which area or date are you interested in?"),
    ("api", "API stands for Air Pollutant Index. I can show historical trends since October 2025."),
    ("today", "I can show you today's air quality data. Try: 'today api' or 'air quality today'"),
    ("29 nov", "I have data for November 29th. Try: '29 Nov API data' or 'How was KL on 29 Nov?'"),
    ("history", "I have data from October 29 to November 29, 2025. Ask about specific dates!"),
    ("trend", "I can show air quality trends. Try: 'trend in Kuala Lumpur' or 'compare months'"),
    ("pollution", "I monitor air pollution levels across Malaysia. Try asking about a specific state or district."),
    ("malaysia", "I have air quality data for Malaysia. You can ask about states like Selangor, Penang, Johor, etc."),
    ("quit", "Thank you for using Malaysia Air Pollutant AI. Breathe easy!"),
    ("exit", "Thank you for using Malaysia Air Pollutant AI. Stay safe!")].map
      (fun p : String × String => (p.1.toList, p.2.toList))).foldl
    (fun m p => mapPut m p.1 p.2) []

/-- The vector `default_responses_` after `initializeKnowledgeBase`. -/
def default_responses_ : List Str :=
  ["I have daily air quality data. Try: 'today', '29 Nov', or 'How was Kuala Lumpur yesterday?'",
   "Ask me about specific dates like 'today's API' or 'air quality on November 29'",
   "Try: 'Show me data for 29 Nov' or 'How was Selangor today?'",
   "I can show air quality for any date between Oct 29 and Nov 29, 2025",
   "Ask about specific dates and areas like 'Kuala Lumpur on 29 November'"].map String.toList

/-- The value `rnd` is the result of `rand()`. -/
def getRandomResponse (rnd : Nat) : Str :=
  default_responses_.getD (rnd % default_responses_.length) []

/-! ## The intent router -/

/-- The loop `for (data : api_data_) if (isAreaMatch(user_message, ...)) return ...`: the first
record matched by the utterance. -/
def firstAreaMatch (api_data_ : List APIData) (user_message : Str) : Option APIData :=
  api_data_.find? (fun data => isAreaMatch user_message data.district data.state)

/-- Steps 4 to 10 of `generateResponse` (from the comment `// Check for "today" specifically`
to the end of the function): what it returns when the ranking detector, the health detector
and the date extraction all came back empty. -/
def laterSteps (fmt : Option ℚ → Str) (api_data_ : List APIData) (rnd : Nat)
    (user_message : Str) : Str :=
  let lower_message := toLower user_message
  if found lower_message "today".toList &&
      (found lower_message "api".toList || found lower_message "air quality".toList) then
    match firstAreaMatch api_data_ user_message with
    | some data => getDataForAreaAndDate api_data_ data.district "2025-11-29".toList
    | none => getDataForDate fmt api_data_ "2025-11-29".toList
  else if found lower_message "trend".toList then analyzeTrends fmt api_data_ user_message
  else if found lower_message "history".toList || found lower_message "historical".toList then
    getHistoricalSummary api_data_
  else if found lower_message "november".toList || found lower_message "october".toList then
    analyzeByMonth fmt api_data_ user_message
  else if found lower_message "compare".toList then compareAreasOrTime fmt api_data_ user_message
  else if found lower_message "worst".toList then
    if found lower_message "day".toList || found lower_message "date".toList then
      getWorstDays api_data_
    else getWorstAreas api_data_
  else if found lower_message "best".toList then
    if found lower_message "day".toList || found lower_message "date".toList then
      getBestDays api_data_
    else getBestAreas api_data_
  else if found lower_message "list".toList || found lower_message "all".toList then
    getAllAreas api_data_
  else if found lower_message "stat".toList then getStatistics fmt api_data_
  else
    match firstAreaMatch api_data_ user_message with
    | some data => getAreaInfoWithHistory api_data_ data.district data.state user_message
    | none =>
      match knowledge_base_.find? (fun pair => found lower_message pair.1) with
      | some pair => pair.2
      | none => getRandomResponse rnd

def generateResponse (fmt : Option ℚ → Str) (api_data_ : List APIData) (rnd : Nat)
    (user_message : Str) : Str :=
  let ranking_response := getRanking fmt api_data_ user_message
  if !ranking_response.isEmpty then ranking_response
  else
  let health_advice := getHealthAdvisoryWithLocation api_data_ user_message
  if !health_advice.isEmpty then health_advice
  else
  let extracted_date := extractDateFromQuery user_message
  if !extracted_date.isEmpty then
    match firstAreaMatch api_data_ user_message with
    | some data => getDataForAreaAndDate api_data_ data.district extracted_date
    | none => getDataForDate fmt api_data_ extracted_date
  else laterSteps fmt api_data_ rnd user_message

/-! ## The cascade without the "today" shortcut

Used only to state that the shortcut branch of `generateResponse` is never taken. -/

/-- The function `laterSteps` with its first branch removed (the test for "today" together with
"api" or "air quality"); all other branches are unchanged. -/
def laterStepsWithoutShortcut (fmt : Option ℚ → Str) (api_data_ : List APIData) (rnd : Nat)
    (user_message : Str) : Str :=
  let lower_message := toLower user_message
  if found lower_message "trend".toList then analyzeTrends fmt api_data_ user_message
  else if found lower_message "history".toList || found lower_message "historical".toList then
    getHistoricalSummary api_data_
  else if found lower_message "november".toList || found lower_message "october".toList then
    analyzeByMonth fmt api_data_ user_message
  else if found lower_message "compare".toList then compareAreasOrTime fmt api_data_ user_message
  else if found lower_message "worst".toList then
    if found lower_message "day".toList || found lower_message "date".toList then
      getWorstDays api_data_
    else getWorstAreas api_data_
  else if found lower_message "best".toList then
    if found lower_message "day".toList || found lower_message "date".toList then
      getBestDays api_data_
    else getBestAreas api_data_
  else if found lower_message "list".toList || found lower_message "all".toList then
    getAllAreas api_data_
  else if found lower_message "stat".toList then getStatistics fmt api_data_
  else
    match firstAreaMatch api_data_ user_message with
    | some data => getAreaInfoWithHistory api_data_ data.district data.state user_message
    | none =>
      match knowledge_base_.find? (fun pair => found lower_message pair.1) with
      | some pair => pair.2
      | none => getRandomResponse rnd

/-- The function `generateResponse` with the shortcut branch removed. -/
def generateResponseWithoutShortcut (fmt : Option ℚ → Str) (api_data_ : List APIData)
    (rnd : Nat) (user_message : Str) : Str :=
  let ranking_response := getRanking fmt api_data_ user_message
  if !ranking_response.isEmpty then ranking_response
  else
  let health_advice := getHealthAdvisoryWithLocation api_data_ user_message
  if !health_advice.isEmpty then health_advice
  else
  let extracted_date := extractDateFromQuery user_message
  if !extracted_date.isEmpty then
    match firstAreaMatch api_data_ user_message with
    | some data => getDataForAreaAndDate api_data_ data.district extracted_date
    | none => getDataForDate fmt api_data_ extracted_date
  else laterStepsWithoutShortcut fmt api_data_ rnd user_message

/-! ## Loading the record store -/

/-- The call `stoi(token)`: white space is skipped, an optional sign and the longest run of
digits are read; `none` when no digit is read or the value is outside the range of `int`
(the call throws). -/
def stoi (token : Str) : Option Int :=
  let s := token.dropWhile isSpaceC
  let neg := decide (s.head? = some '-')
  let s := if s.head? = some '-' ∨ s.head? = some '+' then s.drop 1 else s
  let ds := s.takeWhile isDigitC
  if ds.isEmpty then none
  else
    let v : Int := ds.foldl (fun acc c => acc * 10 + ((c.toNat - 48 : Nat) : Int)) 0
    let v := if neg then -v else v
    if v < -2147483648 ∨ 2147483647 < v then none else some v

/-- The `switch (fieldCount)` of `loadAPIData`. -/
def assignField (record : APIData) (fieldCount : Nat) (token : Str) : APIData :=
  match fieldCount with
  | 0 => ⟨token, record.state, record.apiReading, record.status, record.date⟩
  | 1 => ⟨record.district, token, record.apiReading, record.status, record.date⟩
  | 2 => ⟨record.district, record.state, (stoi token).getD 0, record.status, record.date⟩
  | 3 => ⟨record.district, record.state, record.apiReading, token, record.date⟩
  | _ => record

/-- The inner `while ((pos = tempLine.find(',')) != npos)` loop and the assignment
`record.date = tempLine` after it; `token` is the text read since the last comma. -/
def parseFields (record : APIData) (fieldCount : Nat) (token : Str) : Str → APIData
  | [] => ⟨record.district, record.state, record.apiReading, record.status, token⟩
  | c :: cs =>
    if c = ',' then parseFields (assignField record fieldCount token) (fieldCount + 1) [] cs
    else parseFields record fieldCount (token ++ [c]) cs

/-- The record built from one data line. `APIData record;` leaves `apiReading` uninitialised:
`junk` is the value it then holds. -/
def parseLine (junk : Int) (line : Str) : APIData :=
  parseFields ⟨[], [], junk, [], []⟩ 0 [] line

/-- The record store after `loadAPIData` has read the given lines of an opened file. -/
def loadAPIData (junk : Int) (lines : List Str) : List APIData :=
  (lines.filter (fun line => !(line.isEmpty || decide (line.head? = some '#')))).map
    (parseLine junk)

/-! ## Intermediate values named for the statements -/

/-- The vector `area_avgs` of `getCleanestAreasRanking` and `getCompleteRanking` after their
`std::sort` call (comparator `a.second < b.second`). -/
def sortedAscending (api_data_ : List APIData) : List (Str × ℚ) :=
  stdSort (fun a b => decide (a.2 < b.2)) (calculateAreaAverages api_data_)

/-- The vector `area_avgs` of `getMostPollutedAreasRanking` after its `std::sort` call
(comparator `a.second > b.second`). -/
def sortedDescending (api_data_ : List APIData) : List (Str × ℚ) :=
  stdSort (fun a b => decide (a.2 > b.2)) (calculateAreaAverages api_data_)

/-- Invariant of the `std::map` model: the keys are in strictly ascending order. -/
def KeysSorted {V : Type} (m : List (Str × V)) : Prop :=
  (m.map Prod.fst).Pairwise (fun a b => strLt a b = true)

/-! ## Reference calendar

Used only to state the claims about `getPreviousDate`: the days of October and November 2025
are numbered from 1 October (day 1), so that the day before day `n` is day `n - 1`. -/

/-- Two-digit rendering of a day or month number. -/
def twoDigits (n : Nat) : Str := if n < 10 then '0' :: natToStr n else natToStr n

/-- The ISO string of day `n` counted from 2025-10-01 (day 1); October has 31 days, so day 32
is 2025-11-01. -/
def isoOfDay (n : Nat) : Str :=
  if n ≤ 31 then "2025-10-".toList ++ twoDigits n else "2025-11-".toList ++ twoDigits (n - 31)

/-! ## Sample stores -/

/-- Three readings for Kuala Lumpur (2025-11-27/28/29, values 40/60/120) and one for Ipoh. -/
def sampleStore : List APIData :=
  [⟨"Kuala Lumpur".toList, "Selangor".toList, 40, "Good".toList, "2025-11-27".toList⟩,
   ⟨"Kuala Lumpur".toList, "Selangor".toList, 60, "Moderate".toList, "2025-11-28".toList⟩,
   ⟨"Kuala Lumpur".toList, "Selangor".toList, 120, "Unhealthy".toList, "2025-11-29".toList⟩,
   ⟨"Ipoh".toList, "Perak".toList, 30, "Good".toList, "2025-11-29".toList⟩]

/-- A store with a reading for 2025-10-29, the earliest date of the window, and a reading of
the same area whose date field is empty (a data line that ends in a comma). -/
def edgeStore : List APIData :=
  [⟨"Kuala Lumpur".toList, "Selangor".toList, 50, "Good".toList, "2025-10-29".toList⟩,
   ⟨"Kuala Lumpur".toList, "Selangor".toList, 40, "Good".toList, []⟩]

/-- Two readings of one district with the same date and different values. -/
def tieStore : List APIData :=
  [⟨"Ipoh".toList, "Perak".toList, 30, "Good".toList, "2025-11-29".toList⟩,
   ⟨"Ipoh".toList, "Perak".toList, 80, "Moderate".toList, "2025-11-29".toList⟩]

/-- A single reading whose value is 0, as loaded from a line with an unreadable number. -/
def zeroStore : List APIData :=
  [⟨"Ipoh".toList, "Perak".toList, 0, "Good".toList, "2025-11-29".toList⟩]

/-- A single reading whose value is below zero. -/
def negativeStore : List APIData :=
  [⟨"Ipoh".toList, "Perak".toList, -5, "Good".toList, "2025-11-29".toList⟩]

/-- A single reading whose value is above 1000. -/
def largeStore : List APIData :=
  [⟨"Ipoh".toList, "Perak".toList, 1200, "Hazardous".toList, "2025-11-29".toList⟩]

/-- Two readings with distinct (district, state) pairs whose district and state join to the
same text, as loaded from the lines "KualaLumpur,,50,Good,2025-11-29" and
"Kuala,Lumpur,60,Moderate,2025-11-29". -/
def joinedStore : List APIData :=
  [⟨"KualaLumpur".toList, [], 50, "Good".toList, "2025-11-29".toList⟩,
   ⟨"Kuala".toList, "Lumpur".toList, 60, "Moderate".toList, "2025-11-29".toList⟩]

/-- A reading of Petaling for 2025-11-28 and a reading of Petaling Jaya for 2025-11-29. -/
def petalingStore : List APIData :=
  [⟨"Petaling".toList, "Selangor".toList, 40, "Good".toList, "2025-11-28".toList⟩,
   ⟨"Petaling Jaya".toList, "Selangor".toList, 70, "Moderate".toList, "2025-11-29".toList⟩]

/-- Two readings of one area on consecutive days whose values are the greatest `int` and the
negative of it, as loaded from the lines "Kuala Lumpur,Selangor,-2147483647,Good,2025-11-28" and
"Kuala Lumpur,Selangor,2147483647,Hazardous,2025-11-29". -/
def overflowStore : List APIData :=
  [⟨"Kuala Lumpur".toList, "Selangor".toList, -2147483647, "Good".toList, "2025-11-28".toList⟩,
   ⟨"Kuala Lumpur".toList, "Selangor".toList, 2147483647, "Hazardous".toList,
    "2025-11-29".toList⟩]

/-- Two readings whose value is the greatest `int`. -/
def maxIntStore : List APIData :=
  [⟨"Ipoh".toList, "Perak".toList, 2147483647, "Hazardous".toList, "2025-11-28".toList⟩,
   ⟨"Ipoh".toList, "Perak".toList, 2147483647, "Hazardous".toList, "2025-11-29".toList⟩]

/-- A rendering of means used where a concrete one is needed: the integer part only. -/
def sampleFmt : Option ℚ → Str
  | none => "nan".toList
  | some q => intToStr (Int.floor q)

/-! # Theorems -/

set_option maxRecDepth 100000

/-! ## First characters of the responses -/

theorem getSpecificHealthAdvisory_head (store : List APIData) (loc : Str) :
    (getSpecificHealthAdvisory store loc).head? = some 'I' ∨
    (getSpecificHealthAdvisory store loc).head? = some '📍' := by
  unfold getSpecificHealthAdvisory
  by_cases h : (store.filter (advisoryMatch loc)).isEmpty = true
  · left
    simp only [h, if_true]
    rfl
  · right
    simp only [h]
    rfl

theorem getDataForAreaAndDate_head (store : List APIData) (area date : Str) :
    (getDataForAreaAndDate store area date).head? = some 'A' ∨
    (getDataForAreaAndDate store area date).head? = some 'N' := by
  unfold getDataForAreaAndDate
  split
  · left; rfl
  · right; rfl

theorem getDataForDate_head (fmt : Option ℚ → Str) (store : List APIData) (date : Str) :
    (getDataForDate fmt store date).head? = some 'A' ∨
    (getDataForDate fmt store date).head? = some 'N' := by
  unfold getDataForDate
  by_cases h : (store.filter (fun data => decide (data.date = date))).isEmpty = true
  · right
    simp only [h, if_true]
    rfl
  · left
    simp only [h]
    rfl

/-! ## The cascade of `generateResponse` -/

theorem generateResponse_of_ranking (fmt : Option ℚ → Str) (store : List APIData) (rnd : Nat)
    (u : Str) (h : getRanking fmt store u ≠ []) :
    generateResponse fmt store rnd u = getRanking fmt store u := by
  unfold generateResponse
  simp [h]

theorem generateResponse_of_health (fmt : Option ℚ → Str) (store : List APIData) (rnd : Nat)
    (u : Str) (h1 : getRanking fmt store u = [])
    (h2 : getHealthAdvisoryWithLocation store u ≠ []) :
    generateResponse fmt store rnd u = getHealthAdvisoryWithLocation store u := by
  unfold generateResponse
  simp [h1, h2]

theorem generateResponse_of_date (fmt : Option ℚ → Str) (store : List APIData) (rnd : Nat)
    (u : Str) (h1 : getRanking fmt store u = [])
    (h2 : getHealthAdvisoryWithLocation store u = []) (h3 : extractDateFromQuery u ≠ []) :
    generateResponse fmt store rnd u =
      match firstAreaMatch store u with
      | some data => getDataForAreaAndDate store data.district (extractDateFromQuery u)
      | none => getDataForDate fmt store (extractDateFromQuery u) := by
  unfold generateResponse
  simp [h1, h2, h3]

theorem generateResponse_of_no_date (fmt : Option ℚ → Str) (store : List APIData) (rnd : Nat)
    (u : Str) (h1 : getRanking fmt store u = [])
    (h2 : getHealthAdvisoryWithLocation store u = []) (h3 : extractDateFromQuery u = []) :
    generateResponse fmt store rnd u = laterSteps fmt store rnd u := by
  unfold generateResponse
  simp [h1, h2, h3]

/-- The ranking detector is silent only when none of its keywords occurs. -/
theorem getRanking_eq_nil (fmt : Option ℚ → Str) (store : List APIData) (u : Str)
    (h : getRanking fmt store u = []) :
    found (toLower u) "rank".toList = false ∧ found (toLower u) "cleanest".toList = false ∧
    found (toLower u) "best".toList = false ∧ found (toLower u) "most polluted".toList = false ∧
    found (toLower u) "worst".toList = false ∧ found (toLower u) "dirtiest".toList = false ∧
    found (toLower u) "ranking".toList = false ∧ found (toLower u) "top".toList = false ∧
    found (toLower u) "list".toList = false := by
  have hc : (getCleanestAreasRanking fmt store).head? = some '🏆' := rfl
  have hm : (getMostPollutedAreasRanking fmt store).head? = some '⚠' := rfl
  have hk : (getCompleteRanking fmt store).head? = some '📊' := rfl
  unfold getRanking at h
  simp only [] at h
  split at h
  · rw [h] at hc; simp at hc
  · split at h
    · rw [h] at hm; simp at hm
    · split at h
      · rw [h] at hk; simp at hk
      · simp_all

/-- The health detector is silent exactly when no health keyword occurs. -/
theorem getHealthAdvisoryWithLocation_eq_nil (store : List APIData) (u : Str) :
    getHealthAdvisoryWithLocation store u = [] ↔ health_question u = false := by
  unfold getHealthAdvisoryWithLocation
  cases hq : health_question u
  · simp
  · simp only [Bool.not_true, Bool.false_eq_true, if_false]
    constructor
    · intro h
      exfalso
      split at h
      · revert h; decide
      · have := getSpecificHealthAdvisory_head store (detectLocationInQuery u)
        rw [h] at this
        simp at this
    · intro h; exact absurd h (by decide)

theorem extractDateFromQuery_today (u : Str) (h : found (toLower u) "today".toList = true) :
    extractDateFromQuery u = "2025-11-29".toList := by
  unfold extractDateFromQuery
  simp only [h, if_true]

/-- C1: `generateResponse` returns the first non-empty result of its detectors in the fixed
order ranking, health advisory, date-scoped report; the utterance "is it safe to jog in KL
today" gets the health advisory for "kl" on every store, never the date report. -/
theorem generateResponse_cascade (fmt : Option ℚ → Str) (store : List APIData) (rnd : Nat)
    (u : Str) :
    (getRanking fmt store u ≠ [] → generateResponse fmt store rnd u = getRanking fmt store u) ∧
    (getRanking fmt store u = [] → getHealthAdvisoryWithLocation store u ≠ [] →
      generateResponse fmt store rnd u = getHealthAdvisoryWithLocation store u) ∧
    (getRanking fmt store u = [] → getHealthAdvisoryWithLocation store u = [] →
      extractDateFromQuery u ≠ [] →
      generateResponse fmt store rnd u =
        match firstAreaMatch store u with
        | some data => getDataForAreaAndDate store data.district (extractDateFromQuery u)
        | none => getDataForDate fmt store (extractDateFromQuery u)) ∧
    (extractDateFromQuery "is it safe to jog in KL today".toList = "2025-11-29".toList ∧
      generateResponse fmt store rnd "is it safe to jog in KL today".toList =
        getSpecificHealthAdvisory store "kl".toList ∧
      generateResponse fmt store rnd "is it safe to jog in KL today".toList ≠
        match firstAreaMatch store "is it safe to jog in KL today".toList with
        | some data => getDataForAreaAndDate store data.district "2025-11-29".toList
        | none => getDataForDate fmt store "2025-11-29".toList) := by
  refine ⟨generateResponse_of_ranking fmt store rnd u, generateResponse_of_health fmt store rnd u,
    generateResponse_of_date fmt store rnd u, by decide, ?_⟩
  have hr : getRanking fmt store "is it safe to jog in KL today".toList = [] := by rfl
  have hh : getHealthAdvisoryWithLocation store "is it safe to jog in KL today".toList =
      getSpecificHealthAdvisory store "kl".toList := by rfl
  have hne : getSpecificHealthAdvisory store "kl".toList ≠ [] := by
    intro h
    have := getSpecificHealthAdvisory_head store "kl".toList
    rw [h] at this
    simp at this
  have hresp : generateResponse fmt store rnd "is it safe to jog in KL today".toList =
      getSpecificHealthAdvisory store "kl".toList := by
    rw [generateResponse_of_health fmt store rnd _ hr (by rw [hh]; exact hne), hh]
  refine ⟨hresp, ?_⟩
  rw [hresp]
  intro heq
  have h1 := getSpecificHealthAdvisory_head store "kl".toList
  rw [heq] at h1
  cases hm : firstAreaMatch store "is it safe to jog in KL today".toList with
  | none =>
    rw [hm] at h1
    rcases getDataForDate_head fmt store "2025-11-29".toList with h2 | h2 <;>
      rcases h1 with h1 | h1 <;> simp only [h2] at h1 <;> revert h1 <;> decide
  | some data =>
    rw [hm] at h1
    rcases getDataForAreaAndDate_head store data.district "2025-11-29".toList with h2 | h2 <;>
      rcases h1 with h1 | h1 <;> simp only [h2] at h1 <;> revert h1 <;> decide

/-- Witness for C1: on the sample store "rank" is answered by the ranking detector,
"is it safe to jog" by the health detector and "KL today" by the date-scoped step. -/
theorem generateResponse_cascade_witness :
    generateResponse sampleFmt sampleStore 0 "rank".toList =
      getRanking sampleFmt sampleStore "rank".toList ∧
    generateResponse sampleFmt sampleStore 0 "is it safe to jog".toList =
      getHealthAdvisoryWithLocation sampleStore "is it safe to jog".toList ∧
    generateResponse sampleFmt sampleStore 0 "KL today".toList =
      getDataForAreaAndDate sampleStore "Kuala Lumpur".toList "2025-11-29".toList :=
  ⟨(generateResponse_cascade sampleFmt sampleStore 0 "rank".toList).1 (by decide),
   (generateResponse_cascade sampleFmt sampleStore 0 "is it safe to jog".toList).2.1
     (by decide) (by decide),
   (generateResponse_cascade sampleFmt sampleStore 0 "KL today".toList).2.2.1
     (by decide) (by decide) (by decide)⟩

/-! ## Ranking keywords -/

/-- C2 (the code at the failing input): on every store every utterance that holds "rank" is
answered with the cleanest ranking, because `getRanking` tests "rank" first; "rank the worst
areas", which holds both "rank" and "worst", gets the cleanest ranking and not the
most-polluted ranking, and so does the utterance "most polluted ranking" that the program's
own banner suggests. -/
theorem rank_worst_gets_cleanest (fmt : Option ℚ → Str) (store : List APIData) (rnd : Nat) :
    (∀ u : Str, found (toLower u) "rank".toList = true →
      generateResponse fmt store rnd u = getCleanestAreasRanking fmt store) ∧
    found (toLower "rank the worst areas".toList) "rank".toList = true ∧
    found (toLower "rank the worst areas".toList) "worst".toList = true ∧
    generateResponse fmt store rnd "rank the worst areas".toList =
      getCleanestAreasRanking fmt store ∧
    generateResponse fmt store rnd "rank the worst areas".toList ≠
      getMostPollutedAreasRanking fmt store ∧
    generateResponse fmt store rnd "most polluted ranking".toList =
      getCleanestAreasRanking fmt store := by
  have hc : (getCleanestAreasRanking fmt store).head? = some '🏆' := rfl
  have hm : (getMostPollutedAreasRanking fmt store).head? = some '⚠' := rfl
  have hne : getCleanestAreasRanking fmt store ≠ [] := by
    intro h; rw [h] at hc; simp at hc
  have h1 : getRanking fmt store "rank the worst areas".toList =
      getCleanestAreasRanking fmt store := rfl
  have h2 : getRanking fmt store "most polluted ranking".toList =
      getCleanestAreasRanking fmt store := rfl
  refine ⟨?_, by decide, by decide, ?_, ?_, ?_⟩
  · intro u hu
    have hg : getRanking fmt store u = getCleanestAreasRanking fmt store := by
      unfold getRanking
      simp only [hu, Bool.true_or, if_true]
    rw [generateResponse_of_ranking fmt store rnd u (by rw [hg]; exact hne), hg]
  · rw [generateResponse_of_ranking fmt store rnd _ (by rw [h1]; exact hne), h1]
  · rw [generateResponse_of_ranking fmt store rnd _ (by rw [h1]; exact hne), h1]
    intro heq
    rw [heq, hm] at hc
    revert hc
    decide
  · rw [generateResponse_of_ranking fmt store rnd _ (by rw [h2]; exact hne), h2]

/-! ## 32-bit `int` arithmetic -/

theorem wrapInt_of_range (x : Int) (h1 : -2147483648 ≤ x) (h2 : x ≤ 2147483647) :
    wrapInt x = x := by
  unfold wrapInt
  omega

theorem wrapInt_add_left (a b : Int) : wrapInt (wrapInt a + b) = wrapInt (a + b) := by
  unfold wrapInt
  omega

/-- Within the range of `int`, the sign of the wrapped difference is the order of the two
values and `abs` gives the distance. -/
theorem change_of_range (a b : Int) (h1 : -2147483647 ≤ a - b) (h2 : a - b ≤ 2147483647) :
    wrapInt (a - b) = a - b ∧ (wrapInt (a - b) > 0 ↔ a > b) ∧ (wrapInt (a - b) < 0 ↔ a < b) ∧
    intToStr (absInt (wrapInt (a - b))) = natToStr (a - b).natAbs := by
  have hw : wrapInt (a - b) = a - b := wrapInt_of_range _ (by omega) h2
  rw [hw]
  refine ⟨rfl, by omega, by omega, ?_⟩
  unfold absInt intToStr natToStr
  by_cases hneg : a - b < 0
  · rw [if_pos hneg, wrapInt_of_range _ (by omega) (by omega), if_neg (by omega)]
    congr 1
    omega
  · rw [if_neg hneg, if_neg hneg]

/-! ## The single-area report of the date-scoped step -/

/-- C3, counterexample: in `edgeStore` the triples (district, state, date) are unique, the
utterance "KL 29 Oct" passes the ranking and health detectors and yields 2025-10-29, the first
reading is the one matched and reported, and the second reading has the same area and is dated
`getPreviousDate "2025-10-29"` (the empty string); yet the response has no change line. In
`overflowStore` the reading of 2025-11-29 is 2147483647 and that of 2025-11-28 is -2147483647:
the first is the greater, but the `int` difference wraps to -2 and the change line of
"KL today" says "improved by 2 points". -/
theorem change_line_missing_or_wrapped :
    (∀ a ∈ edgeStore, ∀ b ∈ edgeStore,
      a.district = b.district → a.state = b.state → a.date = b.date → a = b) ∧
    getRanking sampleFmt edgeStore "KL 29 Oct".toList = [] ∧
    getHealthAdvisoryWithLocation edgeStore "KL 29 Oct".toList = [] ∧
    extractDateFromQuery "KL 29 Oct".toList = "2025-10-29".toList ∧
    firstAreaMatch edgeStore "KL 29 Oct".toList =
      some ⟨"Kuala Lumpur".toList, "Selangor".toList, 50, "Good".toList, "2025-10-29".toList⟩ ∧
    edgeStore.find? (fun data =>
      (found (toLower data.district) (toLower "Kuala Lumpur".toList) ||
        found (toLower data.state) (toLower "Kuala Lumpur".toList)) &&
      decide (data.date = "2025-10-29".toList)) =
      some ⟨"Kuala Lumpur".toList, "Selangor".toList, 50, "Good".toList, "2025-10-29".toList⟩ ∧
    (⟨"Kuala Lumpur".toList, "Selangor".toList, 40, "Good".toList,
      getPreviousDate "2025-10-29".toList⟩ : APIData) ∈ edgeStore ∧
    generateResponse sampleFmt edgeStore 0 "KL 29 Oct".toList =
      concat ["Air Quality in Kuala Lumpur, Selangor on 2025-10-29:\n".toList,
        "• API Reading: 50\n".toList, "• Status: Good\n".toList,
        "• Advice: Air quality is satisfactory. Enjoy outdoor activities!\n".toList] ∧
    found (generateResponse sampleFmt edgeStore 0 "KL 29 Oct".toList)
      "worsened by 10 points".toList = false ∧
    (∀ a ∈ overflowStore, ∀ b ∈ overflowStore,
      a.district = b.district → a.state = b.state → a.date = b.date → a = b) ∧
    getRanking sampleFmt overflowStore "KL today".toList = [] ∧
    getHealthAdvisoryWithLocation overflowStore "KL today".toList = [] ∧
    extractDateFromQuery "KL today".toList = "2025-11-29".toList ∧
    getPreviousDate "2025-11-29".toList = "2025-11-28".toList ∧
    (firstAreaMatch overflowStore "KL today".toList).map (fun x => x.district) =
      some "Kuala Lumpur".toList ∧
    overflowStore.find? (fun data =>
      (found (toLower data.district) (toLower "Kuala Lumpur".toList) ||
        found (toLower data.state) (toLower "Kuala Lumpur".toList)) &&
      decide (data.date = "2025-11-29".toList)) =
      some ⟨"Kuala Lumpur".toList, "Selangor".toList, 2147483647, "Hazardous".toList,
        "2025-11-29".toList⟩ ∧
    generateResponse sampleFmt overflowStore 0 "KL today".toList =
      concat ["Air Quality in Kuala Lumpur, Selangor on 2025-11-29:\n".toList,
        "• API Reading: 2147483647\n".toList, "• Status: Hazardous\n".toList,
        "• Advice: No specific advice available.\n".toList,
        "• Change from previous day: improved by 2 points\n".toList] := by
  decide

/-- C3, amended: as claimed, under two further conditions: `getPreviousDate d` is not empty
(`d` lies between 2025-10-30 and 2025-11-29), and the difference of the two readings lies
within the range of `int` (between -2147483647 and 2147483647). In a store with unique
(district, state, date), if the utterance passes the ranking and health detectors and yields
date `d`, its first matching reading `x` has the district of `r`, `r` is the first reading
dated `d` whose lower-cased district or state contains that district name, and `p` is a
reading of the same district and state dated `getPreviousDate d`, then the response reports the
reading, the stored status and the advice of `r`, and the change line "worsened" / "improved" /
"stable" by `|r.apiReading - p.apiReading|` points. -/
theorem area_date_report (fmt : Option ℚ → Str) (store : List APIData) (rnd : Nat)
    (u d : Str) (r p x : APIData)
    (huniq : ∀ a ∈ store, ∀ b ∈ store,
      a.district = b.district → a.state = b.state → a.date = b.date → a = b)
    (hp : p ∈ store) (hpd : p.district = r.district) (hps : p.state = r.state)
    (hpdate : p.date = getPreviousDate d) (hprev : getPreviousDate d ≠ [])
    (hlo : -2147483647 ≤ r.apiReading - p.apiReading)
    (hhi : r.apiReading - p.apiReading ≤ 2147483647)
    (hrank : getRanking fmt store u = [])
    (hhealth : getHealthAdvisoryWithLocation store u = [])
    (hdate : extractDateFromQuery u = d)
    (hfirst : firstAreaMatch store u = some x) (hx : x.district = r.district)
    (hr : store.find? (fun data =>
      (found (toLower data.district) (toLower r.district) ||
        found (toLower data.state) (toLower r.district)) && decide (data.date = d)) = some r) :
    generateResponse fmt store rnd u =
      concat [
        "Air Quality in ".toList, r.district, ", ".toList, r.state, " on ".toList, d,
        ":\n".toList,
        "• API Reading: ".toList, intToStr r.apiReading, "\n".toList,
        "• Status: ".toList, r.status, "\n".toList,
        "• Advice: ".toList, getHealthAdvice r.status, "\n".toList,
        concat ["• Change from previous day: ".toList,
          if r.apiReading > p.apiReading then "worsened".toList
          else if r.apiReading < p.apiReading then "improved".toList else "stable".toList,
          " by ".toList, natToStr (r.apiReading - p.apiReading).natAbs, " points\n".toList]] := by
  have hdne : extractDateFromQuery u ≠ [] := by
    rw [hdate]
    intro h0
    rw [h0] at hprev
    exact hprev (by decide)
  rw [generateResponse_of_date fmt store rnd u hrank hhealth hdne, hfirst, hdate]
  simp only []
  unfold getDataForAreaAndDate
  rw [hx, hr]
  simp only []
  -- the change line
  have hchange : changeLine store r d =
      concat ["• Change from previous day: ".toList,
        if r.apiReading > p.apiReading then "worsened".toList
        else if r.apiReading < p.apiReading then "improved".toList else "stable".toList,
        " by ".toList, natToStr (r.apiReading - p.apiReading).natAbs, " points\n".toList] := by
    unfold changeLine
    have hne : (!(getPreviousDate d).isEmpty) = true := by
      cases hq : getPreviousDate d with
      | nil => exact absurd hq hprev
      | cons c cs => rfl
    simp only [hne, if_true]
    have hsat : (fun prev_data : APIData =>
        decide (prev_data.district = r.district) && decide (prev_data.state = r.state) &&
        decide (prev_data.date = getPreviousDate d)) p = true := by
      simp [hpd, hps, hpdate]
    cases hf : store.find? (fun prev_data : APIData =>
        decide (prev_data.district = r.district) && decide (prev_data.state = r.state) &&
        decide (prev_data.date = getPreviousDate d)) with
    | none =>
      have := List.find?_eq_none.mp hf p hp
      exact absurd hsat this
    | some q =>
      have hq := List.find?_some hf
      have hqm := List.mem_of_find?_eq_some hf
      simp only [Bool.and_eq_true, decide_eq_true_eq] at hq
      have hqp : q = p :=
        huniq q hqm p hp (hq.1.1.trans hpd.symm) (hq.1.2.trans hps.symm) (hq.2.trans hpdate.symm)
      subst hqp
      simp only []
      obtain ⟨-, h1, h2, h3⟩ := change_of_range r.apiReading q.apiReading hlo hhi
      have e1 : (wrapInt (r.apiReading - q.apiReading) > 0) = (r.apiReading > q.apiReading) :=
        propext h1
      have e2 : (wrapInt (r.apiReading - q.apiReading) < 0) = (r.apiReading < q.apiReading) :=
        propext h2
      simp only [e1, e2, h3]
  rw [hchange]

/-- Witness for the amended C3: on the sample store the query "KL today" reports API 120,
status Unhealthy and "worsened by 60 points" against the reading of 2025-11-28. -/
theorem area_date_report_witness :
    generateResponse sampleFmt sampleStore 0 "KL today".toList =
      concat ["Air Quality in Kuala Lumpur, Selangor on 2025-11-29:\n".toList,
        "• API Reading: 120\n".toList, "• Status: Unhealthy\n".toList,
        "• Advice: Everyone may experience health effects. Reduce outdoor activities.\n".toList,
        "• Change from previous day: worsened by 60 points\n".toList] :=
  (area_date_report sampleFmt sampleStore 0 "KL today".toList "2025-11-29".toList
    ⟨"Kuala Lumpur".toList, "Selangor".toList, 120, "Unhealthy".toList, "2025-11-29".toList⟩
    ⟨"Kuala Lumpur".toList, "Selangor".toList, 60, "Moderate".toList, "2025-11-28".toList⟩
    ⟨"Kuala Lumpur".toList, "Selangor".toList, 40, "Good".toList, "2025-11-27".toList⟩
    (by decide) (by decide) (by decide) (by decide) (by decide) (by decide) (by decide)
    (by decide) (by decide) (by decide) (by decide) (by decide) (by decide)
    (by decide)).trans (by decide)

/-! ## The empty record store -/

/-- C4, counterexample: with an empty store the area lookup "Kuala Lumpur" is answered with
a canned suggestion of the fallback pool and the statistics utterance "compare the stats" with
a bare comparison header; neither response says that no data is available. -/
theorem empty_store_not_always_no_data :
    generateResponse sampleFmt [] 0 "Kuala Lumpur".toList =
      "I have daily air quality data. Try: 'today', '29 Nov', or 'How was Kuala Lumpur yesterday?'".toList ∧
    found (toLower (generateResponse sampleFmt [] 0 "Kuala Lumpur".toList)) "no data".toList
      = false ∧
    found (toLower "compare the stats".toList) "stat".toList = true ∧
    generateResponse sampleFmt [] 0 "compare the stats".toList =
      "Area Comparison (Average API Nov 2025):\n".toList ∧
    found (toLower (generateResponse sampleFmt [] 0 "compare the stats".toList)) "no data".toList
      = false := by
  decide

/-- C4, amended: with an empty store, every statistics utterance (one containing "stat") on
which neither the ranking nor the health detector fires and which holds none of "trend",
"november", "october", "compare" is answered with "No data available." or, when it holds a
date, with "No data available for " followed by that date; no utterance matches a reading, and
the area lookup "Kuala Lumpur" falls through to one of the five default responses. -/
theorem empty_store_responses (fmt : Option ℚ → Str) (rnd : Nat) (u : Str) :
    (found (toLower u) "stat".toList = true → getRanking fmt [] u = [] →
      health_question u = false → found (toLower u) "trend".toList = false →
      found (toLower u) "november".toList = false →
      found (toLower u) "october".toList = false →
      found (toLower u) "compare".toList = false →
      generateResponse fmt [] rnd u = "No data available.".toList ∨
      (extractDateFromQuery u ≠ [] ∧
        generateResponse fmt [] rnd u =
          concat ["No data available for ".toList, extractDateFromQuery u])) ∧
    firstAreaMatch [] u = none ∧
    generateResponse fmt [] rnd "Kuala Lumpur".toList = getRandomResponse rnd ∧
    getRandomResponse rnd ∈ default_responses_ := by
  refine ⟨?_, rfl, rfl, ?_⟩
  · intro hstat hrank hhealth htrend hnov hoct hcmp
    have hh : getHealthAdvisoryWithLocation [] u = [] :=
      (getHealthAdvisoryWithLocation_eq_nil [] u).mpr hhealth
    obtain ⟨-, -, hbest, -, hworst, -, -, -, hlist⟩ := getRanking_eq_nil fmt [] u hrank
    by_cases hd : extractDateFromQuery u = []
    · left
      have htoday : found (toLower u) "today".toList = false := by
        cases ht : found (toLower u) "today".toList
        · rfl
        · rw [extractDateFromQuery_today u ht] at hd
          exact absurd hd (by decide)
      rw [generateResponse_of_no_date fmt [] rnd u hrank hh hd]
      unfold laterSteps
      simp only [htoday, htrend, hnov, hoct, hcmp, hworst, hbest, hlist, hstat, Bool.false_and,
        Bool.false_or, Bool.or_false, Bool.false_eq_true, if_false, if_true]
      split
      · rfl
      · split
        · rfl
        · rfl
    · right
      refine ⟨hd, ?_⟩
      rw [generateResponse_of_date fmt [] rnd u hrank hh hd]
      rfl
  · unfold getRandomResponse
    have h5 : default_responses_.length = 5 := rfl
    have hlt : rnd % default_responses_.length < default_responses_.length := by
      rw [h5]; exact Nat.mod_lt _ (by decide)
    rw [List.getD_eq_getElem _ _ hlt]
    exact List.getElem_mem _

/-- Witness for the amended C4: the utterance "stat" on the empty store. -/
theorem empty_store_responses_witness :
    generateResponse sampleFmt [] 0 "stat".toList = "No data available.".toList ∨
    (extractDateFromQuery "stat".toList ≠ [] ∧
      generateResponse sampleFmt [] 0 "stat".toList =
        concat ["No data available for ".toList, extractDateFromQuery "stat".toList]) :=
  (empty_store_responses sampleFmt 0 "stat".toList).1 (by decide) (by decide) (by decide)
    (by decide) (by decide) (by decide) (by decide)

/-! ## Status thresholds -/

/-- C5: for every value `v`, `getStatusFromAPI v` is "Good" exactly when `v ≤ 50`, "Moderate"
exactly when `50 < v ≤ 100` and "Unhealthy" exactly when `v > 100`; 50 gives Good, 51 and 100
give Moderate, 101 gives Unhealthy. -/
theorem getStatusFromAPI_thresholds (v : ℚ) :
    (getStatusFromAPI v = "Good".toList ↔ v ≤ 50) ∧
    (getStatusFromAPI v = "Moderate".toList ↔ 50 < v ∧ v ≤ 100) ∧
    (getStatusFromAPI v = "Unhealthy".toList ↔ 100 < v) ∧
    getStatusFromAPI 50 = "Good".toList ∧
    getStatusFromAPI 51 = "Moderate".toList ∧
    getStatusFromAPI 100 = "Moderate".toList ∧
    getStatusFromAPI 101 = "Unhealthy".toList := by
  have hgm : "Good".toList ≠ "Moderate".toList := by decide
  have hgu : "Good".toList ≠ "Unhealthy".toList := by decide
  have hmu : "Moderate".toList ≠ "Unhealthy".toList := by decide
  refine ⟨?_, ?_, ?_, ?_, ?_, ?_, ?_⟩
  · unfold getStatusFromAPI
    split_ifs with h1 h2
    · simp [h1]
    · simp [h1, hgm.symm]
    · simp [h1, hgu.symm]
  · unfold getStatusFromAPI
    split_ifs with h1 h2
    · constructor
      · intro h; exact absurd h hgm
      · intro h; exact absurd h1 (not_le.mpr h.1)
    · simp [h2, not_le.mp h1]
    · constructor
      · intro h; exact absurd h hmu.symm
      · intro h; exact absurd h.2 h2
  · unfold getStatusFromAPI
    split_ifs with h1 h2
    · constructor
      · intro h; exact absurd h hgu
      · intro h; linarith
    · constructor
      · intro h; exact absurd h hmu
      · intro h; linarith
    · simp [not_le.mp h2]
  · norm_num [getStatusFromAPI]
  · norm_num [getStatusFromAPI]
  · norm_num [getStatusFromAPI]
  · norm_num [getStatusFromAPI]

/-! ## Date extraction -/

theorem isSpaceC_cases (c : Char) (h : isSpaceC c = true) :
    c = ' ' ∨ c = '\t' ∨ c = '\n' ∨ c = '\x0b' ∨ c = '\x0c' ∨ c = '\r' := by
  unfold isSpaceC at h
  simp only [Bool.or_eq_true, decide_eq_true_eq] at h
  tauto

theorem isDigitC_toNat (c : Char) (h : isDigitC c = true) : 48 ≤ c.toNat ∧ c.toNat ≤ 57 := by
  unfold isDigitC at h
  simp only [Bool.and_eq_true, decide_eq_true_eq] at h
  obtain ⟨h1, h2⟩ := h
  rw [Char.le_def] at h1 h2
  exact ⟨h1, h2⟩

theorem toLower_of_isDigitC (c : Char) (h : isDigitC c = true) : c.toLower = c := by
  have := isDigitC_toNat c h
  unfold Char.toLower
  simp only []
  rw [if_neg]
  omega

theorem isDigitC_not_space (c : Char) (h : isDigitC c = true) : isSpaceC c = false := by
  cases hs : isSpaceC c
  · rfl
  · exfalso
    rcases isSpaceC_cases c hs with e | e | e | e | e | e <;> subst e <;> revert h <;> decide

theorem toLower_of_isSpaceC (c : Char) (h : isSpaceC c = true) : c.toLower = c := by
  rcases isSpaceC_cases c h with e | e | e | e | e | e <;> subst e <;> decide

/-- A character whose lower-case form is a lower-case letter of a month abbreviation is
neither a digit nor white space. -/
theorem letter_of_toLower (c x : Char) (hx : isDigitC x = false ∧ isSpaceC x = false)
    (h : c.toLower = x) : isDigitC c = false ∧ isSpaceC c = false := by
  constructor
  · cases hd : isDigitC c
    · rfl
    · rw [toLower_of_isDigitC c hd] at h
      rw [h] at hd
      rw [hd] at hx
      exact absurd hx.1 (by decide)
  · cases hs : isSpaceC c
    · rfl
    · rw [toLower_of_isSpaceC c hs] at h
      rw [h] at hs
      rw [hs] at hx
      exact absurd hx.2 (by decide)

/-- Every character of a month abbreviation is neither a digit nor white space. -/
theorem monthAbbrevs_letters :
    ∀ a ∈ monthAbbrevs, ∀ x ∈ a, isDigitC x = false ∧ isSpaceC x = false := by
  decide

/-- A three-character text whose lower-case form is a month abbreviation consists of
characters that are neither digits nor white space. -/
theorem month_chars (a b c : Char) (h : toLower [a, b, c] ∈ monthAbbrevs) :
    (isDigitC a = false ∧ isSpaceC a = false) ∧ (isDigitC b = false ∧ isSpaceC b = false) ∧
    (isDigitC c = false ∧ isSpaceC c = false) := by
  have hl := monthAbbrevs_letters _ h
  refine ⟨letter_of_toLower a _ (hl a.toLower ?_) rfl, letter_of_toLower b _ (hl b.toLower ?_) rfl,
    letter_of_toLower c _ (hl c.toLower ?_) rfl⟩ <;> simp [toLower]

theorem matchMonth_of_mem (a b c : Char) (rest : Str) (h : toLower [a, b, c] ∈ monthAbbrevs) :
    matchMonth (a :: b :: c :: rest) = some ([a, b, c], rest) := by
  have hc : monthAbbrevs.contains (toLower [a, b, c]) = true := by
    simpa using h
  simp only [matchMonth, hc, if_true]

/-- The day-first pattern matches at the head of a one- or two-digit day numeral followed by
white-space-free month text. -/
theorem searchDayMonth_day_first (day : Str) (a b c : Char) (rest : Str)
    (hlen : day.length = 1 ∨ day.length = 2) (hdig : day.all isDigitC = true)
    (h : toLower [a, b, c] ∈ monthAbbrevs) :
    searchDayMonth (day ++ ' ' :: a :: b :: c :: rest) = some (day, [a, b, c]) := by
  obtain ⟨⟨-, hsa⟩, -, -⟩ := month_chars a b c h
  have hmm := matchMonth_of_mem a b c rest h
  rcases hlen with hlen | hlen
  · obtain ⟨d1, rfl⟩ := List.length_eq_one.mp hlen
    simp only [List.all_cons, List.all_nil, Bool.and_true] at hdig
    simp [searchDayMonth, matchDayMonthAt, tryDayMonth, digitsAt, dropSpaces, hdig, hsa, hmm,
      show isDigitC ' ' = false by decide, show isSpaceC ' ' = true by decide]
  · obtain ⟨d1, d2, rfl⟩ := List.length_eq_two.mp hlen
    simp only [List.all_cons, List.all_nil, Bool.and_true, Bool.and_eq_true] at hdig
    simp [searchDayMonth, matchDayMonthAt, tryDayMonth, digitsAt, dropSpaces, hdig.1, hdig.2, hsa,
      hmm, show isSpaceC ' ' = true by decide]

theorem toLower_digits (day : Str) (hdig : day.all isDigitC = true) : toLower day = day := by
  unfold toLower
  induction day with
  | nil => rfl
  | cons c cs ih =>
    simp only [List.all_cons, Bool.and_eq_true] at hdig
    rw [List.map_cons, toLower_of_isDigitC c hdig.1, ih hdig.2]

theorem isDigitC_ne_t (c : Char) (h : isDigitC c = true) : c ≠ 't' ∧ c ≠ 'y' := by
  constructor <;> (rintro rfl; revert h; decide)

/-- Neither "today" nor "yesterday" occurs in a day numeral followed by a blank and three
characters, or in three characters followed by a blank and a day numeral. -/
theorem no_today_in_short_date (day : Str) (a b c : Char)
    (hlen : day.length = 1 ∨ day.length = 2) (hdig : day.all isDigitC = true) :
    found (toLower (day ++ ' ' :: [a, b, c])) "today".toList = false ∧
    found (toLower (day ++ ' ' :: [a, b, c])) "yesterday".toList = false ∧
    found (toLower ([a, b, c] ++ ' ' :: day)) "today".toList = false ∧
    found (toLower ([a, b, c] ++ ' ' :: day)) "yesterday".toList = false := by
  have hsp : Char.toLower ' ' = ' ' := by decide
  rcases hlen with hlen | hlen
  · obtain ⟨d1, rfl⟩ := List.length_eq_one.mp hlen
    simp only [List.all_cons, List.all_nil, Bool.and_true] at hdig
    obtain ⟨h1, h2⟩ := isDigitC_ne_t d1 hdig
    have hl := toLower_of_isDigitC d1 hdig
    simp [toLower, found, startsWith, hsp, hl, h1, h2]
  · obtain ⟨d1, d2, rfl⟩ := List.length_eq_two.mp hlen
    simp only [List.all_cons, List.all_nil, Bool.and_true, Bool.and_eq_true] at hdig
    obtain ⟨h1, h2⟩ := isDigitC_ne_t d1 hdig.1
    obtain ⟨h3, h4⟩ := isDigitC_ne_t d2 hdig.2
    have hl1 := toLower_of_isDigitC d1 hdig.1
    have hl2 := toLower_of_isDigitC d2 hdig.2
    simp [toLower, found, startsWith, hsp, hl1, hl2, h1, h2, h3, h4]

/-- The day-first pattern finds nothing in month text followed by a blank and a day
numeral. -/
theorem searchDayMonth_month_first (day : Str) (a b c : Char)
    (hlen : day.length = 1 ∨ day.length = 2) (hdig : day.all isDigitC = true)
    (h : toLower [a, b, c] ∈ monthAbbrevs) :
    searchDayMonth ([a, b, c] ++ ' ' :: day) = none := by
  obtain ⟨⟨hda, -⟩, ⟨hdb, -⟩, ⟨hdc, -⟩⟩ := month_chars a b c h
  rcases hlen with hlen | hlen
  · obtain ⟨d1, rfl⟩ := List.length_eq_one.mp hlen
    simp only [List.all_cons, List.all_nil, Bool.and_true] at hdig
    simp [searchDayMonth, matchDayMonthAt, tryDayMonth, digitsAt, dropSpaces, matchMonth, hdig,
      hda, hdb, hdc, show isDigitC ' ' = false by decide]
  · obtain ⟨d1, d2, rfl⟩ := List.length_eq_two.mp hlen
    simp only [List.all_cons, List.all_nil, Bool.and_true, Bool.and_eq_true] at hdig
    simp [searchDayMonth, matchDayMonthAt, tryDayMonth, digitsAt, dropSpaces, matchMonth, hdig.1,
      hdig.2, isDigitC_not_space d2 hdig.2, hda, hdb, hdc, show isDigitC ' ' = false by decide]

/-- The month-first pattern matches at the head of month text followed by a blank and a day
numeral. -/
theorem searchMonthDay_month_first (day : Str) (a b c : Char)
    (hlen : day.length = 1 ∨ day.length = 2) (hdig : day.all isDigitC = true)
    (h : toLower [a, b, c] ∈ monthAbbrevs) :
    searchMonthDay ([a, b, c] ++ ' ' :: day) = some ([a, b, c], day) := by
  have hmm := matchMonth_of_mem a b c (' ' :: day) h
  rcases hlen with hlen | hlen
  · obtain ⟨d1, rfl⟩ := List.length_eq_one.mp hlen
    simp only [List.all_cons, List.all_nil, Bool.and_true] at hdig
    simp [searchMonthDay, matchMonthDayAt, digitsAt, dropSpaces, hmm, hdig,
      isDigitC_not_space d1 hdig, show isSpaceC ' ' = true by decide]
  · obtain ⟨d1, d2, rfl⟩ := List.length_eq_two.mp hlen
    simp only [List.all_cons, List.all_nil, Bool.and_true, Bool.and_eq_true] at hdig
    simp [searchMonthDay, matchMonthDayAt, digitsAt, dropSpaces, hmm, hdig.1, hdig.2,
      isDigitC_not_space d1 hdig.1, show isSpaceC ' ' = true by decide]

/-- The month table maps abbreviation number `i` (from 0) to the two-digit code `i + 1`. -/
theorem months_code :
    ∀ i : Fin 12, mapGet? months (monthAbbrevs.getD i.val []) = some (twoDigits (i.val + 1)) := by
  decide

/-- C6: for every day numeral `day` of one or two digits and every text `m` whose lower-case
form is the three-letter month abbreviation number `i` (jan = 0 ... dec = 11), the forms
`day ++ " " ++ m` and `m ++ " " ++ day` both yield "2025-" ++ two-digit code `i + 1` ++ "-" ++
the day padded to two digits; "today" yields 2025-11-29, "no date here" yields the empty
string, "29 Nov" and "Nov 29" both yield 2025-11-29. -/
theorem extractDateFromQuery_short_dates (day m : Str) (i : Nat)
    (hlen : day.length = 1 ∨ day.length = 2) (hdig : day.all isDigitC = true)
    (hm : monthAbbrevs[i]? = some (toLower m)) :
    extractDateFromQuery (day ++ ' ' :: m) =
      concat ["2025-".toList, twoDigits (i + 1), "-".toList,
        if day.length = 1 then '0' :: day else day] ∧
    extractDateFromQuery (m ++ ' ' :: day) =
      concat ["2025-".toList, twoDigits (i + 1), "-".toList,
        if day.length = 1 then '0' :: day else day] ∧
    extractDateFromQuery "today".toList = "2025-11-29".toList ∧
    extractDateFromQuery "no date here".toList = [] ∧
    extractDateFromQuery "29 Nov".toList = "2025-11-29".toList ∧
    extractDateFromQuery "Nov 29".toList = "2025-11-29".toList := by
  refine ⟨?_, ?_, by decide, by decide, by decide, by decide⟩
  all_goals
    obtain ⟨hi, hget⟩ := List.getElem?_eq_some.mp hm
    have hi12 : i < 12 := hi
    have hmem : toLower m ∈ monthAbbrevs := hget ▸ List.getElem_mem hi
    have hcode : mapGet? months (toLower m) = some (twoDigits (i + 1)) := by
      have := months_code ⟨i, hi12⟩
      rw [List.getD_eq_getElem _ _ hi] at this
      simpa [hget] using this
    have hl3 : m.length = 3 := by
      have : (toLower m).length = 3 := by
        revert hmem
        generalize toLower m = x
        intro hx
        simp only [monthAbbrevs, List.map_cons, List.map_nil, List.mem_cons,
          List.mem_singleton, List.not_mem_nil, or_false] at hx
        rcases hx with h | h | h | h | h | h | h | h | h | h | h | h <;> (subst h; rfl)
      simpa [toLower] using this
    obtain ⟨a, b, c, rfl⟩ := List.length_eq_three.mp hl3
    obtain ⟨ht1, hy1, ht2, hy2⟩ := no_today_in_short_date day a b c hlen hdig
    unfold extractDateFromQuery
  · simp only [ht1, hy1, Bool.false_eq_true, if_false,
      searchDayMonth_day_first day a b c [] hlen hdig hmem, Option.bind, buildDate, hcode]
  · simp only [ht2, hy2, Bool.false_eq_true, if_false,
      searchDayMonth_month_first day a b c hlen hdig hmem,
      searchMonthDay_month_first day a b c hlen hdig hmem, Option.bind, buildDate, hcode]

/-- Witness for C6: the day numeral "29" and the text "Nov" (abbreviation number 10). -/
theorem extractDateFromQuery_short_dates_witness :
    extractDateFromQuery "29 Nov".toList = "2025-11-29".toList ∧
    extractDateFromQuery "Nov 29".toList = "2025-11-29".toList :=
  ⟨(extractDateFromQuery_short_dates "29".toList "Nov".toList 10 (by decide) (by decide)
      (by decide)).1,
   (extractDateFromQuery_short_dates "29".toList "Nov".toList 10 (by decide) (by decide)
      (by decide)).2.1⟩

theorem matchMonth_some (s mo rest : Str) (h : matchMonth s = some (mo, rest)) :
    toLower mo ∈ monthAbbrevs := by
  unfold matchMonth at h
  split at h
  · split at h
    · next hc =>
      simp only [Option.some.injEq, Prod.mk.injEq] at h
      rw [← h.1]
      simpa using hc
    · exact absurd h (by simp)
  · exact absurd h (by simp)

theorem tryDayMonth_some (s : Str) (k : Nat) (day mo : Str)
    (h : tryDayMonth s k = some (day, mo)) : toLower mo ∈ monthAbbrevs := by
  unfold tryDayMonth at h
  split at h
  · split at h
    · next month rest hm =>
      simp only [Option.some.injEq, Prod.mk.injEq] at h
      rw [← h.2]
      exact matchMonth_some _ _ _ hm
    · exact absurd h (by simp)
  · exact absurd h (by simp)

theorem searchDayMonth_some (u day mo : Str) (h : searchDayMonth u = some (day, mo)) :
    toLower mo ∈ monthAbbrevs := by
  induction u with
  | nil => exact absurd h (by simp [searchDayMonth])
  | cons c cs ih =>
    unfold searchDayMonth at h
    split at h
    · next r hr =>
      simp only [Option.some.injEq] at h
      subst h
      unfold matchDayMonthAt at hr
      split at hr
      · next r2 h2 =>
        simp only [Option.some.injEq] at hr
        subst hr
        exact tryDayMonth_some _ _ _ _ h2
      · exact tryDayMonth_some _ _ _ _ hr
    · exact ih h

/-- Every month abbreviation is a key of the month table. -/
theorem months_has_abbrevs : ∀ a ∈ monthAbbrevs, (mapGet? months a).isSome = true := by
  decide

/-- C7: `extractDateFromQuery` applies its rules in the order "today", "yesterday",
day-then-month, month-then-day: an utterance containing "today" yields 2025-11-29 whatever
else it contains; one containing "yesterday" but not "today" yields 2025-11-28; and with
neither word, when both patterns occur, the captures (day, month) of the day-then-month
pattern decide the result, also when the month-then-day match stands earlier ("Nov 29 and
5 Dec" yields 2025-12-05). -/
theorem extractDateFromQuery_priority (u : Str) :
    (found (toLower u) "today".toList = true →
      extractDateFromQuery u = "2025-11-29".toList) ∧
    (found (toLower u) "yesterday".toList = true → found (toLower u) "today".toList = false →
      extractDateFromQuery u = "2025-11-28".toList) ∧
    (found (toLower u) "today".toList = false → found (toLower u) "yesterday".toList = false →
      ∀ day month month2 day2 : Str,
        searchDayMonth u = some (day, month) → searchMonthDay u = some (month2, day2) →
        ∃ code, mapGet? months (toLower month) = some code ∧
          extractDateFromQuery u =
            concat ["2025-".toList, code, "-".toList,
              if day.length = 1 then '0' :: day else day]) ∧
    (searchMonthDay "Nov 29 and 5 Dec".toList = some ("Nov".toList, "29".toList) ∧
      searchDayMonth "Nov 29 and 5 Dec".toList = some ("5".toList, "Dec".toList) ∧
      extractDateFromQuery "Nov 29 and 5 Dec".toList = "2025-12-05".toList) := by
  refine ⟨extractDateFromQuery_today u, ?_, ?_, by decide⟩
  · intro hy ht
    unfold extractDateFromQuery
    simp only [ht, hy, Bool.false_eq_true, if_false, if_true]
  · intro ht hy day month month2 day2 h1 _
    have hmem := searchDayMonth_some u day month h1
    have hsome := months_has_abbrevs _ hmem
    obtain ⟨code, hcode⟩ := Option.isSome_iff_exists.mp hsome
    refine ⟨code, hcode, ?_⟩
    unfold extractDateFromQuery
    simp only [ht, hy, Bool.false_eq_true, if_false, h1, Option.bind, buildDate, hcode]

/-- Witness for C7: "what about today or yesterday" holds both words and yields 2025-11-29,
"and yesterday" yields 2025-11-28, and in "Nov 29 and 5 Dec" the day-first match "5 Dec"
decides although "Nov 29" stands earlier. -/
theorem extractDateFromQuery_priority_witness :
    extractDateFromQuery "what about today or yesterday".toList = "2025-11-29".toList ∧
    extractDateFromQuery "and yesterday".toList = "2025-11-28".toList ∧
    (∃ code, mapGet? months (toLower "Dec".toList) = some code ∧
      extractDateFromQuery "Nov 29 and 5 Dec".toList =
        concat ["2025-".toList, code, "-".toList,
          if "5".toList.length = 1 then '0' :: "5".toList else "5".toList]) :=
  ⟨(extractDateFromQuery_priority "what about today or yesterday".toList).1 (by decide),
   (extractDateFromQuery_priority "and yesterday".toList).2.1 (by decide) (by decide),
   (extractDateFromQuery_priority "Nov 29 and 5 Dec".toList).2.2.1 (by decide) (by decide)
     "5".toList "Dec".toList "Nov".toList "29".toList (by decide) (by decide)⟩

/-! ## Month names -/

/-- C8 (the code at the failing input): "November 29" yields no date although "29 November"
yields 2025-11-29; the same holds for every key of the month table longer than three letters
(the full names other than "may"), since both patterns capture three-letter abbreviations
only. -/
theorem month_first_full_name_unrecognised :
    extractDateFromQuery "November 29".toList = [] ∧
    extractDateFromQuery "29 November".toList = "2025-11-29".toList ∧
    (∀ p ∈ months, 3 < p.1.length →
      extractDateFromQuery (p.1 ++ " 29".toList) = [] ∧
      extractDateFromQuery ("29 ".toList ++ p.1) = concat ["2025-".toList, p.2, "-29".toList]) := by
  decide

/-! ## The previous-date table -/

/-- One step through a chain of `if s = k then v else ...`. -/
theorem ite_chain_step {s k v r : Str} [Decidable (s = k)]
    (h : (if s = k then v else r) ≠ []) : s = k ∨ r ≠ [] := by
  by_cases hk : s = k
  · exact Or.inl hk
  · rw [if_neg hk] at h
    exact Or.inr h

/-- Every string on which `getPreviousDate` is non-empty is one of the days 30 .. 60
(2025-10-30 .. 2025-11-29) of the reference calendar. -/
theorem getPreviousDate_ne_nil_mem (s : Str) (h : getPreviousDate s ≠ []) :
    s ∈ (List.range' 30 31).map isoOfDay := by
  unfold getPreviousDate at h
  iterate 31 (refine (ite_chain_step h).elim (fun e => by subst e; decide) (fun h => ?_))
  exact absurd rfl h

/-- C9: for every day `n` of the window 2025-10-30 .. 2025-11-29 (days 30 .. 60 counted from
1 October), `getPreviousDate` of its ISO string is the ISO string of day `n - 1`, the calendar
day before (2025-11-01 gives 2025-10-31); on 2025-10-29 and on every string that is not a date
of the window the result is empty. -/
theorem getPreviousDate_window :
    (∀ n : Nat, 30 ≤ n → n ≤ 60 → getPreviousDate (isoOfDay n) = isoOfDay (n - 1)) ∧
    getPreviousDate "2025-11-01".toList = "2025-10-31".toList ∧
    getPreviousDate "2025-10-29".toList = [] ∧
    (∀ s : Str, (∀ n : Nat, 30 ≤ n → n ≤ 60 → s ≠ isoOfDay n) → getPreviousDate s = []) := by
  refine ⟨?_, by decide, by decide, ?_⟩
  · intro n h1 h2
    interval_cases n <;> decide
  · intro s hs
    by_contra hne
    have hmem := getPreviousDate_ne_nil_mem s hne
    rw [List.mem_map] at hmem
    obtain ⟨n, hn, rfl⟩ := hmem
    rw [List.mem_range'_1] at hn
    exact hs n hn.1 (by omega) rfl

/-- Witness for C9: day 32 (2025-11-01) lies in the window and steps back to 2025-10-31, and
the string "tomorrow" is no date of the window. -/
theorem getPreviousDate_window_witness :
    getPreviousDate (isoOfDay 32) = isoOfDay 31 ∧ isoOfDay 32 = "2025-11-01".toList ∧
    isoOfDay 31 = "2025-10-31".toList ∧ getPreviousDate "tomorrow".toList = [] :=
  ⟨getPreviousDate_window.1 32 (by decide) (by decide), by decide, by decide,
   getPreviousDate_window.2.2.2 "tomorrow".toList (fun n h1 h2 => by
     interval_cases n <;> decide)⟩

/-- C10, counterexample: 2025-10-30 is a date of the window 2025-10-29 .. 2025-11-29, yet two
steps back from it give the empty string, not 2025-10-28. -/
theorem double_step_back_at_window_edge :
    isoOfDay 30 = "2025-10-30".toList ∧
    getPreviousDate (getPreviousDate "2025-10-30".toList) = [] ∧
    getPreviousDate (getPreviousDate "2025-10-30".toList) ≠ "2025-10-28".toList := by
  decide

/-- C10, amended: for every day `n` from 2025-10-31 to 2025-11-29 (days 31 .. 60), two steps
of `getPreviousDate` give the date two calendar days before; from 2025-10-30 and from
2025-10-29 two steps give the empty string, and one step from 2025-10-29, the earliest date of
the window, is empty. -/
theorem getPreviousDate_twice :
    (∀ n : Nat, 31 ≤ n → n ≤ 60 →
      getPreviousDate (getPreviousDate (isoOfDay n)) = isoOfDay (n - 2)) ∧
    getPreviousDate (getPreviousDate (isoOfDay 30)) = [] ∧
    getPreviousDate (getPreviousDate (isoOfDay 29)) = [] ∧
    getPreviousDate (isoOfDay 29) = [] := by
  refine ⟨?_, by decide, by decide, by decide⟩
  intro n h1 h2
  interval_cases n <;> decide

/-- Witness for the amended C10: from 2025-11-01 (day 32) two steps back give 2025-10-30. -/
theorem getPreviousDate_twice_witness :
    getPreviousDate (getPreviousDate (isoOfDay 32)) = isoOfDay 30 ∧
    isoOfDay 32 = "2025-11-01".toList ∧ isoOfDay 30 = "2025-10-30".toList :=
  ⟨getPreviousDate_twice.1 32 (by decide) (by decide), by decide, by decide⟩

/-! ## The string order and the sorted maps -/

theorem strLt_irrefl (a : Str) : strLt a a = false := by
  induction a with
  | nil => rfl
  | cons c cs ih => simp [strLt, ih]

theorem strLt_trans : ∀ a b c : Str, strLt a b = true → strLt b c = true → strLt a c = true
  | [], [], _, h, _ => by simp [strLt] at h
  | [], _ :: _, [], _, h => by simp [strLt] at h
  | [], _ :: _, _ :: _, _, _ => by simp [strLt]
  | _ :: _, [], _, h, _ => by simp [strLt] at h
  | _ :: _, _ :: _, [], _, h => by simp [strLt] at h
  | x :: xs, y :: ys, z :: zs, h1, h2 => by
    unfold strLt at h1 h2 ⊢
    by_cases hxy : x < y
    · by_cases hyz : y < z
      · simp [lt_trans hxy hyz]
      · by_cases hzy : z < y
        · simp [hyz, hzy] at h2
        · have hyz' : y = z := le_antisymm (not_lt.mp hzy) (not_lt.mp hyz)
          subst hyz'
          simp [hxy]
    · by_cases hyx : y < x
      · simp [hxy, hyx] at h1
      · have hxy' : x = y := le_antisymm (not_lt.mp hyx) (not_lt.mp hxy)
        subst hxy'
        simp only [hxy, if_false] at h1
        by_cases hxz : x < z
        · simp [hxz]
        · by_cases hzx : z < x
          · simp [hxz, hzx] at h2
          · simp only [hxz, hzx, if_false] at h2 ⊢
            exact strLt_trans xs ys zs h1 h2

theorem strLt_total : ∀ a b : Str, a ≠ b → strLt a b = false → strLt b a = true
  | [], [], h, _ => absurd rfl h
  | [], _ :: _, _, h => by simp [strLt] at h
  | _ :: _, [], _, _ => by simp [strLt]
  | x :: xs, y :: ys, hne, h => by
    unfold strLt at h ⊢
    by_cases hxy : x < y
    · simp [hxy] at h
    · by_cases hyx : y < x
      · simp [hyx]
      · have hxy' : x = y := le_antisymm (not_lt.mp hyx) (not_lt.mp hxy)
        subst hxy'
        simp only [hxy, if_false] at h ⊢
        exact strLt_total xs ys (fun e => hne (by rw [e])) h

theorem mapGet?_mapPut {V : Type} (m : List (Str × V)) (k : Str) (v : V) (k' : Str) :
    mapGet? (mapPut m k v) k' = if k' = k then some v else mapGet? m k' := by
  induction m with
  | nil =>
    by_cases h : k' = k <;> simp [mapPut, mapGet?, h]
  | cons p rest ih =>
    obtain ⟨k1, v1⟩ := p
    unfold mapPut
    by_cases h1 : k = k1
    · subst h1
      by_cases h : k' = k <;> simp [mapGet?, h]
    · by_cases h2 : strLt k k1 = true
      · by_cases h : k' = k <;> simp [mapGet?, h, h1, h2]
      · by_cases h : k' = k
        · subst h
          simp [mapGet?, h1, h2, ih]
        · by_cases h3 : k' = k1
          · subst h3
            simp [mapGet?, h1, h2, Ne.symm h1]
          · simp [mapGet?, h, h1, h2, h3, ih]

theorem mem_keys_mapPut {V : Type} (m : List (Str × V)) (k : Str) (v : V) (k' : Str) :
    k' ∈ (mapPut m k v).map Prod.fst ↔ k' = k ∨ k' ∈ m.map Prod.fst := by
  induction m with
  | nil => simp [mapPut]
  | cons p rest ih =>
    obtain ⟨k1, v1⟩ := p
    unfold mapPut
    by_cases h1 : k = k1
    · subst h1
      simp only [if_true, List.map_cons, List.mem_cons]
      tauto
    · cases h2 : strLt k k1
      · simp only [h1, Bool.false_eq_true, if_false, List.map_cons, List.mem_cons, ih]
        tauto
      · simp only [h1, if_false, if_true, List.map_cons, List.mem_cons]

theorem keysSorted_mapPut {V : Type} (m : List (Str × V)) (k : Str) (v : V)
    (h : KeysSorted m) : KeysSorted (mapPut m k v) := by
  unfold KeysSorted at h ⊢
  induction m with
  | nil => simp [mapPut]
  | cons p rest ih =>
    obtain ⟨k1, v1⟩ := p
    simp only [List.map_cons, List.pairwise_cons] at h
    unfold mapPut
    by_cases h1 : k = k1
    · subst h1
      simp only [if_true, List.map_cons, List.pairwise_cons]
      exact h
    · cases h2 : strLt k k1
      · simp only [h1, Bool.false_eq_true, if_false, List.map_cons, List.pairwise_cons]
        refine ⟨?_, ih h.2⟩
        intro b hb
        rcases (mem_keys_mapPut rest k v b).mp hb with e | hb'
        · rw [e]
          exact strLt_total k k1 h1 h2
        · exact h.1 b hb'
      · simp only [h1, if_false, if_true, List.map_cons, List.pairwise_cons]
        refine ⟨?_, h⟩
        intro b hb
        rcases List.mem_cons.mp hb with e | hb'
        · rw [e]; exact h2
        · exact strLt_trans _ _ _ h2 (h.1 b hb')

theorem keysSorted_nodup {V : Type} (m : List (Str × V)) (h : KeysSorted m) :
    (m.map Prod.fst).Nodup := by
  unfold KeysSorted at h
  refine List.Pairwise.imp ?_ h
  intro a b hab e
  subst e
  rw [strLt_irrefl] at hab
  exact absurd hab (by decide)

theorem mapGet?_eq_some_iff {V : Type} (m : List (Str × V)) (h : (m.map Prod.fst).Nodup)
    (k : Str) (v : V) : mapGet? m k = some v ↔ (k, v) ∈ m := by
  induction m with
  | nil => simp [mapGet?]
  | cons p rest ih =>
    obtain ⟨k1, v1⟩ := p
    simp only [List.map_cons, List.nodup_cons] at h
    unfold mapGet?
    by_cases h1 : k = k1
    · subst h1
      simp only [if_true, Option.some.injEq, List.mem_cons, Prod.mk.injEq, true_and]
      constructor
      · intro e; exact Or.inl e.symm
      · rintro (e | hm)
        · exact e.symm
        · exact absurd (List.mem_map_of_mem Prod.fst hm) h.1
    · simp only [h1, if_false, List.mem_cons, Prod.mk.injEq, false_and, false_or]
      exact ih h.2

theorem mapGet?_eq_none_iff {V : Type} (m : List (Str × V)) (k : Str) :
    mapGet? m k = none ↔ k ∉ m.map Prod.fst := by
  induction m with
  | nil => simp [mapGet?]
  | cons p rest ih =>
    obtain ⟨k1, v1⟩ := p
    unfold mapGet?
    by_cases h1 : k = k1
    · simp only [h1, if_true, List.map_cons, List.mem_cons, true_or, not_true_eq_false,
        iff_false]
      exact fun h => Option.noConfusion h
    · simp only [h1, if_false, List.map_cons, List.mem_cons, false_or, ih]

theorem find?_snoc_of_some {α : Type} (p : α → Bool) (l : List α) (d r : α)
    (h : l.find? p = some r) : (l ++ [d]).find? p = some r := by
  rw [List.find?_append, h]
  rfl

theorem find?_snoc_of_none {α : Type} (p : α → Bool) (l : List α) (d : α)
    (h : ∀ x ∈ l, p x = false) (hd : p d = true) : (l ++ [d]).find? p = some d := by
  have hn : l.find? p = none := by
    rw [List.find?_eq_none]
    intro x hx
    rw [h x hx]
    decide
  rw [List.find?_append, hn]
  simp [List.find?, hd]

/-! ## Grouping by key -/

/-- What a grouping loop `for (x : l) m[key(x)].push_back(val(x))` leaves under each key. -/
theorem mapGet?_group {α V : Type} (key : α → Str) (val : α → V) (l : List α)
    (m0 : List (Str × List V)) (k : Str) :
    mapGet? (l.foldl (fun m d => mapPush m (key d) (val d)) m0) k =
      if (l.filter (fun d => decide (key d = k))).isEmpty then mapGet? m0 k
      else some ((mapGet? m0 k).getD [] ++ (l.filter (fun d => decide (key d = k))).map val) := by
  induction l generalizing m0 with
  | nil => rfl
  | cons d l ih =>
    rw [List.foldl_cons, ih]
    unfold mapPush
    rw [mapGet?_mapPut]
    by_cases hk : key d = k
    · subst hk
      simp only [List.filter_cons, decide_True, if_true, Option.getD_some, List.map_cons,
        List.append_assoc, List.singleton_append, List.isEmpty_cons, Bool.false_eq_true,
        if_false]
      split <;> simp_all
    · have hk' : ¬ k = key d := fun e => hk e.symm
      simp only [List.filter_cons, hk, decide_False, hk', if_false, Bool.false_eq_true]

theorem keysSorted_group {α V : Type} (key : α → Str) (val : α → V) (l : List α)
    (m0 : List (Str × List V)) (h : KeysSorted m0) :
    KeysSorted (l.foldl (fun m d => mapPush m (key d) (val d)) m0) := by
  induction l generalizing m0 with
  | nil => exact h
  | cons d l ih =>
    rw [List.foldl_cons]
    exact ih _ (keysSorted_mapPut _ _ _ h)

theorem keysSorted_nil {V : Type} : KeysSorted ([] : List (Str × V)) := by
  unfold KeysSorted
  exact List.Pairwise.nil

/-- The groups of a grouping loop started on the empty map: membership of a pair. -/
theorem mem_group {α V : Type} (key : α → Str) (val : α → V) (l : List α) (k : Str)
    (v : List V) :
    (k, v) ∈ l.foldl (fun m d => mapPush m (key d) (val d)) [] ↔
      l.filter (fun d => decide (key d = k)) ≠ [] ∧
      v = (l.filter (fun d => decide (key d = k))).map val := by
  have hs := keysSorted_group key val l [] keysSorted_nil
  rw [← mapGet?_eq_some_iff _ (keysSorted_nodup _ hs), mapGet?_group]
  by_cases hf : l.filter (fun d => decide (key d = k)) = []
  · simp [hf, mapGet?]
  · have hf' : (l.filter (fun d => decide (key d = k))).isEmpty = false := by
      cases hq : l.filter (fun d => decide (key d = k)) with
      | nil => exact absurd hq hf
      | cons x xs => rfl
    simp only [hf', Bool.false_eq_true, if_false, mapGet?, Option.getD_none, List.nil_append,
      Option.some.injEq, ne_eq, hf, not_false_eq_true, true_and]
    exact eq_comm

/-- The keys of a grouping loop started on the empty map. -/
theorem mem_keys_group {α V : Type} (key : α → Str) (val : α → V) (l : List α) (k : Str) :
    k ∈ (l.foldl (fun m d => mapPush m (key d) (val d)) []).map Prod.fst ↔
      ∃ d ∈ l, key d = k := by
  have h := mapGet?_eq_none_iff (l.foldl (fun m d => mapPush m (key d) (val d)) []) k
  rw [mapGet?_group] at h
  by_cases hf : l.filter (fun d => decide (key d = k)) = []
  · simp only [hf, List.isEmpty_nil, if_true, mapGet?, true_iff] at h
    constructor
    · intro hk; exact absurd hk h
    · rintro ⟨d, hd, hkd⟩
      have : d ∈ l.filter (fun d => decide (key d = k)) := by
        rw [List.mem_filter]; exact ⟨hd, by simpa using hkd⟩
      rw [hf] at this
      exact absurd this (List.not_mem_nil d)
  · have hf' : (l.filter (fun d => decide (key d = k))).isEmpty = false := by
      cases hq : l.filter (fun d => decide (key d = k)) with
      | nil => exact absurd hq hf
      | cons x xs => rfl
    simp only [hf', Bool.false_eq_true, if_false, reduceCtorEq, false_iff, not_not] at h
    refine ⟨fun _ => ?_, fun _ => h⟩
    obtain ⟨d, hd⟩ := List.exists_mem_of_ne_nil _ hf
    rw [List.mem_filter] at hd
    exact ⟨d, hd.1, by simpa using hd.2⟩

theorem concat_three (a b c : Str) : concat [a, b, c] = a ++ b ++ c := by
  simp [concat]

/-! ## Area averages -/

theorem area_readings_eq (store : List APIData) :
    area_readings store =
      store.foldl (fun m d => mapPush m (d.district ++ ", ".toList ++ d.state) d.apiReading)
        [] := by
  unfold area_readings
  simp only [concat_three]

theorem calculateAreaAverages_keys (store : List APIData) :
    (calculateAreaAverages store).map Prod.fst = (area_readings store).map Prod.fst := by
  unfold calculateAreaAverages
  rw [List.map_map]
  rfl

theorem areaKeys_nodup (store : List APIData) :
    ((calculateAreaAverages store).map Prod.fst).Nodup := by
  rw [calculateAreaAverages_keys, area_readings_eq]
  exact keysSorted_nodup _ (keysSorted_group _ _ _ _ keysSorted_nil)

theorem mem_areaKeys (store : List APIData) (k : Str) :
    k ∈ (calculateAreaAverages store).map Prod.fst ↔
      ∃ d ∈ store, d.district ++ ", ".toList ++ d.state = k := by
  rw [calculateAreaAverages_keys, area_readings_eq]
  exact mem_keys_group (fun d : APIData => d.district ++ ", ".toList ++ d.state)
    (fun d => d.apiReading) store k

/-- C11: `calculateAreaAverages` returns exactly one pair per distinct area key
`district ++ ", " ++ state` of the store (no key repeated, none missing, none invented), and
the value paired with a key is the sum of the `apiReading` of all readings with that key
divided by their number, which is not zero. -/
theorem calculateAreaAverages_groups (store : List APIData) :
    ((calculateAreaAverages store).map Prod.fst).Nodup ∧
    (∀ k : Str, k ∈ (calculateAreaAverages store).map Prod.fst ↔
      ∃ d ∈ store, d.district ++ ", ".toList ++ d.state = k) ∧
    (∀ (k : Str) (avg : ℚ), (k, avg) ∈ calculateAreaAverages store →
      store.filter (fun d => decide (d.district ++ ", ".toList ++ d.state = k)) ≠ [] ∧
      avg =
        ((store.filter (fun d => decide (d.district ++ ", ".toList ++ d.state = k))).map
          (fun d => (d.apiReading : ℚ))).sum /
        ((store.filter
          (fun d => decide (d.district ++ ", ".toList ++ d.state = k))).length : ℚ)) := by
  refine ⟨areaKeys_nodup store, mem_areaKeys store, ?_⟩
  intro k avg hmem
  unfold calculateAreaAverages at hmem
  rw [List.mem_map] at hmem
  obtain ⟨⟨k', v⟩, hp, he⟩ := hmem
  simp only [Prod.mk.injEq] at he
  obtain ⟨rfl, rfl⟩ := he
  rw [area_readings_eq] at hp
  obtain ⟨hne, hv⟩ := (mem_group (fun d : APIData => d.district ++ ", ".toList ++ d.state)
    (fun d => d.apiReading) store k' v).mp hp
  refine ⟨hne, ?_⟩
  subst hv
  unfold meanOf
  simp only [List.map_map, List.length_map]
  rfl

/-- Witness for C11: in the sample store the key "Kuala Lumpur, Selangor" is paired with
220/3, the mean of its three readings 40, 60 and 120. -/
theorem calculateAreaAverages_groups_witness :
    sampleStore.filter
      (fun d => decide (d.district ++ ", ".toList ++ d.state = "Kuala Lumpur, Selangor".toList))
       ≠ [] ∧
    (220 / 3 : ℚ) =
      ((sampleStore.filter (fun d =>
        decide (d.district ++ ", ".toList ++ d.state = "Kuala Lumpur, Selangor".toList))).map
          (fun d => (d.apiReading : ℚ))).sum /
      ((sampleStore.filter (fun d =>
        decide (d.district ++ ", ".toList ++ d.state = "Kuala Lumpur, Selangor".toList))).length
          : ℚ) :=
  (calculateAreaAverages_groups sampleStore).2.2 "Kuala Lumpur, Selangor".toList (220 / 3)
    (by decide!)

/-! ## The sorted rankings -/

theorem stdSort_perm {α : Type} (lt : α → α → Bool) (l : List α) : (stdSort lt l).Perm l :=
  List.perm_insertionSort _ l

theorem stdSort_length {α : Type} (lt : α → α → Bool) (l : List α) :
    (stdSort lt l).length = l.length :=
  (stdSort_perm lt l).length_eq

/-- The model of `std::sort` orders by `lt` when "not `lt b a`" is total and transitive, as it
is for a comparison of numbers. -/
theorem stdSort_sorted {α : Type} (lt : α → α → Bool)
    (htot : ∀ a b, lt b a = false ∨ lt a b = false)
    (htr : ∀ a b c, lt b a = false → lt c b = false → lt c a = false) (l : List α) :
    (stdSort lt l).Sorted (fun a b => lt b a = false) := by
  haveI : IsTotal α (fun a b => lt b a = false) := ⟨htot⟩
  haveI : IsTrans α (fun a b => lt b a = false) := ⟨htr⟩
  exact List.sorted_insertionSort _ l

theorem sortedAscending_sorted (store : List APIData) :
    (sortedAscending store).Sorted (fun a b => a.2 ≤ b.2) := by
  have h := stdSort_sorted (fun a b : Str × ℚ => decide (a.2 < b.2))
    (fun a b => by
      simp only [decide_eq_false_iff_not, not_lt]
      exact le_total _ _)
    (fun a b c h1 h2 => by
      simp only [decide_eq_false_iff_not, not_lt] at h1 h2 ⊢
      exact le_trans h1 h2)
    (calculateAreaAverages store)
  refine List.Pairwise.imp ?_ h
  intro a b hab
  simpa using hab

theorem sortedDescending_sorted (store : List APIData) :
    (sortedDescending store).Sorted (fun a b => a.2 ≥ b.2) := by
  have h := stdSort_sorted (fun a b : Str × ℚ => decide (a.2 > b.2))
    (fun a b => by
      simp only [gt_iff_lt, decide_eq_false_iff_not, not_lt]
      exact le_total _ _)
    (fun a b c h1 h2 => by
      simp only [gt_iff_lt, decide_eq_false_iff_not, not_lt] at h1 h2 ⊢
      exact le_trans h2 h1)
    (calculateAreaAverages store)
  refine List.Pairwise.imp ?_ h
  intro a b hab
  simpa using hab

/-- C12: the sequence that `getCleanestAreasRanking` sorts is in non-decreasing order of mean
and its first area has the lowest mean; the sequence that `getMostPollutedAreasRanking` sorts
is in non-increasing order and its first area has the highest mean; each of the two is a
permutation of the other (and of the result of `calculateAreaAverages`), and the two rankings
print the first ten entries of these sequences. -/
theorem rankings_sorted_and_permuted (fmt : Option ℚ → Str) (store : List APIData) :
    (sortedAscending store).Sorted (fun a b => a.2 ≤ b.2) ∧
    (∀ first ∈ (sortedAscending store).head?, ∀ p ∈ calculateAreaAverages store,
      first.2 ≤ p.2) ∧
    (sortedDescending store).Sorted (fun a b => a.2 ≥ b.2) ∧
    (∀ first ∈ (sortedDescending store).head?, ∀ p ∈ calculateAreaAverages store,
      p.2 ≤ first.2) ∧
    (sortedAscending store).Perm (sortedDescending store) ∧
    (sortedAscending store).Perm (calculateAreaAverages store) ∧
    getCleanestAreasRanking fmt store =
      concat ["🏆 CLEANEST AREAS RANKING (Average API - Lower is Better):\n".toList,
        List.replicate 45 '=' ++ "\n".toList,
        concat (((sortedAscending store).take 10).enum.map (cleanestEntry fmt))] ∧
    getMostPollutedAreasRanking fmt store =
      concat ["⚠️ MOST POLLUTED AREAS RANKING (Average API - Higher is Worse):\n".toList,
        List.replicate 49 '=' ++ "\n".toList,
        concat (((sortedDescending store).take 10).enum.map (pollutedEntry fmt))] := by
  have hpa : (sortedAscending store).Perm (calculateAreaAverages store) := stdSort_perm _ _
  have hpd : (sortedDescending store).Perm (calculateAreaAverages store) := stdSort_perm _ _
  refine ⟨sortedAscending_sorted store, ?_, sortedDescending_sorted store, ?_,
    hpa.trans hpd.symm, hpa, rfl, rfl⟩
  · intro first hfirst p hp
    have hs := sortedAscending_sorted store
    cases hl : sortedAscending store with
    | nil => rw [hl] at hfirst; simp at hfirst
    | cons x xs =>
      rw [hl] at hfirst hs
      simp only [List.head?_cons, Option.mem_def, Option.some.injEq] at hfirst
      subst hfirst
      have hp' : p ∈ x :: xs := hl ▸ hpa.symm.subset hp
      rcases List.mem_cons.mp hp' with e | hm
      · rw [e]
      · exact (List.sorted_cons.mp hs).1 p hm
  · intro first hfirst p hp
    have hs := sortedDescending_sorted store
    cases hl : sortedDescending store with
    | nil => rw [hl] at hfirst; simp at hfirst
    | cons x xs =>
      rw [hl] at hfirst hs
      simp only [List.head?_cons, Option.mem_def, Option.some.injEq] at hfirst
      subst hfirst
      have hp' : p ∈ x :: xs := hl ▸ hpd.symm.subset hp
      rcases List.mem_cons.mp hp' with e | hm
      · rw [e]
      · exact (List.sorted_cons.mp hs).1 p hm

/-- Witness for C12: in the sample store Ipoh (mean 30) comes first in the ascending sequence
and Kuala Lumpur (mean 220/3) first in the descending one. -/
theorem rankings_sorted_and_permuted_witness :
    (30 : ℚ) ≤ 220 / 3 ∧ (30 : ℚ) ≤ 220 / 3 :=
  ⟨(rankings_sorted_and_permuted sampleFmt sampleStore).2.1 ("Ipoh, Perak".toList, 30)
      (by decide!) ("Kuala Lumpur, Selangor".toList, 220 / 3) (by decide!),
   (rankings_sorted_and_permuted sampleFmt sampleStore).2.2.2.1
      ("Kuala Lumpur, Selangor".toList, 220 / 3) (by decide!)
      ("Ipoh, Perak".toList, 30) (by decide!)⟩

/-- The number of areas equals the number of distinct area keys of the store. -/
theorem calculateAreaAverages_length (store : List APIData) :
    (calculateAreaAverages store).length =
      ((store.map (fun d => d.district ++ ", ".toList ++ d.state)).dedup).length := by
  rw [← List.length_map (calculateAreaAverages store) Prod.fst]
  apply List.Perm.length_eq
  rw [List.perm_ext_iff_of_nodup (areaKeys_nodup store) (List.nodup_dedup _)]
  intro k
  rw [mem_areaKeys, List.mem_dedup, List.mem_map]

/-! ## Ranking keywords, continued -/

theorem getRanking_of_no_keyword (fmt : Option ℚ → Str) (store : List APIData) (u : Str)
    (h1 : found (toLower u) "rank".toList = false)
    (h2 : found (toLower u) "cleanest".toList = false)
    (h3 : found (toLower u) "best".toList = false)
    (h4 : found (toLower u) "most polluted".toList = false)
    (h5 : found (toLower u) "worst".toList = false)
    (h6 : found (toLower u) "dirtiest".toList = false) :
    getRanking fmt store u =
      if found (toLower u) "ranking".toList || found (toLower u) "top".toList ||
        found (toLower u) "list".toList then getCompleteRanking fmt store else [] := by
  unfold getRanking
  simp only [h1, h2, h3, h4, h5, h6, Bool.or_self, Bool.false_eq_true, if_false]

/-- C14 (the code at the failing input): "show the ranking" holds "ranking" and none of
"cleanest", "best", "most polluted", "worst", "dirtiest", yet on every store it is answered
with the cleanest ranking, not the complete one, because "ranking" contains "rank" and
`getRanking` tests "rank" first. An utterance that holds "top" or "list", not "rank" and none
of the five words does get the complete ranking, whose entries follow the ascending sequence
and carry `getStatusFromAPI` of their mean. -/
theorem ranking_word_gets_cleanest (fmt : Option ℚ → Str) (store : List APIData) (rnd : Nat) :
    (found (toLower "show the ranking".toList) "ranking".toList = true ∧
      ∀ kw ∈ ["cleanest", "best", "most polluted", "worst", "dirtiest"].map String.toList,
        found (toLower "show the ranking".toList) kw = false) ∧
    generateResponse fmt store rnd "show the ranking".toList =
      getCleanestAreasRanking fmt store ∧
    generateResponse fmt store rnd "show the ranking".toList ≠ getCompleteRanking fmt store ∧
    (∀ u : Str,
      found (toLower u) "top".toList = true ∨ found (toLower u) "list".toList = true →
      found (toLower u) "rank".toList = false →
      (∀ kw ∈ ["cleanest", "best", "most polluted", "worst", "dirtiest"].map String.toList,
        found (toLower u) kw = false) →
      generateResponse fmt store rnd u = getCompleteRanking fmt store) ∧
    getCompleteRanking fmt store =
      concat ["📊 COMPLETE AIR QUALITY RANKING:\n".toList,
        List.replicate 31 '=' ++ "\n".toList,
        concat ((sortedAscending store).enum.map (completeEntry fmt))] ∧
    (∀ (i : Nat) (p : Str × ℚ), ∃ mark : Str,
      completeEntry fmt (i, p) =
        concat [mark, p.1, " - API: ".toList, fmt (some p.2), " (".toList,
          getStatusColor (getStatusFromAPI p.2), getStatusFromAPI p.2, "\x1b[0m".toList,
          ")\n".toList]) := by
  have hc : (getCleanestAreasRanking fmt store).head? = some '🏆' := rfl
  have hk : (getCompleteRanking fmt store).head? = some '📊' := rfl
  have hne : getCleanestAreasRanking fmt store ≠ [] := by
    intro h; rw [h] at hc; simp at hc
  have hkne : getCompleteRanking fmt store ≠ [] := by
    intro h; rw [h] at hk; simp at hk
  have h1 : getRanking fmt store "show the ranking".toList =
      getCleanestAreasRanking fmt store := rfl
  refine ⟨⟨by decide, by decide⟩, ?_, ?_, ?_, rfl, ?_⟩
  · rw [generateResponse_of_ranking fmt store rnd _ (by rw [h1]; exact hne), h1]
  · rw [generateResponse_of_ranking fmt store rnd _ (by rw [h1]; exact hne), h1]
    intro heq
    rw [heq, hk] at hc
    revert hc
    decide
  · intro u htl hrank hkw
    have hg : getRanking fmt store u = getCompleteRanking fmt store := by
      rw [getRanking_of_no_keyword fmt store u hrank (hkw _ (by simp)) (hkw _ (by simp))
        (hkw _ (by simp)) (hkw _ (by simp)) (hkw _ (by simp))]
      rcases htl with h | h <;> simp only [h, Bool.or_true, Bool.true_or, if_true]
    rw [generateResponse_of_ranking fmt store rnd u (by rw [hg]; exact hkne), hg]
  · intro i p
    exact ⟨_, rfl⟩

/-! ## Health advisory -/

/-- C15: for every record store and every utterance that holds one of the eleven health
keywords, no ranking keyword and none of the entries of `locations`, `generateResponse`
returns the fixed prompt that asks for the area: a constant text, the same for every store,
with no reading in it. -/
theorem health_prompt_without_location (fmt : Option ℚ → Str) (store : List APIData)
    (rnd : Nat) (u : Str)
    (hkw : ∃ kw ∈ ["go out", "go outside", "outdoor", "exercise", "workout", "jog", "run",
      "walk", "healthy", "safe", "haze"].map String.toList, found (toLower u) kw = true)
    (hrank : ∀ kw ∈ ["rank", "cleanest", "best", "most polluted", "worst", "dirtiest",
      "ranking", "top", "list"].map String.toList, found (toLower u) kw = false)
    (hloc : ∀ loc ∈ locations, found (toLower u) loc = false) :
    generateResponse fmt store rnd u =
      concat [
        "🤔 I'd be happy to advise you about going out! But first, could you tell me which area you're in? ".toList,
        "For example: 'Kuala Lumpur', 'Selangor', 'Penang', etc. This will help me give you more accurate advice based on local air quality.".toList] := by
  have hr : getRanking fmt store u = [] := by
    rw [getRanking_of_no_keyword fmt store u (hrank _ (by simp)) (hrank _ (by simp))
      (hrank _ (by simp)) (hrank _ (by simp)) (hrank _ (by simp)) (hrank _ (by simp))]
    simp only [hrank "ranking".toList (by simp), hrank "top".toList (by simp),
      hrank "list".toList (by simp), Bool.or_self, Bool.false_eq_true, if_false]
  have hq : health_question u = true := by
    obtain ⟨kw, hmem, hf⟩ := hkw
    unfold health_question
    simp only [List.map_cons, List.map_nil, List.mem_cons, List.mem_singleton,
      List.not_mem_nil, or_false] at hmem
    rcases hmem with e | e | e | e | e | e | e | e | e | e | e <;>
      (rw [e] at hf; simp only [hf, Bool.or_true, Bool.true_or])
  have hd : detectLocationInQuery u = [] := by
    unfold detectLocationInQuery
    have : locations.find? (fun location => found (toLower u) location) = none := by
      rw [List.find?_eq_none]
      intro x hx
      rw [hloc x hx]
      decide
    simp only [this]
  have hh : getHealthAdvisoryWithLocation store u =
      concat [
        "🤔 I'd be happy to advise you about going out! But first, could you tell me which area you're in? ".toList,
        "For example: 'Kuala Lumpur', 'Selangor', 'Penang', etc. This will help me give you more accurate advice based on local air quality.".toList] := by
    unfold getHealthAdvisoryWithLocation
    simp only [hq, hd, Bool.not_true, Bool.false_eq_true, if_false, List.isEmpty_nil, if_true]
  rw [generateResponse_of_health fmt store rnd u hr (by rw [hh]; decide), hh]

/-- Witness for C15: "can I go out" holds the keyword "go out", no ranking keyword and no
location; the sample store and the empty store get the same prompt. -/
theorem health_prompt_without_location_witness :
    generateResponse sampleFmt sampleStore 0 "can I go out".toList =
      generateResponse sampleFmt [] 0 "can I go out".toList :=
  (health_prompt_without_location sampleFmt sampleStore 0 "can I go out".toList
    ⟨"go out".toList, by decide, by decide⟩ (by decide) (by decide)).trans
  (health_prompt_without_location sampleFmt [] 0 "can I go out".toList
    ⟨"go out".toList, by decide, by decide⟩ (by decide) (by decide)).symm

theorem toLower_locations : ∀ loc ∈ locations, toLower loc = loc := by
  decide

/-- C16: for every record store and every entry `loc` of `locations`,
`getSpecificHealthAdvisory` reports exactly the readings dated 2025-11-29 whose lower-cased
district or state contains `loc`, or whose lower-cased district contains "kuala lumpur" /
"johor bahru" / "kota kinabalu" when `loc` is "kl" / "jb" / "kk", in store order, each with
its `apiReading`, its stored status and the advice block chosen by `apiReading ≤ 50`,
`≤ 100` or `> 100`; when no reading qualifies, it returns the "couldn't find" message. -/
theorem getSpecificHealthAdvisory_report (store : List APIData) (loc : Str)
    (hloc : loc ∈ locations) :
    (store.filter (fun d =>
        decide (d.date = "2025-11-29".toList) &&
        (found (toLower d.district) loc || found (toLower d.state) loc ||
         (decide (loc = "kl".toList) && found (toLower d.district) "kuala lumpur".toList) ||
         (decide (loc = "jb".toList) && found (toLower d.district) "johor bahru".toList) ||
         (decide (loc = "kk".toList) && found (toLower d.district) "kota kinabalu".toList)))
        = [] →
      getSpecificHealthAdvisory store loc =
        concat ["I couldn't find specific air quality data for ".toList, loc,
          " today. ".toList,
          "You can check the overall Malaysia air quality or try asking about a nearby major city.".toList]) ∧
    (store.filter (fun d =>
        decide (d.date = "2025-11-29".toList) &&
        (found (toLower d.district) loc || found (toLower d.state) loc ||
         (decide (loc = "kl".toList) && found (toLower d.district) "kuala lumpur".toList) ||
         (decide (loc = "jb".toList) && found (toLower d.district) "johor bahru".toList) ||
         (decide (loc = "kk".toList) && found (toLower d.district) "kota kinabalu".toList)))
        ≠ [] →
      getSpecificHealthAdvisory store loc =
        concat ["📍 Health Advisory for ".toList, loc, " (Today - 29 Nov 2025):\n".toList,
          List.replicate 32 '=' ++ "\n\n".toList,
          concat ((store.filter (fun d =>
            decide (d.date = "2025-11-29".toList) &&
            (found (toLower d.district) loc || found (toLower d.state) loc ||
             (decide (loc = "kl".toList) && found (toLower d.district) "kuala lumpur".toList) ||
             (decide (loc = "jb".toList) && found (toLower d.district) "johor bahru".toList) ||
             (decide (loc = "kk".toList) &&
               found (toLower d.district) "kota kinabalu".toList)))).map
            (fun d => concat [
              "🏙️  ".toList, d.district, ", ".toList, d.state, "\n".toList,
              "📊 API: ".toList, intToStr d.apiReading, " (".toList, getStatusColor d.status,
              d.status, "\x1b[0m".toList, ")\n\n".toList,
              advisoryTier d.apiReading, "\n".toList])),
          "💡 General Tips:\n".toList,
          "• Check air quality before planning outdoor activities\n".toList,
          "• Sensitive groups include children, elderly, and people with respiratory conditions\n".toList,
          "• Use air purifiers indoors if air quality is poor\n".toList,
          "• Stay hydrated and listen to your body\n".toList]) ∧
    (∀ api : Int,
      (api ≤ 50 → startsWith (advisoryTier api) "✅ EXCELLENT CONDITIONS".toList = true) ∧
      (50 < api → api ≤ 100 →
        startsWith (advisoryTier api) "⚠️ MODERATE CONDITIONS".toList = true) ∧
      (100 < api → startsWith (advisoryTier api) "❌ UNHEALTHY CONDITIONS".toList = true)) := by
  have hl := toLower_locations loc hloc
  have hfilter : store.filter (advisoryMatch loc) = store.filter (fun d =>
        decide (d.date = "2025-11-29".toList) &&
        (found (toLower d.district) loc || found (toLower d.state) loc ||
         (decide (loc = "kl".toList) && found (toLower d.district) "kuala lumpur".toList) ||
         (decide (loc = "jb".toList) && found (toLower d.district) "johor bahru".toList) ||
         (decide (loc = "kk".toList) && found (toLower d.district) "kota kinabalu".toList))) := by
    congr 1
    funext d
    unfold advisoryMatch
    simp only [hl]
  refine ⟨?_, ?_, ?_⟩
  · intro he
    unfold getSpecificHealthAdvisory
    simp only [hfilter, he, List.isEmpty_nil, if_true]
  · intro hne
    unfold getSpecificHealthAdvisory
    simp only [hfilter]
    have : (store.filter (fun d =>
        decide (d.date = "2025-11-29".toList) &&
        (found (toLower d.district) loc || found (toLower d.state) loc ||
         (decide (loc = "kl".toList) && found (toLower d.district) "kuala lumpur".toList) ||
         (decide (loc = "jb".toList) && found (toLower d.district) "johor bahru".toList) ||
         (decide (loc = "kk".toList) &&
           found (toLower d.district) "kota kinabalu".toList)))).isEmpty = false := by
      cases hq : store.filter _ with
      | nil => exact absurd hq hne
      | cons x xs => rfl
    simp only [this, Bool.false_eq_true, if_false]
    rfl
  · intro api
    refine ⟨?_, ?_, ?_⟩
    · intro h
      unfold advisoryTier
      rw [if_pos h]
      rfl
    · intro h1 h2
      unfold advisoryTier
      rw [if_neg (by omega), if_pos h2]
      rfl
    · intro h
      unfold advisoryTier
      rw [if_neg (by omega), if_neg (by omega)]
      rfl

/-- Witness for C16: the location "kl" on the sample store, where the reading of Kuala Lumpur
for 2025-11-29 (API 120) qualifies. -/
theorem getSpecificHealthAdvisory_report_witness :
    startsWith (getSpecificHealthAdvisory sampleStore "kl".toList)
      "📍 Health Advisory for kl (Today - 29 Nov 2025):\n".toList = true ∧
    found (getSpecificHealthAdvisory sampleStore "kl".toList)
      "📊 API: 120 (".toList = true ∧
    startsWith (advisoryTier 120) "❌ UNHEALTHY CONDITIONS".toList = true :=
  ⟨by rw [(getSpecificHealthAdvisory_report sampleStore "kl".toList (by decide)).2.1
      (by decide)]; decide,
   by rw [(getSpecificHealthAdvisory_report sampleStore "kl".toList (by decide)).2.1
      (by decide)]; decide,
   ((getSpecificHealthAdvisory_report sampleStore "kl".toList (by decide)).2.2 120).2.2
     (by decide)⟩

/-! ## Area matching -/

/-- The result of `isAreaMatch` as one Boolean expression over the lower-cased arguments. -/
theorem isAreaMatch_eq (u d s : Str) :
    isAreaMatch u d s =
      (found (toLower u) (toLower d) || found (toLower u) (toLower s) ||
       (found (toLower u) "jb".toList && found (toLower d) "johor bahru".toList) ||
       (found (toLower u) "kl".toList && found (toLower d) "kuala lumpur".toList) ||
       (found (toLower u) "melaka".toList && found (toLower s) "malacca".toList) ||
       (found (toLower u) "malacca".toList && found (toLower s) "malacca".toList) ||
       (found (toLower u) "penang".toList && found (toLower s) "penang".toList) ||
       (found (toLower u) "kk".toList && found (toLower d) "kota kinabalu".toList)) := by
  unfold isAreaMatch
  simp only []
  cases found (toLower u) (toLower d) <;> cases found (toLower u) (toLower s) <;>
    cases (found (toLower u) "jb".toList && found (toLower d) "johor bahru".toList) <;>
    cases (found (toLower u) "kl".toList && found (toLower d) "kuala lumpur".toList) <;>
    cases (found (toLower u) "melaka".toList && found (toLower s) "malacca".toList) <;>
    cases (found (toLower u) "malacca".toList && found (toLower s) "malacca".toList) <;>
    cases (found (toLower u) "penang".toList && found (toLower s) "penang".toList) <;>
    cases (found (toLower u) "kk".toList && found (toLower d) "kota kinabalu".toList) <;>
    rfl

/-- C17: `isAreaMatch u d s` is true if the lower-cased utterance contains the lower-cased
district or state, or contains "jb" / "kl" / "kk" while the lower-cased district contains
"johor bahru" / "kuala lumpur" / "kota kinabalu", or contains "melaka" or "malacca" while the
lower-cased state contains "malacca"; it is false when none of these holds and the utterance
and the state do not both contain "penang"; and it depends on `u`, `d`, `s` only through
their lower-cased forms. -/
theorem isAreaMatch_conditions (u d s : Str) :
    ((found (toLower u) (toLower d) = true ∨ found (toLower u) (toLower s) = true ∨
      (found (toLower u) "jb".toList = true ∧
        found (toLower d) "johor bahru".toList = true) ∨
      (found (toLower u) "kl".toList = true ∧
        found (toLower d) "kuala lumpur".toList = true) ∨
      (found (toLower u) "kk".toList = true ∧
        found (toLower d) "kota kinabalu".toList = true) ∨
      ((found (toLower u) "melaka".toList = true ∨
          found (toLower u) "malacca".toList = true) ∧
        found (toLower s) "malacca".toList = true)) →
      isAreaMatch u d s = true) ∧
    (¬ (found (toLower u) (toLower d) = true ∨ found (toLower u) (toLower s) = true ∨
      (found (toLower u) "jb".toList = true ∧
        found (toLower d) "johor bahru".toList = true) ∨
      (found (toLower u) "kl".toList = true ∧
        found (toLower d) "kuala lumpur".toList = true) ∨
      (found (toLower u) "kk".toList = true ∧
        found (toLower d) "kota kinabalu".toList = true) ∨
      ((found (toLower u) "melaka".toList = true ∨
          found (toLower u) "malacca".toList = true) ∧
        found (toLower s) "malacca".toList = true)) →
      ¬ (found (toLower u) "penang".toList = true ∧
        found (toLower s) "penang".toList = true) →
      isAreaMatch u d s = false) ∧
    (∀ u' d' s' : Str, toLower u' = toLower u → toLower d' = toLower d →
      toLower s' = toLower s → isAreaMatch u' d' s' = isAreaMatch u d s) := by
  refine ⟨?_, ?_, ?_⟩
  · intro h
    rw [isAreaMatch_eq]
    rcases h with h | h | ⟨h1, h2⟩ | ⟨h1, h2⟩ | ⟨h1, h2⟩ | ⟨h1 | h1, h2⟩
    · simp only [h, Bool.true_or]
    · simp only [h, Bool.or_true, Bool.true_or]
    · simp only [h1, h2, Bool.and_self, Bool.or_true, Bool.true_or]
    · simp only [h1, h2, Bool.and_self, Bool.or_true, Bool.true_or]
    · simp only [h1, h2, Bool.and_self, Bool.or_true, Bool.true_or]
    · simp only [h1, h2, Bool.and_self, Bool.or_true, Bool.true_or]
    · simp only [h1, h2, Bool.and_self, Bool.or_true, Bool.true_or]
  · intro h hp
    rw [isAreaMatch_eq]
    simp only [not_or, not_and, Bool.not_eq_true] at h hp
    obtain ⟨h1, h2, h3, h4, h5, h6⟩ := h
    cases hjb : found (toLower u) "jb".toList <;>
      cases hkl : found (toLower u) "kl".toList <;>
      cases hkk : found (toLower u) "kk".toList <;>
      cases hme : found (toLower u) "melaka".toList <;>
      cases hma : found (toLower u) "malacca".toList <;>
      cases hpe : found (toLower u) "penang".toList <;>
      simp_all
  · intro u' d' s' hu hd hs
    rw [isAreaMatch_eq, isAreaMatch_eq, hu, hd, hs]

/-- Witness for C17: "KL today" matches the district "Kuala Lumpur" through the abbreviation
"kl", "ipoh" matches nothing of ("Kuala Lumpur", "Selangor"), and "kl TODAY" gives the same
result as "KL today". -/
theorem isAreaMatch_conditions_witness :
    isAreaMatch "KL today".toList "Kuala Lumpur".toList "Selangor".toList = true ∧
    isAreaMatch "ipoh".toList "Kuala Lumpur".toList "Selangor".toList = false ∧
    isAreaMatch "kl TODAY".toList "KUALA LUMPUR".toList "selangor".toList =
      isAreaMatch "KL today".toList "Kuala Lumpur".toList "Selangor".toList :=
  ⟨(isAreaMatch_conditions "KL today".toList "Kuala Lumpur".toList "Selangor".toList).1
      (Or.inr (Or.inr (Or.inr (Or.inl ⟨by decide, by decide⟩)))),
   (isAreaMatch_conditions "ipoh".toList "Kuala Lumpur".toList "Selangor".toList).2.1
      (by decide) (by decide),
   (isAreaMatch_conditions "KL today".toList "Kuala Lumpur".toList "Selangor".toList).2.2
      "kl TODAY".toList "KUALA LUMPUR".toList "selangor".toList (by decide) (by decide)
      (by decide)⟩

/-! ## Location detection -/

theorem startsWith_of_append (s a b : Str) (h : startsWith s (a ++ b) = true) :
    startsWith s a = true := by
  induction a generalizing s with
  | nil => cases s <;> rfl
  | cons x xs ih =>
    cases s with
    | nil => simp [startsWith] at h
    | cons c cs =>
      simp only [List.cons_append, startsWith, Bool.and_eq_true, decide_eq_true_eq] at h ⊢
      exact ⟨h.1, ih cs h.2⟩

theorem found_of_append (s a b : Str) (h : found s (a ++ b) = true) : found s a = true := by
  induction s with
  | nil =>
    unfold found at h ⊢
    exact startsWith_of_append _ _ _ h
  | cons c cs ih =>
    unfold found at h ⊢
    simp only [Bool.or_eq_true] at h ⊢
    rcases h with h | h
    · exact Or.inl (startsWith_of_append _ _ _ h)
    · exact Or.inr (ih h)

theorem detectLocationInQuery_eq_some (u loc : Str) (h : detectLocationInQuery u = loc)
    (hne : loc ≠ []) :
    locations.find? (fun location => found (toLower u) location) = some loc := by
  unfold detectLocationInQuery at h
  simp only [] at h
  split at h
  · next l hl => rw [hl, h]
  · exact absurd h.symm hne

/-- C18 (the code at the failing input): `detectLocationInQuery` returns the earliest entry
of `locations`, in list order, that occurs in the lower-cased utterance, and the empty string
exactly when none occurs; every entry other than "johor bahru" is returned for the utterance
that consists of it. But "johor bahru" stands after "johor" in the list, so no utterance
yields it: one that names Johor Bahru yields "johor". -/
theorem johor_bahru_never_detected :
    "johor bahru".toList ∈ locations ∧
    (∀ u : Str, detectLocationInQuery u ≠ "johor bahru".toList) ∧
    detectLocationInQuery "is it safe in Johor Bahru".toList = "johor".toList ∧
    (∀ u loc : Str, detectLocationInQuery u = loc → loc ≠ [] →
      found (toLower u) loc = true ∧
      ∃ before after : List Str, locations = before ++ loc :: after ∧
        ∀ l ∈ before, found (toLower u) l = false) ∧
    (∀ u : Str, detectLocationInQuery u = [] ↔
      ∀ loc ∈ locations, found (toLower u) loc = false) ∧
    (∀ loc ∈ locations, loc ≠ "johor bahru".toList → detectLocationInQuery loc = loc) := by
  refine ⟨by decide, ?_, by decide, ?_, ?_, by decide⟩
  · intro u h
    have hf := detectLocationInQuery_eq_some u _ h (by decide)
    have hp := List.find?_some hf
    have hj : found (toLower u) "johor".toList = true :=
      found_of_append (toLower u) "johor".toList " bahru".toList hp
    have hsplit : locations = locations.take 5 ++ locations.drop 5 :=
      (List.take_append_drop 5 locations).symm
    rw [hsplit, List.find?_append] at hf
    have hsome : ((locations.take 5).find?
        (fun location => found (toLower u) location)).isSome = true := by
      rw [List.find?_isSome]
      exact ⟨"johor".toList, by decide, hj⟩
    obtain ⟨z, hz⟩ := Option.isSome_iff_exists.mp hsome
    rw [hz] at hf
    have hf : z = "johor bahru".toList := Option.some.inj hf
    have hmem := List.mem_of_find?_eq_some hz
    rw [hf] at hmem
    revert hmem
    decide
  · intro u loc h hne
    have hf := detectLocationInQuery_eq_some u loc h hne
    obtain ⟨hp, as, bs, hl, has⟩ := List.find?_eq_some.mp hf
    refine ⟨hp, as, bs, hl, ?_⟩
    intro l hl'
    simpa using has l hl'
  · intro u
    unfold detectLocationInQuery
    simp only []
    constructor
    · intro h
      split at h
      · next l hl =>
        subst h
        have hm : ([] : Str) ∈ locations := List.mem_of_find?_eq_some hl
        exact absurd hm (by decide)
      · next hn =>
        intro loc hloc
        have := List.find?_eq_none.mp hn loc hloc
        simpa using this
    · intro h
      have : locations.find? (fun location => found (toLower u) location) = none := by
        rw [List.find?_eq_none]
        intro x hx
        rw [h x hx]
        decide
      simp only [this]

/-! ## The summary of `getDataForDate` -/

theorem stepExtremes_worst (e : Extremes) (d : APIData) :
    (stepExtremes e d).worst = (if d.apiReading > e.worst then d.apiReading else e.worst) ∧
    (stepExtremes e d).worst_area =
      (if d.apiReading > e.worst then d.district ++ ", ".toList ++ d.state
       else e.worst_area) := by
  unfold stepExtremes
  simp only [concat_three]
  constructor <;> split <;> split <;> rfl

theorem stepExtremes_best (e : Extremes) (d : APIData) :
    (stepExtremes e d).best = (if d.apiReading < e.best then d.apiReading else e.best) ∧
    (stepExtremes e d).best_area =
      (if d.apiReading < e.best then d.district ++ ", ".toList ++ d.state
       else e.best_area) := by
  unfold stepExtremes
  simp only [concat_three]
  constructor <;> split <;> split <;> simp_all

theorem dateExtremes_snoc (l : List APIData) (d : APIData) :
    dateExtremes (l ++ [d]) = stepExtremes (dateExtremes l) d := by
  unfold dateExtremes
  rw [List.foldl_append]
  rfl

/-- The "Worst" values after the summary loop: either no reading exceeds the initial 0 and the
area is still empty, or they are the maximum and the area of the first reading attaining
it. -/
theorem dateExtremes_worst (l : List APIData) :
    ((∀ x ∈ l, x.apiReading ≤ 0) ∧ (dateExtremes l).worst = 0 ∧
      (dateExtremes l).worst_area = []) ∨
    (0 < (dateExtremes l).worst ∧ (∀ x ∈ l, x.apiReading ≤ (dateExtremes l).worst) ∧
      ∃ r, l.find? (fun x => decide (x.apiReading = (dateExtremes l).worst)) = some r ∧
        (dateExtremes l).worst_area = r.district ++ ", ".toList ++ r.state) := by
  induction l using List.reverseRecOn with
  | nil =>
    left
    exact ⟨fun x hx => absurd hx (List.not_mem_nil x), rfl, rfl⟩
  | append_singleton l d ih =>
    rw [dateExtremes_snoc]
    obtain ⟨hw, ha⟩ := stepExtremes_worst (dateExtremes l) d
    rw [hw, ha]
    by_cases hgt : d.apiReading > (dateExtremes l).worst
    · simp only [hgt, if_true]
      right
      have hall : ∀ x ∈ l, x.apiReading < d.apiReading := by
        intro x hx
        rcases ih with ⟨h0, hz, -⟩ | ⟨-, hle, -⟩
        · have := h0 x hx
          rw [hz] at hgt
          omega
        · have := hle x hx
          omega
      refine ⟨?_, ?_, d, ?_, rfl⟩
      · rcases ih with ⟨-, hz, -⟩ | ⟨hpos, -, -⟩
        · rw [hz] at hgt; exact hgt
        · omega
      · intro x hx
        rcases List.mem_append.mp hx with hx | hx
        · exact le_of_lt (hall x hx)
        · rw [List.mem_singleton] at hx
          rw [hx]
      · apply find?_snoc_of_none
        · intro x hx
          have := hall x hx
          simp only [decide_eq_false_iff_not]
          omega
        · simp
    · simp only [hgt, if_false]
      have hle : d.apiReading ≤ (dateExtremes l).worst := not_lt.mp hgt
      rcases ih with ⟨h0, hz, harea⟩ | ⟨hpos, hmax, r, hr, harea⟩
      · left
        refine ⟨?_, hz, harea⟩
        intro x hx
        rcases List.mem_append.mp hx with hx | hx
        · exact h0 x hx
        · rw [List.mem_singleton] at hx
          rw [hx, ← hz]
          exact hle
      · right
        refine ⟨hpos, ?_, r, find?_snoc_of_some _ _ _ _ hr, harea⟩
        intro x hx
        rcases List.mem_append.mp hx with hx | hx
        · exact hmax x hx
        · rw [List.mem_singleton] at hx
          rw [hx]
          exact hle

/-- The "Best" values after the summary loop: either no reading is below the initial 1000 and
the area is still empty, or they are the minimum and the area of the first reading attaining
it. -/
theorem dateExtremes_best (l : List APIData) :
    ((∀ x ∈ l, 1000 ≤ x.apiReading) ∧ (dateExtremes l).best = 1000 ∧
      (dateExtremes l).best_area = []) ∨
    ((dateExtremes l).best < 1000 ∧ (∀ x ∈ l, (dateExtremes l).best ≤ x.apiReading) ∧
      ∃ r, l.find? (fun x => decide (x.apiReading = (dateExtremes l).best)) = some r ∧
        (dateExtremes l).best_area = r.district ++ ", ".toList ++ r.state) := by
  induction l using List.reverseRecOn with
  | nil =>
    left
    exact ⟨fun x hx => absurd hx (List.not_mem_nil x), rfl, rfl⟩
  | append_singleton l d ih =>
    rw [dateExtremes_snoc]
    obtain ⟨hb, ha⟩ := stepExtremes_best (dateExtremes l) d
    rw [hb, ha]
    by_cases hlt : d.apiReading < (dateExtremes l).best
    · simp only [hlt, if_true]
      right
      have hall : ∀ x ∈ l, d.apiReading < x.apiReading := by
        intro x hx
        rcases ih with ⟨h0, hz, -⟩ | ⟨-, hle, -⟩
        · have := h0 x hx
          rw [hz] at hlt
          omega
        · have := hle x hx
          omega
      refine ⟨?_, ?_, d, ?_, rfl⟩
      · rcases ih with ⟨-, hz, -⟩ | ⟨hpos, -, -⟩
        · rw [hz] at hlt; exact hlt
        · omega
      · intro x hx
        rcases List.mem_append.mp hx with hx | hx
        · exact le_of_lt (hall x hx)
        · rw [List.mem_singleton] at hx
          rw [hx]
      · apply find?_snoc_of_none
        · intro x hx
          have := hall x hx
          simp only [decide_eq_false_iff_not]
          omega
        · simp
    · simp only [hlt, if_false]
      have hle : (dateExtremes l).best ≤ d.apiReading := not_lt.mp hlt
      rcases ih with ⟨h0, hz, harea⟩ | ⟨hpos, hmin, r, hr, harea⟩
      · left
        refine ⟨?_, hz, harea⟩
        intro x hx
        rcases List.mem_append.mp hx with hx | hx
        · exact h0 x hx
        · rw [List.mem_singleton] at hx
          rw [hx, ← hz]
          exact hle
      · right
        refine ⟨hpos, ?_, r, find?_snoc_of_some _ _ _ _ hr, harea⟩
        intro x hx
        rcases List.mem_append.mp hx with hx | hx
        · exact hmin x hx
        · rw [List.mem_singleton] at hx
          rw [hx]
          exact hle

/-- C19 (the code at the failing input): for the store `zeroStore`, whose only reading of
2025-11-29 has value 0, the summary prints "Worst" with the value 0 and an empty area, not
"Ipoh, Perak": the loop starts from `worst = 0` and replaces it only by a greater value (and
starts from `best = 1000`). In general the summary prints the mean and the count of the date's
readings and the values left by the loop; these are the maximum with the area of the first
reading attaining it whenever some reading of the date is above 0, and the minimum with the
area of the first reading attaining it whenever some reading is below 1000. -/
theorem date_summary_blank_worst_area (fmt : Option ℚ → Str) :
    (zeroStore.filter (fun data => decide (data.date = "2025-11-29".toList)) = zeroStore ∧
      dateExtremes zeroStore = ⟨0, [], 0, "Ipoh, Perak".toList⟩ ∧
      getDataForDate fmt zeroStore "2025-11-29".toList =
        concat ["Air Quality Data for 2025-11-29:\n".toList,
          List.replicate 32 '=' ++ "\n".toList,
          "\nPerak:\n".toList, "  • Ipoh - API: 0 (\x1b[32mGood\x1b[0m)\n".toList,
          "\nSummary for 2025-11-29:\n".toList,
          "• Average API: ".toList, fmt (some 0), "\n".toList,
          "• Worst:  (API: 0)\n".toList,
          "• Best: Ipoh, Perak (API: 0)\n".toList,
          "• Areas monitored: 1\n".toList]) ∧
    (∀ (store : List APIData) (date : Str),
      store.filter (fun data => decide (data.date = date)) ≠ [] →
      ∃ listing : Str, getDataForDate fmt store date =
        concat ["Air Quality Data for ".toList, date, ":\n".toList,
          List.replicate 32 '=' ++ "\n".toList,
          listing,
          "\nSummary for ".toList, date, ":\n".toList,
          "• Average API: ".toList,
          fmt (some (sumApi (store.filter (fun data => decide (data.date = date))) /
            ((store.filter (fun data => decide (data.date = date))).length : ℚ))),
          "\n".toList,
          "• Worst: ".toList,
          (dateExtremes (store.filter (fun data => decide (data.date = date)))).worst_area,
          " (API: ".toList,
          intToStr (dateExtremes (store.filter (fun data => decide (data.date = date)))).worst,
          ")\n".toList,
          "• Best: ".toList,
          (dateExtremes (store.filter (fun data => decide (data.date = date)))).best_area,
          " (API: ".toList,
          intToStr (dateExtremes (store.filter (fun data => decide (data.date = date)))).best,
          ")\n".toList,
          "• Areas monitored: ".toList,
          natToStr (store.filter (fun data => decide (data.date = date))).length,
          "\n".toList]) ∧
    (∀ l : List APIData, (∃ x ∈ l, 0 < x.apiReading) →
      (∀ x ∈ l, x.apiReading ≤ (dateExtremes l).worst) ∧
      ∃ r, l.find? (fun x => decide (x.apiReading = (dateExtremes l).worst)) = some r ∧
        (dateExtremes l).worst_area = r.district ++ ", ".toList ++ r.state) ∧
    (∀ l : List APIData, (∃ x ∈ l, x.apiReading < 1000) →
      (∀ x ∈ l, (dateExtremes l).best ≤ x.apiReading) ∧
      ∃ r, l.find? (fun x => decide (x.apiReading = (dateExtremes l).best)) = some r ∧
        (dateExtremes l).best_area = r.district ++ ", ".toList ++ r.state) := by
  refine ⟨⟨by decide, by decide, ?_⟩, ?_, ?_, ?_⟩
  · have hd : divD (sumApi (zeroStore.filter
        (fun data => decide (data.date = "2025-11-29".toList))))
        (zeroStore.filter (fun data => decide (data.date = "2025-11-29".toList))).length =
        some 0 := by decide!
    unfold getDataForDate
    simp only [hd]
    rfl
  · intro store date hne
    have hlen : (store.filter (fun data => decide (data.date = date))).length ≠ 0 := by
      intro h0
      exact hne (List.length_eq_zero.mp h0)
    have hemp : (store.filter (fun data => decide (data.date = date))).isEmpty = false := by
      cases hq : store.filter (fun data => decide (data.date = date)) with
      | nil => exact absurd hq hne
      | cons x xs => rfl
    unfold getDataForDate
    simp only [hemp, Bool.false_eq_true, if_false, divD, hlen]
    exact ⟨_, rfl⟩
  · intro l hpos
    rcases dateExtremes_worst l with ⟨h0, -, -⟩ | ⟨-, hmax, hr⟩
    · obtain ⟨x, hx, hxp⟩ := hpos
      have := h0 x hx
      omega
    · exact ⟨hmax, hr⟩
  · intro l hlow
    rcases dateExtremes_best l with ⟨h0, -, -⟩ | ⟨-, hmin, hr⟩
    · obtain ⟨x, hx, hxp⟩ := hlow
      have := h0 x hx
      omega
    · exact ⟨hmin, hr⟩

/-! ## The latest reading per district -/

/-- One pass of the loop that builds `latest_data`. -/
theorem latest_data_snoc (l : List APIData) (d : APIData) :
    latest_data (l ++ [d]) =
      match mapGet? (latest_data l) d.district with
      | none => mapPut (latest_data l) d.district d
      | some cur =>
        if strLt cur.date d.date then mapPut (latest_data l) d.district d else latest_data l := by
  unfold latest_data
  rw [List.foldl_append]
  rfl

theorem keysSorted_latest_data (l : List APIData) : KeysSorted (latest_data l) := by
  induction l using List.reverseRecOn with
  | nil => exact keysSorted_nil
  | append_singleton l d ih =>
    rw [latest_data_snoc]
    split
    · exact keysSorted_mapPut _ _ _ ih
    · split
      · exact keysSorted_mapPut _ _ _ ih
      · exact ih

/-- What `latest_data` holds under a district: nothing when the district does not occur,
else the first of the district's readings that carry its greatest date. -/
theorem latest_data_inv (l : List APIData) (k : Str) :
    (mapGet? (latest_data l) k = none → ∀ x ∈ l, x.district ≠ k) ∧
    (∀ r, mapGet? (latest_data l) k = some r →
      r ∈ l ∧ r.district = k ∧
      (∀ x ∈ l, x.district = k → strLt r.date x.date = false) ∧
      l.find? (fun x => decide (x.district = k) && decide (x.date = r.date)) = some r) := by
  induction l using List.reverseRecOn with
  | nil =>
    refine ⟨fun _ x hx => absurd hx (List.not_mem_nil x), fun r hr => ?_⟩
    simp [latest_data, mapGet?] at hr
  | append_singleton l d ih =>
    obtain ⟨ihn, ihs⟩ := ih
    -- the cases in which the entry of `k` is untouched
    have keep : mapGet? (latest_data (l ++ [d])) k = mapGet? (latest_data l) k →
        (d.district = k → ∃ cur, mapGet? (latest_data l) k = some cur ∧
          strLt cur.date d.date = false) →
        (mapGet? (latest_data (l ++ [d])) k = none → ∀ x ∈ l ++ [d], x.district ≠ k) ∧
        (∀ r, mapGet? (latest_data (l ++ [d])) k = some r →
          r ∈ l ++ [d] ∧ r.district = k ∧
          (∀ x ∈ l ++ [d], x.district = k → strLt r.date x.date = false) ∧
          (l ++ [d]).find? (fun x => decide (x.district = k) && decide (x.date = r.date)) =
            some r) := by
      intro heq hd
      rw [heq]
      refine ⟨?_, ?_⟩
      · intro hn x hx
        rcases List.mem_append.mp hx with hx | hx
        · exact ihn hn x hx
        · rw [List.mem_singleton] at hx
          subst hx
          intro hk
          obtain ⟨cur, hc, -⟩ := hd hk
          rw [hc] at hn
          exact Option.noConfusion hn
      · intro r hr
        obtain ⟨h1, h2, h3, h4⟩ := ihs r hr
        refine ⟨List.mem_append_left _ h1, h2, ?_, find?_snoc_of_some _ _ _ _ h4⟩
        intro x hx hk
        rcases List.mem_append.mp hx with hx | hx
        · exact h3 x hx hk
        · rw [List.mem_singleton] at hx
          subst hx
          obtain ⟨cur, hc, hlt⟩ := hd hk
          rw [hc] at hr
          rw [← Option.some.inj hr]
          exact hlt
    -- the cases in which `d` is stored under its district
    have store : (mapGet? (latest_data l) d.district = none ∨
          ∃ cur, mapGet? (latest_data l) d.district = some cur ∧
            strLt cur.date d.date = true) →
        latest_data (l ++ [d]) = mapPut (latest_data l) d.district d →
        (mapGet? (latest_data (l ++ [d])) k = none → ∀ x ∈ l ++ [d], x.district ≠ k) ∧
        (∀ r, mapGet? (latest_data (l ++ [d])) k = some r →
          r ∈ l ++ [d] ∧ r.district = k ∧
          (∀ x ∈ l ++ [d], x.district = k → strLt r.date x.date = false) ∧
          (l ++ [d]).find? (fun x => decide (x.district = k) && decide (x.date = r.date)) =
            some r) := by
      intro hcase hput
      by_cases hk : k = d.district
      · subst hk
        have hget : mapGet? (latest_data (l ++ [d])) d.district = some d := by
          rw [hput, mapGet?_mapPut, if_pos rfl]
        rw [hget]
        refine ⟨fun h => Option.noConfusion h, ?_⟩
        intro r hr
        have hr' : d = r := Option.some.inj hr
        subst hr'
        have hbefore : ∀ x ∈ l, x.district = d.district →
            strLt d.date x.date = false ∧ x.date ≠ d.date := by
          intro x hx hxk
          rcases hcase with hn | ⟨cur, hc, hlt⟩
          · exact absurd hxk (ihn hn x hx)
          · obtain ⟨-, -, h3, -⟩ := ihs cur hc
            have hcx := h3 x hx hxk
            constructor
            · cases hdx : strLt d.date x.date
              · rfl
              · rw [strLt_trans _ _ _ hlt hdx] at hcx
                exact absurd hcx (by decide)
            · intro e
              rw [e, hlt] at hcx
              exact absurd hcx (by decide)
        refine ⟨List.mem_append_right _ (List.mem_singleton_self d), rfl, ?_, ?_⟩
        · intro x hx hxk
          rcases List.mem_append.mp hx with hx | hx
          · exact (hbefore x hx hxk).1
          · rw [List.mem_singleton] at hx
            rw [hx]
            exact strLt_irrefl _
        · apply find?_snoc_of_none
          · intro x hx
            by_cases hxk : x.district = d.district
            · simp [hxk, (hbefore x hx hxk).2]
            · simp [hxk]
          · simp
      · apply keep
        · rw [hput, mapGet?_mapPut, if_neg hk]
        · intro hdk
          exact absurd hdk.symm hk
    cases hc : mapGet? (latest_data l) d.district with
    | none => exact store (Or.inl hc) (by rw [latest_data_snoc, hc])
    | some cur =>
      cases hlt : strLt cur.date d.date
      · exact keep (by rw [latest_data_snoc, hc]; simp [hlt])
          (fun hdk => by subst hdk; exact ⟨cur, hc, hlt⟩)
      · exact store (Or.inr ⟨cur, hc, hlt⟩) (by rw [latest_data_snoc, hc]; simp [hlt])

/-- C20, counterexample: in `tieStore` the two readings of Ipoh share the greatest date; the
table keeps the first of them (API 30), not the last (API 80), and `getAllAreas` prints it. -/
theorem latest_data_tie_keeps_first :
    latest_data tieStore =
      [("Ipoh".toList,
        ⟨"Ipoh".toList, "Perak".toList, 30, "Good".toList, "2025-11-29".toList⟩)] ∧
    tieStore.getLast? =
      some ⟨"Ipoh".toList, "Perak".toList, 80, "Moderate".toList, "2025-11-29".toList⟩ ∧
    getAllAreas tieStore =
      concat ["All monitored areas (latest readings):\n".toList,
        "• Ipoh, Perak - API: 30 (Good) on 2025-11-29\n".toList] := by
  decide

/-- C20, amended: for every record store and every district `k` occurring in it, the table
`latest_data` built by `getAllAreas`, `getWorstAreas` and `getBestAreas` holds exactly one
reading `r` under `k`; `r` is a reading of the store with that district whose date string is
lexicographically greatest among the district's readings (no reading of the district has a
greater one), and among the readings of the district that share this date `r` is the first
in store order. -/
theorem latest_data_first_of_greatest (store : List APIData) (k : Str)
    (hk : ∃ d ∈ store, d.district = k) :
    (∃ r : APIData, (k, r) ∈ latest_data store ∧
      (∀ r' : APIData, (k, r') ∈ latest_data store → r' = r) ∧
      r ∈ store ∧ r.district = k ∧
      (∀ x ∈ store, x.district = k → strLt r.date x.date = false) ∧
      store.find? (fun x => decide (x.district = k) && decide (x.date = r.date)) = some r) ∧
    getAllAreas store =
      concat ["All monitored areas (latest readings):\n".toList,
        concat ((latest_data store).map (fun p => areaEntry p.2))] ∧
    getWorstAreas store =
      concat ["Current worst air quality areas:\n".toList,
        concat (((stdSort (fun a b : APIData => decide (a.apiReading > b.apiReading))
          ((latest_data store).map (fun p => p.2))).take 5).map areaEntry)] ∧
    getBestAreas store =
      concat ["Current best air quality areas:\n".toList,
        concat (((stdSort (fun a b : APIData => decide (a.apiReading < b.apiReading))
          ((latest_data store).map (fun p => p.2))).take 5).map areaEntry)] := by
  have hne : store.isEmpty = false := by
    obtain ⟨d, hd, -⟩ := hk
    cases store with
    | nil => exact absurd hd (List.not_mem_nil d)
    | cons x xs => rfl
  have hnd := keysSorted_nodup _ (keysSorted_latest_data store)
  obtain ⟨hnone, hsome⟩ := latest_data_inv store k
  refine ⟨?_, ?_, ?_, ?_⟩
  · cases hg : mapGet? (latest_data store) k with
    | none =>
      obtain ⟨d, hd, hdk⟩ := hk
      exact absurd hdk (hnone hg d hd)
    | some r =>
      obtain ⟨h1, h2, h3, h4⟩ := hsome r hg
      refine ⟨r, (mapGet?_eq_some_iff _ hnd k r).mp hg, ?_, h1, h2, h3, h4⟩
      intro r' hr'
      have := (mapGet?_eq_some_iff _ hnd k r').mpr hr'
      rw [hg] at this
      exact (Option.some.inj this).symm
  · unfold getAllAreas
    simp only [hne, Bool.false_eq_true, if_false]
  · unfold getWorstAreas
    simp only [hne, Bool.false_eq_true, if_false]
  · unfold getBestAreas
    simp only [hne, Bool.false_eq_true, if_false]

/-- Witness for the amended C20: the district "Kuala Lumpur" of the sample store, whose
latest reading is the one of 2025-11-29. -/
theorem latest_data_first_of_greatest_witness :
    ∃ r : APIData, ("Kuala Lumpur".toList, r) ∈ latest_data sampleStore ∧
      (∀ r' : APIData, ("Kuala Lumpur".toList, r') ∈ latest_data sampleStore → r' = r) ∧
      r ∈ sampleStore ∧ r.district = "Kuala Lumpur".toList ∧
      (∀ x ∈ sampleStore, x.district = "Kuala Lumpur".toList →
        strLt r.date x.date = false) ∧
      sampleStore.find? (fun x => decide (x.district = "Kuala Lumpur".toList) &&
        decide (x.date = r.date)) = some r :=
  (latest_data_first_of_greatest sampleStore "Kuala Lumpur".toList
    ⟨⟨"Kuala Lumpur".toList, "Selangor".toList, 40, "Good".toList, "2025-11-27".toList⟩,
      by decide, by decide⟩).1

/-! ## Area history (`getAreaInfoWithHistory`) -/

theorem strLt_asymm (a b : Str) : strLt a b = false ∨ strLt b a = false := by
  cases h1 : strLt a b
  · exact Or.inl rfl
  · cases h2 : strLt b a
    · exact Or.inr rfl
    · have h := strLt_trans a b a h1 h2
      rw [strLt_irrefl] at h
      exact absurd h (by decide)

theorem strLt_not_lt_trans (a b c : Str) (h1 : strLt a b = false) (h2 : strLt b c = false) :
    strLt a c = false := by
  cases h : strLt a c
  · rfl
  · by_cases hab : a = b
    · subst hab
      rw [h] at h2
      exact absurd h2 (by decide)
    · have hba := strLt_total a b hab h1
      have hbc := strLt_trans b a c hba h
      rw [hbc] at h2
      exact absurd h2 (by decide)

theorem areaHistory_perm (store : List APIData) (district state : Str) :
    (areaHistory store district state).Perm
      (store.filter (fun d => decide (d.district = district) && decide (d.state = state))) :=
  stdSort_perm _ _

theorem areaHistory_sorted (store : List APIData) (district state : Str) :
    (areaHistory store district state).Sorted (fun a b => strLt a.date b.date = false) :=
  stdSort_sorted (fun a b : APIData => strLt b.date a.date)
    (fun a b => strLt_asymm a.date b.date)
    (fun a b c h1 h2 => strLt_not_lt_trans a.date b.date c.date h1 h2) _

theorem mem_areaHistory (store : List APIData) (district state : Str) (d : APIData) :
    d ∈ areaHistory store district state ↔
      d ∈ store ∧ d.district = district ∧ d.state = state := by
  rw [(areaHistory_perm store district state).mem_iff, List.mem_filter]
  simp only [Bool.and_eq_true, decide_eq_true_eq]

/-- C21, counterexample: in `overflowStore` the latest reading of Kuala Lumpur, Selangor is
2147483647 and the second latest is -2147483647; the latest minus the second latest is
positive, but the `int` difference wraps to -2 and the trend line says "improved by 2
points". The utterance "Kuala Lumpur" reaches this report. -/
theorem history_trend_wraps :
    areaHistory overflowStore "Kuala Lumpur".toList "Selangor".toList =
      [⟨"Kuala Lumpur".toList, "Selangor".toList, 2147483647, "Hazardous".toList,
         "2025-11-29".toList⟩,
       ⟨"Kuala Lumpur".toList, "Selangor".toList, -2147483647, "Good".toList,
         "2025-11-28".toList⟩] ∧
    (2147483647 : Int) - (-2147483647) > 0 ∧
    getAreaInfoWithHistory overflowStore "Kuala Lumpur".toList "Selangor".toList [] =
      concat [
        "Air Quality History for Kuala Lumpur, Selangor:\n".toList,
        "Latest (2025-11-29): API 2147483647 (Hazardous)\n\n".toList,
        "Trend: improved by 2 points from previous day\n\n".toList,
        "Last 5 days:\n".toList,
        "• 2025-11-29 - API: 2147483647 (Hazardous)\n".toList,
        "• 2025-11-28 - API: -2147483647 (Good)\n".toList,
        "\nAdvice: No specific advice available.".toList] ∧
    generateResponse sampleFmt overflowStore 0 "Kuala Lumpur".toList =
      getAreaInfoWithHistory overflowStore "Kuala Lumpur".toList "Selangor".toList
        "Kuala Lumpur".toList := by
  decide

/-- C21, amended: for an area with at least one reading, the history of
`getAreaInfoWithHistory` is the readings of that district and state in non-increasing order of
date string (with pairwise distinct dates it is the only such arrangement); the response shows
its first entry as "Latest" (no reading of the area has a greater date) and prints one line
"• date - API: value (status)" for each of its first min(5, n) entries; and with two or more
readings whose difference, first value minus second, lies within the range of `int`, the trend
line says "worsened" if the difference is positive, "improved" if negative, "stable" if zero,
followed by its absolute value. -/
theorem getAreaInfoWithHistory_report (store : List APIData) (district state u : Str)
    (h : ∃ d ∈ store, d.district = district ∧ d.state = state) :
    ∃ a0 rest,
      areaHistory store district state = a0 :: rest ∧
      (a0 :: rest).Perm
        (store.filter (fun d => decide (d.district = district) && decide (d.state = state))) ∧
      (a0 :: rest).Sorted (fun a b => strLt a.date b.date = false) ∧
      (∀ d ∈ store, d.district = district → d.state = state → strLt a0.date d.date = false) ∧
      getAreaInfoWithHistory store district state u =
        concat [
          "Air Quality History for ".toList, district, ", ".toList, state, ":\n".toList,
          "Latest (".toList, a0.date, "): API ".toList, intToStr a0.apiReading, " (".toList,
          a0.status, ")\n\n".toList,
          historyTrend (a0 :: rest),
          "Last 5 days:\n".toList,
          concat (((a0 :: rest).take 5).map (fun d =>
            concat ["• ".toList, d.date, " - API: ".toList, intToStr d.apiReading, " (".toList,
              d.status, ")\n".toList])),
          "\nAdvice: ".toList, getHealthAdvice a0.status] ∧
      ((a0 :: rest).take 5).length =
        min 5 (store.filter
          (fun d => decide (d.district = district) && decide (d.state = state))).length ∧
      (∀ d ∈ (a0 :: rest).take 5, d ∈ store ∧ d.district = district ∧ d.state = state) ∧
      (rest = [] → historyTrend (a0 :: rest) = []) ∧
      (∀ a1 tail, rest = a1 :: tail →
        -2147483647 ≤ a0.apiReading - a1.apiReading →
        a0.apiReading - a1.apiReading ≤ 2147483647 →
        historyTrend (a0 :: rest) =
          concat ["Trend: ".toList,
            (if a0.apiReading - a1.apiReading > 0 then "worsened".toList
             else if a0.apiReading - a1.apiReading < 0 then "improved".toList
             else "stable".toList),
            " by ".toList, natToStr (a0.apiReading - a1.apiReading).natAbs,
            " points from previous day\n\n".toList]) ∧
      (((store.filter (fun d => decide (d.district = district) && decide (d.state = state))).map
          (fun d => d.date)).Nodup →
        ∀ sorted : List APIData,
          sorted.Perm (store.filter
            (fun d => decide (d.district = district) && decide (d.state = state))) →
          sorted.Sorted (fun a b => strLt a.date b.date = false) →
          sorted = a0 :: rest) := by
  obtain ⟨d0, hd0, hdd, hds⟩ := h
  have hmem : d0 ∈ areaHistory store district state :=
    (mem_areaHistory store district state d0).mpr ⟨hd0, hdd, hds⟩
  cases hh : areaHistory store district state with
  | nil => rw [hh] at hmem; exact absurd hmem (List.not_mem_nil _)
  | cons a0 rest =>
    have hperm := areaHistory_perm store district state
    have hsorted := areaHistory_sorted store district state
    rw [hh] at hperm hsorted
    refine ⟨a0, rest, rfl, hperm, hsorted, ?_, ?_, ?_, ?_, ?_, ?_, ?_⟩
    · intro d hd h1 h2
      have hm : d ∈ a0 :: rest := by
        rw [← hh]; exact (mem_areaHistory store district state d).mpr ⟨hd, h1, h2⟩
      rcases List.mem_cons.mp hm with e | e
      · rw [e]; exact strLt_irrefl _
      · exact List.rel_of_sorted_cons hsorted d e
    · simp only [getAreaInfoWithHistory, hh]
      rfl
    · rw [List.length_take, hperm.length_eq]
    · intro d hd
      have hm : d ∈ areaHistory store district state := by
        rw [hh]; exact List.mem_of_mem_take hd
      exact (mem_areaHistory store district state d).mp hm
    · intro e; subst e; rfl
    · intro a1 tail e hlo hhi
      subst e
      obtain ⟨hw, -, -, h3⟩ := change_of_range a0.apiReading a1.apiReading hlo hhi
      rw [hw] at h3
      simp only [historyTrend, hw, h3]
    · intro hnodup sorted hp hs
      refine List.Perm.eq_of_sorted ?_ hs hsorted (hp.trans hperm.symm)
      intro a b ha hb hab hba
      have hdate : a.date = b.date := by
        by_contra hne
        have := strLt_total a.date b.date hne hab
        rw [this] at hba
        exact absurd hba (by decide)
      have ha' := hp.subset ha
      have hb' := hperm.subset hb
      exact List.inj_on_of_nodup_map hnodup ha' hb' hdate

theorem getAreaInfoWithHistory_report_witness :
    ∃ a0 rest,
      areaHistory sampleStore "Kuala Lumpur".toList "Selangor".toList = a0 :: rest ∧
      a0.date = "2025-11-29".toList ∧ rest.length = 2 ∧
      historyTrend (a0 :: rest) =
        concat ["Trend: ".toList, "worsened".toList, " by ".toList, "60".toList,
          " points from previous day\n\n".toList] := by
  obtain ⟨a0, rest, h, -⟩ := getAreaInfoWithHistory_report sampleStore "Kuala Lumpur".toList
    "Selangor".toList [] ⟨_, List.mem_cons_self _ _, rfl, rfl⟩
  refine ⟨a0, rest, h, ?_⟩
  have e : areaHistory sampleStore "Kuala Lumpur".toList "Selangor".toList =
      [⟨"Kuala Lumpur".toList, "Selangor".toList, 120, "Unhealthy".toList, "2025-11-29".toList⟩,
       ⟨"Kuala Lumpur".toList, "Selangor".toList, 60, "Moderate".toList, "2025-11-28".toList⟩,
       ⟨"Kuala Lumpur".toList, "Selangor".toList, 40, "Good".toList, "2025-11-27".toList⟩] := by
    decide
  rw [e] at h
  injection h with h1 h2
  subst h1; subst h2
  decide

/-! ## Superlative queries -/

theorem getRanking_of_best (fmt : Option ℚ → Str) (store : List APIData) (u : Str)
    (h : found (toLower u) "best".toList = true) :
    getRanking fmt store u = getCleanestAreasRanking fmt store := by
  unfold getRanking
  simp only [h, Bool.or_true, if_true]

theorem getRanking_of_worst (fmt : Option ℚ → Str) (store : List APIData) (u : Str)
    (h : found (toLower u) "worst".toList = true) :
    getRanking fmt store u = getCleanestAreasRanking fmt store ∨
      getRanking fmt store u = getMostPollutedAreasRanking fmt store := by
  unfold getRanking
  by_cases hc : (found (toLower u) "rank".toList || found (toLower u) "cleanest".toList ||
      found (toLower u) "best".toList) = true
  · left; rw [if_pos hc]
  · right; rw [if_neg hc]; simp only [h, Bool.or_true, Bool.true_or, if_true]

/-- C22 (the code at the failing input): on every store an utterance that holds "best" is
answered with the cleanest ranking of per-area means and an utterance that holds "worst" with
the cleanest or the most-polluted ranking, because `getRanking` is asked first and answers
both words; "worst day" gets the most-polluted ranking and "best day" the cleanest ranking,
which are not the lists of `getWorstDays`, `getBestDays`, `getWorstAreas` and `getBestAreas`:
the branches of `generateResponse` that call these four are never reached. -/
theorem superlatives_get_rankings (fmt : Option ℚ → Str) (store : List APIData) (rnd : Nat) :
    (∀ u : Str, found (toLower u) "best".toList = true →
      generateResponse fmt store rnd u = getCleanestAreasRanking fmt store) ∧
    (∀ u : Str, found (toLower u) "worst".toList = true →
      generateResponse fmt store rnd u = getCleanestAreasRanking fmt store ∨
      generateResponse fmt store rnd u = getMostPollutedAreasRanking fmt store) ∧
    generateResponse fmt store rnd "worst day".toList = getMostPollutedAreasRanking fmt store ∧
    generateResponse fmt store rnd "best day".toList = getCleanestAreasRanking fmt store ∧
    generateResponse fmt store rnd "worst".toList = getMostPollutedAreasRanking fmt store ∧
    generateResponse fmt store rnd "best".toList = getCleanestAreasRanking fmt store ∧
    (∀ r ∈ [getWorstDays store, getBestDays store, getWorstAreas store, getBestAreas store],
      getCleanestAreasRanking fmt store ≠ r ∧ getMostPollutedAreasRanking fmt store ≠ r) := by
  have hc : (getCleanestAreasRanking fmt store).head? = some '🏆' := rfl
  have hm : (getMostPollutedAreasRanking fmt store).head? = some '⚠' := rfl
  have hne : getCleanestAreasRanking fmt store ≠ [] := by
    intro h; rw [h] at hc; simp at hc
  have hmne : getMostPollutedAreasRanking fmt store ≠ [] := by
    intro h; rw [h] at hm; simp at hm
  have e1 : getRanking fmt store "worst day".toList = getMostPollutedAreasRanking fmt store := rfl
  have e2 : getRanking fmt store "best day".toList = getCleanestAreasRanking fmt store := rfl
  have e3 : getRanking fmt store "worst".toList = getMostPollutedAreasRanking fmt store := rfl
  have e4 : getRanking fmt store "best".toList = getCleanestAreasRanking fmt store := rfl
  refine ⟨?_, ?_, ?_, ?_, ?_, ?_, ?_⟩
  · intro u hu
    have hg := getRanking_of_best fmt store u hu
    rw [generateResponse_of_ranking fmt store rnd u (by rw [hg]; exact hne), hg]
  · intro u hu
    rcases getRanking_of_worst fmt store u hu with hg | hg
    · left; rw [generateResponse_of_ranking fmt store rnd u (by rw [hg]; exact hne), hg]
    · right; rw [generateResponse_of_ranking fmt store rnd u (by rw [hg]; exact hmne), hg]
  · rw [generateResponse_of_ranking fmt store rnd _ (by rw [e1]; exact hmne), e1]
  · rw [generateResponse_of_ranking fmt store rnd _ (by rw [e2]; exact hne), e2]
  · rw [generateResponse_of_ranking fmt store rnd _ (by rw [e3]; exact hmne), e3]
  · rw [generateResponse_of_ranking fmt store rnd _ (by rw [e4]; exact hne), e4]
  · have hhead : ∀ r ∈ [getWorstDays store, getBestDays store, getWorstAreas store,
        getBestAreas store],
        r.head? = some 'N' ∨ r.head? = some 'W' ∨ r.head? = some 'B' ∨ r.head? = some 'C' := by
      intro r hr
      simp only [List.mem_cons, List.mem_singleton, List.not_mem_nil, or_false] at hr
      cases hs : store.isEmpty
      · rcases hr with e | e | e | e <;> subst e
        · right; left; simp only [getWorstDays, hs]; rfl
        · right; right; left; simp only [getBestDays, hs]; rfl
        · right; right; right; simp only [getWorstAreas, hs]; rfl
        · right; right; right; simp only [getBestAreas, hs]; rfl
      · rcases hr with e | e | e | e <;> subst e
        · left; simp only [getWorstDays, hs]; rfl
        · left; simp only [getBestDays, hs]; rfl
        · left; simp only [getWorstAreas, hs]; rfl
        · left; simp only [getBestAreas, hs]; rfl
    intro r hr
    have h := hhead r hr
    constructor
    · intro e
      rw [e] at hc
      rcases h with h | h | h | h <;> · rw [h] at hc; revert hc; decide
    · intro e
      rw [e] at hm
      rcases h with h | h | h | h <;> · rw [h] at hm; revert hm; decide

/-! ## Statistics (`getStatistics`) -/

theorem storeStats_snoc (l : List APIData) (d : APIData) :
    storeStats (l ++ [d]) = stepStats (storeStats l) d := by
  simp only [storeStats, List.foldl_append, List.foldl_cons, List.foldl_nil]

theorem storeStats_total (l : List APIData) :
    (storeStats l).total = wrapInt (l.map (fun d => d.apiReading)).sum := by
  induction l using List.reverseRecOn with
  | nil => rfl
  | append_singleton l d ih =>
    rw [storeStats_snoc, List.map_append, List.sum_append]
    simp only [stepStats, ih, List.map_cons, List.map_nil, List.sum_cons, List.sum_nil, add_zero]
    exact wrapInt_add_left _ _

theorem storeStats_counts (l : List APIData) :
    (storeStats l).good = l.countP (fun d => decide (d.status = "Good".toList)) ∧
    (storeStats l).moderate = l.countP (fun d => decide (d.status = "Moderate".toList)) ∧
    (storeStats l).unhealthy = l.countP (fun d => decide (d.status = "Unhealthy".toList)) := by
  induction l using List.reverseRecOn with
  | nil => exact ⟨rfl, rfl, rfl⟩
  | append_singleton l d ih =>
    obtain ⟨h1, h2, h3⟩ := ih
    rw [storeStats_snoc]
    simp only [List.countP_append, List.countP_cons, List.countP_nil, stepStats, h1, h2, h3]
    by_cases hg : d.status = "Good".toList
    · have hm : d.status ≠ "Moderate".toList := by rw [hg]; decide
      have hu : d.status ≠ "Unhealthy".toList := by rw [hg]; decide
      simp only [decide_eq_true_eq, if_pos hg, if_neg hm, if_neg hu, Nat.zero_add, Nat.add_zero,
        and_self]
    · by_cases hm : d.status = "Moderate".toList
      · have hu : d.status ≠ "Unhealthy".toList := by rw [hm]; decide
        simp only [decide_eq_true_eq, if_neg hg, if_pos hm, if_neg hu, Nat.zero_add,
          Nat.add_zero, and_self]
      · by_cases hu : d.status = "Unhealthy".toList
        · simp only [decide_eq_true_eq, if_neg hg, if_neg hm, if_pos hu, Nat.zero_add,
            Nat.add_zero, and_self]
        · simp only [decide_eq_true_eq, if_neg hg, if_neg hm, if_neg hu, Nat.zero_add,
            Nat.add_zero, and_self]

/-- The running maximum starts at 0: it is never below 0, bounds every reading, and is 0 or
the value of a reading. -/
theorem storeStats_max (l : List APIData) :
    0 ≤ (storeStats l).max_api ∧ (∀ d ∈ l, d.apiReading ≤ (storeStats l).max_api) ∧
    ((storeStats l).max_api = 0 ∨ ∃ d ∈ l, d.apiReading = (storeStats l).max_api) := by
  induction l using List.reverseRecOn with
  | nil => exact ⟨le_refl _, fun d hd => absurd hd (List.not_mem_nil _), Or.inl rfl⟩
  | append_singleton l d ih =>
    obtain ⟨h0, hb, hw⟩ := ih
    rw [storeStats_snoc]
    by_cases hgt : d.apiReading > (storeStats l).max_api
    · have e : (stepStats (storeStats l) d).max_api = d.apiReading := by
        simp only [stepStats, hgt, if_true]
      rw [e]
      refine ⟨by omega, ?_, Or.inr ⟨d, by simp, rfl⟩⟩
      intro x hx
      rcases List.mem_append.mp hx with hx | hx
      · have := hb x hx; omega
      · rw [List.mem_singleton] at hx; rw [hx]
    · have e : (stepStats (storeStats l) d).max_api = (storeStats l).max_api := by
        simp only [stepStats, hgt, if_false]
      rw [e]
      refine ⟨h0, ?_, ?_⟩
      · intro x hx
        rcases List.mem_append.mp hx with hx | hx
        · exact hb x hx
        · rw [List.mem_singleton] at hx; rw [hx]; omega
      · rcases hw with hw | ⟨x, hx, hxe⟩
        · exact Or.inl hw
        · exact Or.inr ⟨x, List.mem_append_left _ hx, hxe⟩

/-- The running minimum starts at 1000: it is never above 1000, is below every reading or
equal to it, and is 1000 or the value of a reading. -/
theorem storeStats_min (l : List APIData) :
    (storeStats l).min_api ≤ 1000 ∧ (∀ d ∈ l, (storeStats l).min_api ≤ d.apiReading) ∧
    ((storeStats l).min_api = 1000 ∨ ∃ d ∈ l, d.apiReading = (storeStats l).min_api) := by
  induction l using List.reverseRecOn with
  | nil => exact ⟨le_refl _, fun d hd => absurd hd (List.not_mem_nil _), Or.inl rfl⟩
  | append_singleton l d ih =>
    obtain ⟨h0, hb, hw⟩ := ih
    rw [storeStats_snoc]
    by_cases hlt : d.apiReading < (storeStats l).min_api
    · have e : (stepStats (storeStats l) d).min_api = d.apiReading := by
        simp only [stepStats, hlt, if_true]
      rw [e]
      refine ⟨by omega, ?_, Or.inr ⟨d, by simp, rfl⟩⟩
      intro x hx
      rcases List.mem_append.mp hx with hx | hx
      · have := hb x hx; omega
      · rw [List.mem_singleton] at hx; rw [hx]
    · have e : (stepStats (storeStats l) d).min_api = (storeStats l).min_api := by
        simp only [stepStats, hlt, if_false]
      rw [e]
      refine ⟨h0, ?_, ?_⟩
      · intro x hx
        rcases List.mem_append.mp hx with hx | hx
        · exact hb x hx
        · rw [List.mem_singleton] at hx; rw [hx]; omega
      · rcases hw with hw | ⟨x, hx, hxe⟩
        · exact Or.inl hw
        · exact Or.inr ⟨x, List.mem_append_left _ hx, hxe⟩

/-- C23 (the code at the failing inputs): the loop of `getStatistics` starts its maximum at 0
and its minimum at 1000. For the store with the single reading -5 the line "Highest API" shows
0, and for the store with the single reading 1200 the line "Lowest API" shows 1000; neither is
a reading of the store. The total is accumulated in an `int`: for two readings of 2147483647
it wraps to -2 and the mean shown is -1. On every non-empty store the total is the sum of the
readings reduced to 32 bits (the sum itself when that lies within the range of `int`), the
three counters count the readings with status "Good", "Moderate" and "Unhealthy", and the
values shown as highest and lowest are the greatest reading or 0, whichever is larger, and the
least reading or 1000, whichever is smaller. -/
theorem getStatistics_extremes_from_0_and_1000 (fmt : Option ℚ → Str) :
    getStatistics fmt negativeStore =
      concat [
        "Malaysia Air Quality Statistics (Oct 29 - Nov 29):\n".toList,
        "• Total records: ".toList, "1".toList, "\n".toList,
        "• Districts monitored: ".toList, "1".toList, "\n".toList,
        "• Average API: ".toList, fmt (some (-5)), "\n".toList,
        "• Highest API: ".toList, "0".toList, "\n".toList,
        "• Lowest API: ".toList, "-5".toList, "\n".toList,
        "• Good: ".toList, "1".toList, " readings\n".toList,
        "• Moderate: ".toList, "0".toList, " readings\n".toList,
        "• Unhealthy: ".toList, "0".toList, " readings".toList] ∧
    (∀ d ∈ negativeStore, d.apiReading = -5) ∧
    getStatistics fmt largeStore =
      concat [
        "Malaysia Air Quality Statistics (Oct 29 - Nov 29):\n".toList,
        "• Total records: ".toList, "1".toList, "\n".toList,
        "• Districts monitored: ".toList, "1".toList, "\n".toList,
        "• Average API: ".toList, fmt (some 1200), "\n".toList,
        "• Highest API: ".toList, "1200".toList, "\n".toList,
        "• Lowest API: ".toList, "1000".toList, "\n".toList,
        "• Good: ".toList, "0".toList, " readings\n".toList,
        "• Moderate: ".toList, "0".toList, " readings\n".toList,
        "• Unhealthy: ".toList, "0".toList, " readings".toList] ∧
    (∀ d ∈ largeStore, d.apiReading = 1200) ∧
    getStatistics fmt maxIntStore =
      concat [
        "Malaysia Air Quality Statistics (Oct 29 - Nov 29):\n".toList,
        "• Total records: ".toList, "2".toList, "\n".toList,
        "• Districts monitored: ".toList, "1".toList, "\n".toList,
        "• Average API: ".toList, fmt (some (-1)), "\n".toList,
        "• Highest API: ".toList, "2147483647".toList, "\n".toList,
        "• Lowest API: ".toList, "1000".toList, "\n".toList,
        "• Good: ".toList, "0".toList, " readings\n".toList,
        "• Moderate: ".toList, "0".toList, " readings\n".toList,
        "• Unhealthy: ".toList, "0".toList, " readings".toList] ∧
    (∀ d ∈ maxIntStore, d.apiReading = 2147483647) ∧
    (∀ store : List APIData, store ≠ [] →
      getStatistics fmt store =
        concat [
          "Malaysia Air Quality Statistics (Oct 29 - Nov 29):\n".toList,
          "• Total records: ".toList, natToStr store.length, "\n".toList,
          "• Districts monitored: ".toList, natToStr (countUniqueDistricts store), "\n".toList,
          "• Average API: ".toList,
          fmt (some (((wrapInt (store.map (fun d => d.apiReading)).sum : Int) : ℚ) /
            (store.length : ℚ))),
          "\n".toList,
          "• Highest API: ".toList, intToStr (storeStats store).max_api, "\n".toList,
          "• Lowest API: ".toList, intToStr (storeStats store).min_api, "\n".toList,
          "• Good: ".toList,
          natToStr (store.countP (fun d => decide (d.status = "Good".toList))),
          " readings\n".toList,
          "• Moderate: ".toList,
          natToStr (store.countP (fun d => decide (d.status = "Moderate".toList))),
          " readings\n".toList,
          "• Unhealthy: ".toList,
          natToStr (store.countP (fun d => decide (d.status = "Unhealthy".toList))),
          " readings".toList] ∧
      (-2147483648 ≤ (store.map (fun d => d.apiReading)).sum →
        (store.map (fun d => d.apiReading)).sum ≤ 2147483647 →
        wrapInt (store.map (fun d => d.apiReading)).sum =
          (store.map (fun d => d.apiReading)).sum) ∧
      (∀ d ∈ store, d.apiReading ≤ (storeStats store).max_api) ∧
      ((storeStats store).max_api = 0 ∨ ∃ d ∈ store, d.apiReading = (storeStats store).max_api) ∧
      (∀ d ∈ store, (storeStats store).min_api ≤ d.apiReading) ∧
      ((storeStats store).min_api = 1000 ∨
        ∃ d ∈ store, d.apiReading = (storeStats store).min_api)) := by
  refine ⟨?_, by decide, ?_, by decide, ?_, by decide, ?_⟩
  · have e : divD (((storeStats negativeStore).total : Int) : ℚ) negativeStore.length =
        some (-5) := by decide!
    simp only [getStatistics, e]
    rfl
  · have e : divD (((storeStats largeStore).total : Int) : ℚ) largeStore.length =
        some 1200 := by decide!
    simp only [getStatistics, e]
    rfl
  · have e : divD (((storeStats maxIntStore).total : Int) : ℚ) maxIntStore.length =
        some (-1) := by decide!
    simp only [getStatistics, e]
    rfl
  · intro store hne
    have hlen : store.length ≠ 0 := fun h => hne (List.length_eq_zero.mp h)
    have hemp : store.isEmpty = false := by
      cases store with
      | nil => exact absurd rfl hne
      | cons a l => rfl
    obtain ⟨hg, hm, hu⟩ := storeStats_counts store
    refine ⟨?_, wrapInt_of_range _, (storeStats_max store).2.1, (storeStats_max store).2.2,
      (storeStats_min store).2.1, (storeStats_min store).2.2⟩
    simp only [getStatistics, hemp, divD, hlen, if_false, hg, hm, hu, storeStats_total,
      Bool.false_eq_true]

/-! ## The rounding model (`roundDouble`) -/

theorem log2Fuel_spec (fuel : Nat) : ∀ n : Nat, n ≤ fuel → 1 ≤ n →
    2 ^ log2Fuel fuel n ≤ n ∧ n < 2 ^ (log2Fuel fuel n + 1) := by
  induction fuel with
  | zero => intro n h1 h2; omega
  | succ fuel ih =>
    intro n h1 h2
    unfold log2Fuel
    by_cases h : n < 2
    · rw [if_pos h]
      constructor
      · simpa using h2
      · simpa using h
    · rw [if_neg h]
      obtain ⟨ha, hb⟩ := ih (n / 2) (by omega) (by omega)
      rw [pow_succ] at hb
      rw [pow_succ, pow_succ, pow_succ]
      generalize 2 ^ log2Fuel fuel (n / 2) = p at ha hb
      omega

/-- The integer chosen by `roundHalfEven` is within one half of `n / d`, and it is even when
`n / d` lies exactly half way between two integers. -/
theorem roundHalfEven_spec (n d : Nat) (hd : 0 < d) :
    |((roundHalfEven n d : Nat) : ℚ) - (n : ℚ) / (d : ℚ)| ≤ 1 / 2 ∧
    (n / d ≤ roundHalfEven n d ∧ roundHalfEven n d ≤ n / d + 1) ∧
    (2 * (n % d) = d → roundHalfEven n d % 2 = 0) := by
  have hdq : (0 : ℚ) < (d : ℚ) := by exact_mod_cast hd
  have hdiv : (n : ℚ) / (d : ℚ) = ((n / d : Nat) : ℚ) + ((n % d : Nat) : ℚ) / (d : ℚ) := by
    have h := Nat.div_add_mod n d
    have h2 : (n : ℚ) = (d : ℚ) * ((n / d : Nat) : ℚ) + ((n % d : Nat) : ℚ) := by
      exact_mod_cast h.symm
    rw [h2]
    field_simp
    ring
  have hr : n % d < d := Nat.mod_lt _ hd
  have hrq : ((n % d : Nat) : ℚ) / (d : ℚ) < 1 := by
    rw [div_lt_one hdq]; exact_mod_cast hr
  have hr0 : (0 : ℚ) ≤ ((n % d : Nat) : ℚ) / (d : ℚ) := by positivity
  unfold roundHalfEven
  simp only
  by_cases h1 : 2 * (n % d) < d
  · rw [if_pos h1]
    refine ⟨?_, ⟨le_refl _, by omega⟩, fun h => by omega⟩
    have : ((n % d : Nat) : ℚ) / (d : ℚ) ≤ 1 / 2 := by
      rw [div_le_iff₀ hdq]
      have : (2 : ℚ) * ((n % d : Nat) : ℚ) < (d : ℚ) := by exact_mod_cast h1
      linarith
    rw [hdiv, abs_le]
    constructor <;> linarith
  · rw [if_neg h1]
    by_cases h2 : d < 2 * (n % d)
    · rw [if_pos h2]
      refine ⟨?_, ⟨by omega, le_refl _⟩, fun h => by omega⟩
      have : (1 : ℚ) / 2 ≤ ((n % d : Nat) : ℚ) / (d : ℚ) := by
        rw [le_div_iff₀ hdq]
        have : (d : ℚ) < (2 : ℚ) * ((n % d : Nat) : ℚ) := by exact_mod_cast h2
        linarith
      rw [hdiv, abs_le]
      push_cast
      constructor <;> linarith
    · rw [if_neg h2]
      have heq : 2 * (n % d) = d := by omega
      have hhalf : ((n % d : Nat) : ℚ) / (d : ℚ) = 1 / 2 := by
        rw [div_eq_iff (ne_of_gt hdq)]
        have : (2 : ℚ) * ((n % d : Nat) : ℚ) = (d : ℚ) := by exact_mod_cast heq
        linarith
      by_cases h3 : n / d % 2 = 0
      · rw [if_pos h3]
        refine ⟨?_, ⟨le_refl _, by omega⟩, fun _ => h3⟩
        rw [hdiv, hhalf, abs_le]
        constructor <;> linarith
      · rw [if_neg h3]
        refine ⟨?_, ⟨by omega, le_refl _⟩, fun _ => by omega⟩
        rw [hdiv, hhalf, abs_le]
        push_cast
        constructor <;> linarith

/-- The value of `floorLog2 n d` is the binary exponent of `n / d`. -/
theorem floorLog2_spec (n d : Nat) (hn : 0 < n) (hd : 0 < d) :
    (2 : ℚ) ^ (floorLog2 n d) ≤ (n : ℚ) / (d : ℚ) ∧
    (n : ℚ) / (d : ℚ) < (2 : ℚ) ^ (floorLog2 n d + 1) := by
  have hnq : (0 : ℚ) < (n : ℚ) := by exact_mod_cast hn
  have hdq : (0 : ℚ) < (d : ℚ) := by exact_mod_cast hd
  obtain ⟨ha1, ha2⟩ := log2Fuel_spec n n (le_refl _) hn
  obtain ⟨hb1, hb2⟩ := log2Fuel_spec d d (le_refl _) hd
  have ha1q : (2 : ℚ) ^ (log2Fuel n n) ≤ (n : ℚ) := by exact_mod_cast ha1
  have ha2q : (n : ℚ) < (2 : ℚ) ^ (log2Fuel n n + 1) := by exact_mod_cast ha2
  have hb1q : (2 : ℚ) ^ (log2Fuel d d) ≤ (d : ℚ) := by exact_mod_cast hb1
  have hb2q : (d : ℚ) < (2 : ℚ) ^ (log2Fuel d d + 1) := by exact_mod_cast hb2
  have hpa : (0 : ℚ) < (2 : ℚ) ^ (log2Fuel n n) := by positivity
  have hpb : (0 : ℚ) < (2 : ℚ) ^ (log2Fuel d d) := by positivity
  have he0 : ∀ k : ℤ, (2 : ℚ) ^ (((log2Fuel n n : Nat) : ℤ) - ((log2Fuel d d : Nat) : ℤ) + k) =
      (2 : ℚ) ^ (log2Fuel n n) / (2 : ℚ) ^ (log2Fuel d d) * (2 : ℚ) ^ k := by
    intro k
    rw [zpow_add₀ (by norm_num), zpow_sub₀ (by norm_num), zpow_natCast, zpow_natCast]
  have hlow : (2 : ℚ) ^ (((log2Fuel n n : Nat) : ℤ) - ((log2Fuel d d : Nat) : ℤ) + (-1)) <
      (n : ℚ) / (d : ℚ) := by
    rw [he0, lt_div_iff₀ hdq]
    have h2 : (2 : ℚ) ^ (-1 : ℤ) = 1 / 2 := by norm_num
    rw [h2]
    have : (2 : ℚ) ^ (log2Fuel n n) / (2 : ℚ) ^ (log2Fuel d d) * (1 / 2) * (d : ℚ) =
        (2 : ℚ) ^ (log2Fuel n n) * ((d : ℚ) / ((2 : ℚ) ^ (log2Fuel d d) * 2)) := by
      field_simp
    rw [this]
    have hlt : (d : ℚ) / ((2 : ℚ) ^ (log2Fuel d d) * 2) < 1 := by
      rw [div_lt_one (by positivity)]
      rw [pow_succ] at hb2q
      exact hb2q
    calc (2 : ℚ) ^ (log2Fuel n n) * ((d : ℚ) / ((2 : ℚ) ^ (log2Fuel d d) * 2))
        < (2 : ℚ) ^ (log2Fuel n n) * 1 := by
          exact mul_lt_mul_of_pos_left hlt hpa
      _ ≤ (n : ℚ) := by rw [mul_one]; exact ha1q
  have hhigh : (n : ℚ) / (d : ℚ) <
      (2 : ℚ) ^ (((log2Fuel n n : Nat) : ℤ) - ((log2Fuel d d : Nat) : ℤ) + 1) := by
    rw [he0, div_lt_iff₀ hdq]
    have h2 : (2 : ℚ) ^ (1 : ℤ) = 2 := by norm_num
    rw [h2]
    rw [pow_succ] at ha2q
    have : (2 : ℚ) ^ (log2Fuel n n) / (2 : ℚ) ^ (log2Fuel d d) * 2 * (d : ℚ) =
        (2 : ℚ) ^ (log2Fuel n n) * 2 * ((d : ℚ) / (2 : ℚ) ^ (log2Fuel d d)) := by
      field_simp
    rw [this]
    have hge : 1 ≤ (d : ℚ) / (2 : ℚ) ^ (log2Fuel d d) := by
      rw [one_le_div hpb]; exact hb1q
    calc (n : ℚ) < (2 : ℚ) ^ (log2Fuel n n) * 2 * 1 := by rw [mul_one]; exact ha2q
      _ ≤ (2 : ℚ) ^ (log2Fuel n n) * 2 * ((d : ℚ) / (2 : ℚ) ^ (log2Fuel d d)) := by
          exact mul_le_mul_of_nonneg_left hge (by positivity)
  unfold floorLog2
  simp only
  generalize ((log2Fuel n n : Nat) : ℤ) - ((log2Fuel d d : Nat) : ℤ) = e0 at hlow hhigh ⊢
  have hsub : e0 - 1 + 1 = e0 := by ring
  by_cases hge : e0 ≥ 0
  · rw [if_pos hge]
    have hcast : (2 : ℚ) ^ e0 = ((2 ^ e0.toNat : Nat) : ℚ) := by
      have : e0 = ((e0.toNat : Nat) : ℤ) := (Int.toNat_of_nonneg hge).symm
      conv_lhs => rw [this]
      rw [zpow_natCast]
      push_cast
      rfl
    by_cases ht : d * 2 ^ e0.toNat ≤ n
    · rw [if_pos ht]
      refine ⟨?_, hhigh⟩
      rw [hcast, le_div_iff₀ hdq]
      have : ((d * 2 ^ e0.toNat : Nat) : ℚ) ≤ (n : ℚ) := by exact_mod_cast ht
      push_cast at this ⊢
      linarith
    · rw [if_neg ht]
      refine ⟨le_of_lt (by simpa [sub_eq_add_neg] using hlow), ?_⟩
      rw [hsub, hcast, div_lt_iff₀ hdq]
      have : (n : ℚ) < ((d * 2 ^ e0.toNat : Nat) : ℚ) := by exact_mod_cast (not_le.mp ht)
      push_cast at this ⊢
      linarith
  · rw [if_neg hge]
    have hneg : 0 ≤ -e0 := by omega
    have hcast : (2 : ℚ) ^ e0 = 1 / ((2 ^ (-e0).toNat : Nat) : ℚ) := by
      have : e0 = -(((-e0).toNat : Nat) : ℤ) := by
        rw [Int.toNat_of_nonneg hneg]; ring
      conv_lhs => rw [this]
      rw [zpow_neg, zpow_natCast]
      push_cast
      rw [one_div]
    have hp : (0 : ℚ) < ((2 ^ (-e0).toNat : Nat) : ℚ) := by positivity
    by_cases ht : d ≤ n * 2 ^ (-e0).toNat
    · rw [if_pos ht]
      refine ⟨?_, hhigh⟩
      rw [hcast, le_div_iff₀ hdq, div_mul_eq_mul_div, div_le_iff₀ hp, one_mul]
      exact_mod_cast ht
    · rw [if_neg ht]
      refine ⟨le_of_lt (by simpa [sub_eq_add_neg] using hlow), ?_⟩
      rw [hsub, hcast, div_lt_iff₀ hdq, div_mul_eq_mul_div, lt_div_iff₀ hp, one_mul]
      exact_mod_cast (not_le.mp ht)

theorem roundHalfEven_scaled (N D : Nat) (hD : 0 < D) (x s : ℚ) (hs : 0 < s)
    (hx : (N : ℚ) / (D : ℚ) = x * s) (hlo : (2 : ℚ) ^ 52 ≤ x * s) (hhi : x * s < (2 : ℚ) ^ 53) :
    2 ^ 52 ≤ roundHalfEven N D ∧ roundHalfEven N D ≤ 2 ^ 53 ∧
    |((roundHalfEven N D : Nat) : ℚ) / s - x| ≤ 1 / (2 * s) := by
  obtain ⟨habs, -, -⟩ := roundHalfEven_spec N D hD
  rw [hx, abs_le] at habs
  obtain ⟨h1, h2⟩ := habs
  refine ⟨?_, ?_, ?_⟩
  · by_contra hc
    have hc2 : roundHalfEven N D + 1 ≤ 2 ^ 52 := by omega
    have : ((roundHalfEven N D + 1 : Nat) : ℚ) ≤ ((2 ^ 52 : Nat) : ℚ) := by exact_mod_cast hc2
    push_cast at this
    linarith
  · by_contra hc
    have hc2 : 2 ^ 53 + 1 ≤ roundHalfEven N D := by omega
    have : ((2 ^ 53 + 1 : Nat) : ℚ) ≤ ((roundHalfEven N D : Nat) : ℚ) := by exact_mod_cast hc2
    push_cast at this
    linarith
  · have e : ((roundHalfEven N D : Nat) : ℚ) / s - x =
        (((roundHalfEven N D : Nat) : ℚ) - x * s) / s := by
      field_simp
      ring
    rw [e, abs_div, abs_of_pos hs, div_le_div_iff₀ hs (by positivity)]
    have : |((roundHalfEven N D : Nat) : ℚ) - x * s| ≤ 1 / 2 := abs_le.mpr ⟨h1, h2⟩
    calc |((roundHalfEven N D : Nat) : ℚ) - x * s| * (2 * s)
        ≤ 1 / 2 * (2 * s) := by
          exact mul_le_mul_of_nonneg_right this (by positivity)
      _ = 1 * s := by ring

/-- The value `roundPos n d` has a significand of 53 bits at the binary exponent of `n / d`
and differs from `n / d` by at most half a unit in the last place. -/
theorem roundPos_spec (n d : Nat) (hn : 0 < n) (hd : 0 < d) :
    ∃ m : Nat, 2 ^ 52 ≤ m ∧ m ≤ 2 ^ 53 ∧
      roundPos n d = (m : ℚ) * (2 : ℚ) ^ (floorLog2 n d - 52) ∧
      |roundPos n d - (n : ℚ) / (d : ℚ)| ≤ (2 : ℚ) ^ (floorLog2 n d - 53) := by
  have hnq : (0 : ℚ) < (n : ℚ) := by exact_mod_cast hn
  have hdq : (0 : ℚ) < (d : ℚ) := by exact_mod_cast hd
  obtain ⟨hlo, hhi⟩ := floorLog2_spec n d hn hd
  have hs : (0 : ℚ) < (2 : ℚ) ^ (52 - floorLog2 n d) := by positivity
  have hlo2 : (2 : ℚ) ^ 52 ≤ (n : ℚ) / (d : ℚ) * (2 : ℚ) ^ (52 - floorLog2 n d) := by
    have : (2 : ℚ) ^ 52 = (2 : ℚ) ^ (floorLog2 n d) * (2 : ℚ) ^ (52 - floorLog2 n d) := by
      rw [← zpow_add₀ (by norm_num)]
      have : floorLog2 n d + (52 - floorLog2 n d) = ((52 : Nat) : ℤ) := by push_cast; ring
      rw [this, zpow_natCast]
    rw [this]
    exact mul_le_mul_of_nonneg_right hlo (le_of_lt hs)
  have hhi2 : (n : ℚ) / (d : ℚ) * (2 : ℚ) ^ (52 - floorLog2 n d) < (2 : ℚ) ^ 53 := by
    have : (2 : ℚ) ^ 53 = (2 : ℚ) ^ (floorLog2 n d + 1) * (2 : ℚ) ^ (52 - floorLog2 n d) := by
      rw [← zpow_add₀ (by norm_num)]
      have : floorLog2 n d + 1 + (52 - floorLog2 n d) = ((53 : Nat) : ℤ) := by push_cast; ring
      rw [this, zpow_natCast]
    rw [this]
    exact mul_lt_mul_of_pos_right hhi hs
  have hinv : (2 : ℚ) ^ (floorLog2 n d - 52) = ((2 : ℚ) ^ (52 - floorLog2 n d))⁻¹ := by
    rw [← zpow_neg]
    congr 1
    ring
  have hhalf : (2 : ℚ) ^ (floorLog2 n d - 53) = 1 / (2 * (2 : ℚ) ^ (52 - floorLog2 n d)) := by
    have : floorLog2 n d - 53 = -(52 - floorLog2 n d) + (-1) := by ring
    rw [this, zpow_add₀ (by norm_num), zpow_neg]
    have h2 : (2 : ℚ) ^ (-1 : ℤ) = 1 / 2 := by norm_num
    rw [h2]
    field_simp
    ring
  unfold roundPos
  simp only
  generalize hk : 52 - floorLog2 n d = k at hs hlo2 hhi2 hinv hhalf ⊢
  by_cases hge : k ≥ 0
  · rw [if_pos hge]
    have hcast : (2 : ℚ) ^ k = ((2 ^ k.toNat : Nat) : ℚ) := by
      have : k = ((k.toNat : Nat) : ℤ) := (Int.toNat_of_nonneg hge).symm
      conv_lhs => rw [this]
      rw [zpow_natCast]
      push_cast
      rfl
    have hx : ((n * 2 ^ k.toNat : Nat) : ℚ) / (d : ℚ) = (n : ℚ) / (d : ℚ) * (2 : ℚ) ^ k := by
      rw [hcast]
      push_cast
      field_simp
    obtain ⟨h1, h2, h3⟩ := roundHalfEven_scaled (n * 2 ^ k.toNat) d hd _ _ hs hx hlo2 hhi2
    refine ⟨roundHalfEven (n * 2 ^ k.toNat) d, h1, h2, ?_, ?_⟩
    · rw [hinv, hcast, div_eq_mul_inv]
    · rw [hhalf, ← hcast]
      exact h3
  · rw [if_neg hge]
    have hneg : 0 ≤ -k := by omega
    have hcast : (2 : ℚ) ^ k = 1 / ((2 ^ (-k).toNat : Nat) : ℚ) := by
      have : k = -(((-k).toNat : Nat) : ℤ) := by
        rw [Int.toNat_of_nonneg hneg]; ring
      conv_lhs => rw [this]
      rw [zpow_neg, zpow_natCast]
      push_cast
      rw [one_div]
    have hp : (0 : ℚ) < ((2 ^ (-k).toNat : Nat) : ℚ) := by positivity
    have hD : 0 < d * 2 ^ (-k).toNat := Nat.mul_pos hd (by positivity)
    have hx : (n : ℚ) / ((d * 2 ^ (-k).toNat : Nat) : ℚ) = (n : ℚ) / (d : ℚ) * (2 : ℚ) ^ k := by
      rw [hcast]
      push_cast
      field_simp
    obtain ⟨h1, h2, h3⟩ := roundHalfEven_scaled n (d * 2 ^ (-k).toNat) hD _ _ hs hx hlo2 hhi2
    refine ⟨roundHalfEven n (d * 2 ^ (-k).toNat), h1, h2, ?_, ?_⟩
    · rw [hinv, hcast, one_div, inv_inv]
    · rw [hhalf]
      have e : ((roundHalfEven n (d * 2 ^ (-k).toNat) : Nat) : ℚ) * ((2 ^ (-k).toNat : Nat) : ℚ) =
          ((roundHalfEven n (d * 2 ^ (-k).toNat) : Nat) : ℚ) / (2 : ℚ) ^ k := by
        rw [hcast, one_div, div_inv_eq_mul]
      rw [e]
      exact h3

/-- The model of a `double` operation: for `q ≠ 0` with binary exponent `e` (that is,
`2 ^ e ≤ |q| < 2 ^ (e + 1)`), `roundDouble q` has the sign of `q`, its absolute value is
`m * 2 ^ (e - 52)` for an integer `m` of at most 53 bits, and it differs from `q` by at most
`2 ^ (e - 53)`, half a unit in the last place. -/
theorem roundDouble_spec (q : ℚ) (hq : q ≠ 0) :
    (2 : ℚ) ^ (floorLog2 q.num.natAbs q.den) ≤ |q| ∧
    |q| < (2 : ℚ) ^ (floorLog2 q.num.natAbs q.den + 1) ∧
    (∃ m : Nat, 2 ^ 52 ≤ m ∧ m ≤ 2 ^ 53 ∧
      |roundDouble q| = (m : ℚ) * (2 : ℚ) ^ (floorLog2 q.num.natAbs q.den - 52)) ∧
    |roundDouble q - q| ≤ (2 : ℚ) ^ (floorLog2 q.num.natAbs q.den - 53) ∧
    (0 < q ↔ 0 < roundDouble q) := by
  have hnum : q.num ≠ 0 := fun h => hq (Rat.num_eq_zero.mp h)
  have hn : 0 < q.num.natAbs := Int.natAbs_pos.mpr hnum
  have hd : 0 < q.den := q.den_pos
  have habs : |q| = (q.num.natAbs : ℚ) / (q.den : ℚ) := by
    have h1 : ((q.num.natAbs : Nat) : ℚ) = |(q.num : ℚ)| := by
      rw [Nat.cast_natAbs, Int.cast_abs]
    have hdq : (0 : ℚ) < (q.den : ℚ) := by exact_mod_cast hd
    rw [h1]
    conv_lhs => rw [← Rat.num_div_den q]
    rw [abs_div, abs_of_pos hdq]
  obtain ⟨hlo, hhi⟩ := floorLog2_spec q.num.natAbs q.den hn hd
  obtain ⟨m, hm1, hm2, hval, herr⟩ := roundPos_spec q.num.natAbs q.den hn hd
  have hpos : 0 < roundPos q.num.natAbs q.den := by
    rw [hval]
    have : (0 : ℚ) < (m : ℚ) := by
      have : 0 < m := lt_of_lt_of_le (by positivity) hm1
      exact_mod_cast this
    positivity
  rw [← habs] at hlo hhi herr
  refine ⟨hlo, hhi, ?_, ?_, ?_⟩
  · refine ⟨m, hm1, hm2, ?_⟩
    unfold roundDouble
    rw [if_neg hq]
    by_cases hneg : q < 0
    · rw [if_pos hneg, abs_neg, abs_of_pos hpos, hval]
    · rw [if_neg hneg, abs_of_pos hpos, hval]
  · unfold roundDouble
    rw [if_neg hq]
    by_cases hneg : q < 0
    · rw [if_pos hneg]
      rw [abs_of_neg hneg] at herr
      have : -roundPos q.num.natAbs q.den - q = -(roundPos q.num.natAbs q.den - -q) := by ring
      rw [this, abs_neg]
      exact herr
    · rw [if_neg hneg]
      rw [abs_of_nonneg (not_lt.mp hneg)] at herr
      exact herr
  · unfold roundDouble
    rw [if_neg hq]
    by_cases hneg : q < 0
    · rw [if_pos hneg]
      constructor
      · intro h; linarith
      · intro h; linarith
    · rw [if_neg hneg]
      constructor
      · intro _; exact hpos
      · intro _; exact lt_of_le_of_ne (not_lt.mp hneg) (Ne.symm hq)

/-! ## Trend analysis (`analyzeTrends`) -/

/-- The model of rounding on familiar values: 1/10 and 1/3 round to the `double`s
0x3FB999999999999A and 0x3FD5555555555555, and integers are kept. -/
theorem roundDouble_examples :
    roundDouble (1 / 10) = 3602879701896397 / 2 ^ 55 ∧
    roundDouble (1 / 3) = 6004799503160661 / 2 ^ 54 ∧
    roundDouble 5 = 5 ∧ roundDouble (-5) = -5 ∧ roundDouble 0 = 0 ∧
    roundDouble (13 / 3) = 4878899596318037 / 2 ^ 50 ∧
    roundDouble (28 / 3) = 5254199565265579 / 2 ^ 49 ∧
    roundDouble (2 ^ 53 + 1) = 2 ^ 53 := by
  refine ⟨by decide!, by decide!, by decide!, by decide!, by decide!, by decide!, by decide!,
    by decide!⟩

theorem concat_nil_pair (b : Str) : concat [[], b] = b := by
  simp only [concat, List.foldr_cons, List.foldr_nil, List.append_nil, List.nil_append]

theorem mapPut_ne_nil {V : Type} (m : List (Str × V)) (k : Str) (v : V) : mapPut m k v ≠ [] := by
  cases m with
  | nil => simp [mapPut]
  | cons p m =>
    unfold mapPut
    split_ifs <;> simp

theorem countUniqueDistricts_pos (store : List APIData) (h : store ≠ []) :
    countUniqueDistricts store ≠ 0 := by
  unfold countUniqueDistricts
  induction store using List.reverseRecOn with
  | nil => exact absurd rfl h
  | append_singleton l d _ =>
    rw [List.foldl_append, List.foldl_cons, List.foldl_nil]
    intro h0
    exact mapPut_ne_nil _ _ _ (List.length_eq_zero.mp h0)

/-- C25 (the code at the failing input): the November branch of `analyzeByMonth` divides by
`november_data.size()` without a test. On the empty store, and on every store without a
reading of November, the utterance "november" reaches `analyzeByMonth`, the divisor is 0 and
the mean printed is the NaN of `0.0 / 0`; the October branch of the same function tests
`october_data.empty()` first. -/
theorem november_mean_divides_by_zero (fmt : Option ℚ → Str) (rnd : Nat) :
    (∀ store : List APIData, november_data store = [] →
      divD (sumApi (november_data store)) (november_data store).length = none) ∧
    (∀ store : List APIData,
      generateResponse fmt store rnd "november".toList =
        concat [
          "November 2025 Analysis (29 days):\n".toList,
          "• Average API: ".toList,
          fmt (divD (sumApi (november_data store)) (november_data store).length), "\n".toList,
          "• Days recorded: ".toList, natToStr (november_data store).length, "\n".toList,
          "• Showed improving trend throughout the month\n".toList]) ∧
    generateResponse fmt [] rnd "november".toList =
      concat [
        "November 2025 Analysis (29 days):\n".toList,
        "• Average API: ".toList, fmt none, "\n".toList,
        "• Days recorded: ".toList, "0".toList, "\n".toList,
        "• Showed improving trend throughout the month\n".toList] ∧
    generateResponse fmt [] rnd "october".toList =
      "Limited October data available (only 3 days).\n".toList := by
  have hr : ∀ store : List APIData, getRanking fmt store "november".toList = [] := fun _ => rfl
  have hh : ∀ store : List APIData, getHealthAdvisoryWithLocation store "november".toList = [] :=
    fun store => (getHealthAdvisoryWithLocation_eq_nil store _).mpr (by decide)
  have hg : ∀ store : List APIData,
      generateResponse fmt store rnd "november".toList =
        analyzeByMonth fmt store "november".toList := by
    intro store
    rw [generateResponse_of_no_date fmt store rnd _ (hr store) (hh store) (by decide)]
    rfl
  have ha : ∀ store : List APIData,
      analyzeByMonth fmt store "november".toList =
        concat [
          "November 2025 Analysis (29 days):\n".toList,
          "• Average API: ".toList,
          fmt (divD (sumApi (november_data store)) (november_data store).length), "\n".toList,
          "• Days recorded: ".toList, natToStr (november_data store).length, "\n".toList,
          "• Showed improving trend throughout the month\n".toList] := by
    intro store
    exact concat_nil_pair _
  refine ⟨?_, ?_, ?_, ?_⟩
  · intro store h
    rw [h]
    rfl
  · intro store
    rw [hg, ha]
  · rw [hg, ha]
    rfl
  · have hro : getRanking fmt [] "october".toList = [] := rfl
    rw [generateResponse_of_no_date fmt [] rnd _ hro
      ((getHealthAdvisoryWithLocation_eq_nil [] _).mpr (by decide)) (by decide)]
    rfl

/-! ## Knowledge base and default responses -/

theorem getRandomResponse_mem (rnd : Nat) : getRandomResponse rnd ∈ default_responses_ := by
  unfold getRandomResponse
  have h5 : default_responses_.length = 5 := rfl
  have hlt : rnd % default_responses_.length < default_responses_.length := by
    rw [h5]; exact Nat.mod_lt _ (by decide)
  rw [List.getD_eq_getElem _ _ hlt]
  exact List.getElem_mem _

/-- When no detector of steps 1 to 8 fires, `generateResponse` is the knowledge-base search
followed by the default response. -/
theorem generateResponse_of_no_detector (fmt : Option ℚ → Str) (store : List APIData)
    (rnd : Nat) (u : Str)
    (hrank : ∀ kw ∈ ["rank", "cleanest", "best", "most polluted", "worst", "dirtiest",
      "ranking", "top", "list"].map String.toList, found (toLower u) kw = false)
    (hhealth : health_question u = false)
    (hdate : extractDateFromQuery u = [])
    (hkw : ∀ kw ∈ ["trend", "history", "historical", "november", "october", "compare", "all",
      "stat"].map String.toList, found (toLower u) kw = false)
    (harea : ∀ d ∈ store, isAreaMatch u d.district d.state = false) :
    generateResponse fmt store rnd u =
      match knowledge_base_.find? (fun pair => found (toLower u) pair.1) with
      | some pair => pair.2
      | none => getRandomResponse rnd := by
  have r1 := hrank "rank".toList (by simp)
  have r2 := hrank "cleanest".toList (by simp)
  have r3 := hrank "best".toList (by simp)
  have r4 := hrank "most polluted".toList (by simp)
  have r5 := hrank "worst".toList (by simp)
  have r6 := hrank "dirtiest".toList (by simp)
  have r7 := hrank "ranking".toList (by simp)
  have r8 := hrank "top".toList (by simp)
  have r9 := hrank "list".toList (by simp)
  have k1 := hkw "trend".toList (by simp)
  have k2 := hkw "history".toList (by simp)
  have k3 := hkw "historical".toList (by simp)
  have k4 := hkw "november".toList (by simp)
  have k5 := hkw "october".toList (by simp)
  have k6 := hkw "compare".toList (by simp)
  have k7 := hkw "all".toList (by simp)
  have k8 := hkw "stat".toList (by simp)
  have hr : getRanking fmt store u = [] := by
    rw [getRanking_of_no_keyword fmt store u r1 r2 r3 r4 r5 r6]
    simp only [r7, r8, r9, Bool.or_self, Bool.false_eq_true, if_false]
  have hh : getHealthAdvisoryWithLocation store u = [] :=
    (getHealthAdvisoryWithLocation_eq_nil store u).mpr hhealth
  have htoday : found (toLower u) "today".toList = false := by
    cases ht : found (toLower u) "today".toList
    · rfl
    · rw [extractDateFromQuery_today u ht] at hdate
      exact absurd hdate (by decide)
  have hfa : firstAreaMatch store u = none := by
    unfold firstAreaMatch
    rw [List.find?_eq_none]
    intro d hd
    rw [harea d hd]
    decide
  rw [generateResponse_of_no_date fmt store rnd u hr hh hdate]
  unfold laterSteps
  simp only [htoday, r3, r5, r9, k1, k2, k3, k4, k5, k6, k7, k8, hfa, Bool.false_and,
    Bool.or_self, Bool.false_eq_true, if_false]

/-- C26: when no detector of steps 1 to 8 fires (no ranking keyword, no health keyword, no
date, none of "trend", "history", "historical", "november", "october", "compare", "worst",
"best", "list", "all", "stat", and no reading matched by `isAreaMatch`), the response is the
answer of the first knowledge-base entry, in ascending key order, whose key occurs in the
lower-cased utterance, and a member of the five default responses when no key occurs. On a
store none of whose readings is matched, "quit" and "exit" return their farewell strings. -/
theorem knowledge_base_fallback (fmt : Option ℚ → Str) (store : List APIData) (rnd : Nat)
    (u : Str)
    (hrank : ∀ kw ∈ ["rank", "cleanest", "best", "most polluted", "worst", "dirtiest",
      "ranking", "top", "list"].map String.toList, found (toLower u) kw = false)
    (hhealth : health_question u = false)
    (hdate : extractDateFromQuery u = [])
    (hkw : ∀ kw ∈ ["trend", "history", "historical", "november", "october", "compare", "all",
      "stat"].map String.toList, found (toLower u) kw = false)
    (harea : ∀ d ∈ store, isAreaMatch u d.district d.state = false) :
    KeysSorted knowledge_base_ ∧
    knowledge_base_.map Prod.fst =
      ["29 nov", "air quality", "api", "exit", "hello", "hi", "history", "malaysia",
        "pollution", "quit", "today", "trend"].map String.toList ∧
    (∀ (before : List (Str × Str)) (entry : Str × Str) (later : List (Str × Str)),
      knowledge_base_ = before ++ entry :: later →
      found (toLower u) entry.1 = true →
      (∀ e ∈ before, found (toLower u) e.1 = false) →
      generateResponse fmt store rnd u = entry.2) ∧
    ((∀ e ∈ knowledge_base_, found (toLower u) e.1 = false) →
      generateResponse fmt store rnd u = getRandomResponse rnd ∧
      getRandomResponse rnd ∈ default_responses_) ∧
    default_responses_.length = 5 ∧
    (u = "quit".toList → generateResponse fmt store rnd u =
      "Thank you for using Malaysia Air Pollutant AI. Breathe easy!".toList) ∧
    (u = "exit".toList → generateResponse fmt store rnd u =
      "Thank you for using Malaysia Air Pollutant AI. Stay safe!".toList) := by
  have hg := generateResponse_of_no_detector fmt store rnd u hrank hhealth hdate hkw harea
  refine ⟨by unfold KeysSorted; decide, by decide, ?_, ?_, rfl, ?_, ?_⟩
  · intro before entry later hkb hfound hbefore
    have hf : knowledge_base_.find? (fun pair => found (toLower u) pair.1) = some entry := by
      rw [hkb, List.find?_append]
      have hn : before.find? (fun pair => found (toLower u) pair.1) = none := by
        rw [List.find?_eq_none]
        intro e he
        rw [hbefore e he]
        decide
      rw [hn, Option.none_or]
      simp only [List.find?_cons, hfound]
    rw [hg, hf]
  · intro hnone
    have hf : knowledge_base_.find? (fun pair => found (toLower u) pair.1) = none := by
      rw [List.find?_eq_none]
      intro e he
      rw [hnone e he]
      decide
    rw [hg, hf]
    exact ⟨rfl, getRandomResponse_mem rnd⟩
  · intro e
    rw [hg]
    subst e
    rfl
  · intro e
    rw [hg]
    subst e
    rfl

theorem knowledge_base_fallback_witness :
    generateResponse sampleFmt sampleStore 0 "quit".toList =
      "Thank you for using Malaysia Air Pollutant AI. Breathe easy!".toList :=
  (knowledge_base_fallback sampleFmt sampleStore 0 "quit".toList (by decide) (by decide)
    (by decide) (by decide) (by decide)).2.2.2.2.2.1 rfl

/-! ## Loading a data line (`loadAPIData`) -/

/-- A field without a comma that is followed by a comma is read as one token. -/
theorem parseFields_field (record : APIData) (fieldCount : Nat) (field rest : Str)
    (h : ',' ∉ field) (token : Str) :
    parseFields record fieldCount token (field ++ ',' :: rest) =
      parseFields (assignField record fieldCount (token ++ field)) (fieldCount + 1) [] rest := by
  induction field generalizing token with
  | nil => simp only [List.nil_append, parseFields, if_true, List.append_nil]
  | cons c cs ih =>
    have hc : c ≠ ',' := fun e => h (by rw [e]; exact List.mem_cons_self _ _)
    have hcs : ',' ∉ cs := fun hm => h (List.mem_cons_of_mem _ hm)
    rw [List.cons_append, parseFields, if_neg hc, ih hcs, List.append_assoc]
    rfl

/-- The text after the last comma becomes the date; the other fields keep their values. -/
theorem parseFields_last (record : APIData) (fieldCount : Nat) (field : Str)
    (h : ',' ∉ field) (token : Str) :
    parseFields record fieldCount token field =
      ⟨record.district, record.state, record.apiReading, record.status, token ++ field⟩ := by
  induction field generalizing token with
  | nil => simp only [parseFields, List.append_nil]
  | cons c cs ih =>
    have hc : c ≠ ',' := fun e => h (by rw [e]; exact List.mem_cons_self _ _)
    have hcs : ',' ∉ cs := fun hm => h (List.mem_cons_of_mem _ hm)
    rw [parseFields, if_neg hc, ih hcs, List.append_assoc]
    rfl

theorem assignField_of_ge (record : APIData) (fieldCount : Nat) (token : Str)
    (h : 4 ≤ fieldCount) : assignField record fieldCount token = record := by
  match fieldCount, h with
  | n + 4, _ => rfl

/-- From the fifth field on, every token that is followed by a comma is dropped. -/
theorem parseFields_dropped (record : APIData) (middle field : Str) (h : ',' ∉ field)
    (fieldCount : Nat) (hfc : 4 ≤ fieldCount) (token : Str) :
    parseFields record fieldCount token (middle ++ ',' :: field) =
      ⟨record.district, record.state, record.apiReading, record.status, field⟩ := by
  induction middle generalizing fieldCount token with
  | nil =>
    rw [List.nil_append, parseFields, if_pos rfl, assignField_of_ge _ _ _ hfc,
      parseFields_last _ _ _ h]
    rfl
  | cons c cs ih =>
    rw [List.cons_append, parseFields]
    by_cases hc : c = ','
    · rw [if_pos hc, assignField_of_ge _ _ _ hfc]
      exact ih (fieldCount + 1) (by omega) []
    · rw [if_neg hc]
      exact ih fieldCount hfc _

/-- The date of the record is the text after the last comma, whatever the number of commas. -/
theorem parseFields_date (record : APIData) (middle field : Str) (h : ',' ∉ field)
    (fieldCount : Nat) (token : Str) :
    (parseFields record fieldCount token (middle ++ ',' :: field)).date = field := by
  induction middle generalizing record fieldCount token with
  | nil =>
    rw [List.nil_append, parseFields, if_pos rfl, parseFields_last _ _ _ h]
    rfl
  | cons c cs ih =>
    rw [List.cons_append, parseFields]
    by_cases hc : c = ','
    · rw [if_pos hc]
      exact ih _ _ _
    · rw [if_neg hc]
      exact ih _ _ _

/-- A line that is not empty and does not start with '#' is loaded as one record. -/
theorem loadAPIData_single (junk : Int) (line : Str) (h1 : line ≠ [])
    (h2 : line.head? ≠ some '#') : loadAPIData junk [line] = [parseLine junk line] := by
  have he : line.isEmpty = false := by
    cases line with
    | nil => exact absurd rfl h1
    | cons c cs => rfl
  simp only [loadAPIData, List.filter_cons, List.filter_nil, he, h2, decide_False, Bool.or_self,
    Bool.not_false, if_true, List.map_cons, List.map_nil]

/-- The four leading fields of a line with at least four commas. -/
theorem parseLine_four_fields (junk : Int) (f1 f2 f3 f4 rest : Str)
    (h1 : ',' ∉ f1) (h2 : ',' ∉ f2) (h3 : ',' ∉ f3) (h4 : ',' ∉ f4) :
    parseLine junk (f1 ++ ',' :: (f2 ++ ',' :: (f3 ++ ',' :: (f4 ++ ',' :: rest)))) =
      parseFields ⟨f1, f2, (stoi f3).getD 0, f4, []⟩ 4 [] rest := by
  unfold parseLine
  rw [parseFields_field _ _ _ _ h1, parseFields_field _ _ _ _ h2, parseFields_field _ _ _ _ h3,
    parseFields_field _ _ _ _ h4]
  rfl

/-- C27 (counterexample): the line "Ipoh,Perak,40,Good,2025-11-29,x" is loaded with the date
"x"; the token "2025-11-29" between the fourth and the fifth comma is dropped. -/
theorem date_after_fifth_comma_only :
    loadAPIData 0 ["Ipoh,Perak,40,Good,2025-11-29,x".toList] =
      [⟨"Ipoh".toList, "Perak".toList, 40, "Good".toList, "x".toList⟩] ∧
    (parseLine 0 "Ipoh,Perak,40,Good,2025-11-29,x".toList).date ≠ "2025-11-29,x".toList := by
  decide

/-- C27 (amended): for every data line with at least four commas, written as four fields
without a comma, each followed by a comma, and a remainder, the line is loaded as one reading
whose date is the text after the last comma of the line: the whole remainder when the
remainder holds no comma, and otherwise the part of the remainder after its last comma (the
text between the fourth and the last comma is dropped). -/
theorem date_is_text_after_last_comma (junk : Int) (f1 f2 f3 f4 rest : Str)
    (h0 : f1.head? ≠ some '#')
    (h1 : ',' ∉ f1) (h2 : ',' ∉ f2) (h3 : ',' ∉ f3) (h4 : ',' ∉ f4) :
    loadAPIData junk [f1 ++ ',' :: (f2 ++ ',' :: (f3 ++ ',' :: (f4 ++ ',' :: rest)))] =
      [parseLine junk (f1 ++ ',' :: (f2 ++ ',' :: (f3 ++ ',' :: (f4 ++ ',' :: rest))))] ∧
    (',' ∉ rest →
      (parseLine junk (f1 ++ ',' :: (f2 ++ ',' :: (f3 ++ ',' :: (f4 ++ ',' :: rest))))).date =
        rest) ∧
    (∀ dropped last : Str, rest = dropped ++ ',' :: last → ',' ∉ last →
      (parseLine junk (f1 ++ ',' :: (f2 ++ ',' :: (f3 ++ ',' :: (f4 ++ ',' :: rest))))).date =
        last) := by
  refine ⟨?_, ?_, ?_⟩
  · apply loadAPIData_single
    · cases f1 <;> simp
    · cases f1 with
      | nil => simp
      | cons c cs => simpa using h0
  · intro hr
    rw [parseLine_four_fields junk f1 f2 f3 f4 rest h1 h2 h3 h4, parseFields_last _ _ _ hr]
    rfl
  · intro dropped last hrest hlast
    rw [parseLine_four_fields junk f1 f2 f3 f4 rest h1 h2 h3 h4, hrest,
      parseFields_date _ _ _ hlast]

theorem date_is_text_after_last_comma_witness :
    (parseLine 0 ("Ipoh".toList ++ ',' :: ("Perak".toList ++ ',' :: ("40".toList ++ ',' ::
      ("Good".toList ++ ',' :: "2025-11-29".toList))))).date = "2025-11-29".toList :=
  (date_is_text_after_last_comma 0 "Ipoh".toList "Perak".toList "40".toList "Good".toList
    "2025-11-29".toList (by decide) (by decide) (by decide) (by decide) (by decide)).2.1
    (by decide)

/-- C28 (counterexample): the line "Ipoh,Perak" is loaded with district "Ipoh", an empty
state and the date "Perak"; its `apiReading` is whatever the uninitialised field holds (here
7), not 0. -/
theorem two_field_line_fills_date :
    loadAPIData 7 ["Ipoh,Perak".toList] =
      [⟨"Ipoh".toList, [], 7, [], "Perak".toList⟩] ∧
    (parseLine 7 "Ipoh,Perak".toList).state ≠ "Perak".toList ∧
    (parseLine 7 "Ipoh,Perak".toList).date ≠ [] ∧
    (parseLine 7 "Ipoh,Perak".toList).apiReading ≠ 0 := by
  decide

/-- C28 (amended): a data line with k < 5 comma-separated fields is loaded as one reading;
its first k - 1 fields are assigned in order to district, state, apiReading (through `stoi`,
0 when unreadable) and status, its last field becomes the date, and the text fields that
receive no field are empty. The statement leaves open what `apiReading` holds when the line
has fewer than four fields. -/
theorem short_line_last_field_is_date (junk : Int) (line : Str) (hne : line ≠ [])
    (hhash : line.head? ≠ some '#') :
    loadAPIData junk [line] = [parseLine junk line] ∧
    (',' ∉ line →
      (parseLine junk line).district = [] ∧ (parseLine junk line).state = [] ∧
      (parseLine junk line).status = [] ∧ (parseLine junk line).date = line) ∧
    (∀ f1 f2 : Str, ',' ∉ f1 → ',' ∉ f2 → line = f1 ++ ',' :: f2 →
      (parseLine junk line).district = f1 ∧ (parseLine junk line).state = [] ∧
      (parseLine junk line).status = [] ∧ (parseLine junk line).date = f2) ∧
    (∀ f1 f2 f3 : Str, ',' ∉ f1 → ',' ∉ f2 → ',' ∉ f3 → line = f1 ++ ',' :: (f2 ++ ',' :: f3) →
      (parseLine junk line).district = f1 ∧ (parseLine junk line).state = f2 ∧
      (parseLine junk line).status = [] ∧ (parseLine junk line).date = f3) ∧
    (∀ f1 f2 f3 f4 : Str, ',' ∉ f1 → ',' ∉ f2 → ',' ∉ f3 → ',' ∉ f4 →
      line = f1 ++ ',' :: (f2 ++ ',' :: (f3 ++ ',' :: f4)) →
      parseLine junk line = ⟨f1, f2, (stoi f3).getD 0, [], f4⟩) := by
  refine ⟨loadAPIData_single junk line hne hhash, ?_, ?_, ?_, ?_⟩
  · intro h
    unfold parseLine
    rw [parseFields_last _ _ _ h]
    exact ⟨rfl, rfl, rfl, rfl⟩
  · intro f1 f2 h1 h2 e
    subst e
    unfold parseLine
    rw [parseFields_field _ _ _ _ h1, parseFields_last _ _ _ h2]
    exact ⟨rfl, rfl, rfl, rfl⟩
  · intro f1 f2 f3 h1 h2 h3 e
    subst e
    unfold parseLine
    rw [parseFields_field _ _ _ _ h1, parseFields_field _ _ _ _ h2, parseFields_last _ _ _ h3]
    exact ⟨rfl, rfl, rfl, rfl⟩
  · intro f1 f2 f3 f4 h1 h2 h3 h4 e
    subst e
    unfold parseLine
    rw [parseFields_field _ _ _ _ h1, parseFields_field _ _ _ _ h2, parseFields_field _ _ _ _ h3,
      parseFields_last _ _ _ h4]
    rfl

theorem short_line_last_field_is_date_witness :
    (parseLine 0 "Ipoh,Perak".toList).district = "Ipoh".toList ∧
    (parseLine 0 "Ipoh,Perak".toList).state = [] ∧
    (parseLine 0 "Ipoh,Perak".toList).status = [] ∧
    (parseLine 0 "Ipoh,Perak".toList).date = "Perak".toList :=
  (short_line_last_field_is_date 0 "Ipoh,Perak".toList (by decide) (by decide)).2.2.1
    "Ipoh".toList "Perak".toList (by decide) (by decide) rfl

/-! ## Reading the number (`stoi`) -/

theorem digitChar_spec :
    ∀ k : Nat, k < 10 → isDigitC (Nat.digitChar k) = true ∧ (Nat.digitChar k).toNat - 48 = k := by
  decide

/-- The digits written by `Nat.toDigitsCore` are decimal digits and denote the number. -/
theorem toDigitsCore_spec (fuel : Nat) : ∀ (n : Nat) (ds : List Char), n < fuel →
    ∃ pre : List Char, Nat.toDigitsCore 10 fuel n ds = pre ++ ds ∧ pre ≠ [] ∧
      (∀ c ∈ pre, isDigitC c = true) ∧
      pre.foldl (fun (acc : Int) (c : Char) => acc * 10 + ((c.toNat - 48 : Nat) : Int)) 0 = n := by
  induction fuel with
  | zero => intro n ds h; exact absurd h (Nat.not_lt_zero _)
  | succ fuel ih =>
    intro n ds h
    obtain ⟨hd, hv⟩ := digitChar_spec (n % 10) (Nat.mod_lt _ (by decide))
    unfold Nat.toDigitsCore
    by_cases h0 : n / 10 = 0
    · simp only [h0, if_true]
      refine ⟨[Nat.digitChar (n % 10)], rfl, by simp, ?_, ?_⟩
      · intro c hc
        rw [List.mem_singleton] at hc
        rw [hc]; exact hd
      · simp only [List.foldl_cons, List.foldl_nil, hv]
        have : n % 10 = n := Nat.mod_eq_of_lt (by omega)
        omega
    · simp only [h0, if_false]
      obtain ⟨pre, hpre, -, hall, hval⟩ :=
        ih (n / 10) (Nat.digitChar (n % 10) :: ds) (by omega)
      refine ⟨pre ++ [Nat.digitChar (n % 10)], ?_, by simp, ?_, ?_⟩
      · rw [hpre, List.append_assoc]; rfl
      · intro c hc
        rcases List.mem_append.mp hc with hc | hc
        · exact hall c hc
        · rw [List.mem_singleton] at hc
          rw [hc]; exact hd
      · rw [List.foldl_append, hval]
        simp only [List.foldl_cons, List.foldl_nil, hv]
        omega

theorem natToStr_spec (n : Nat) :
    natToStr n ≠ [] ∧ (∀ c ∈ natToStr n, isDigitC c = true) ∧
    (natToStr n).foldl (fun (acc : Int) (c : Char) => acc * 10 + ((c.toNat - 48 : Nat) : Int)) 0
      = n := by
  obtain ⟨pre, hpre, hne, hall, hval⟩ := toDigitsCore_spec (n + 1) n [] (Nat.lt_succ_self n)
  have e : natToStr n = pre := by
    unfold natToStr Nat.toDigits
    rw [hpre, List.append_nil]
  rw [e]
  exact ⟨hne, hall, hval⟩

theorem takeWhile_digits (ds tail : Str) (hall : ∀ c ∈ ds, isDigitC c = true)
    (htail : ∀ c, tail.head? = some c → isDigitC c = false) :
    (ds ++ tail).takeWhile isDigitC = ds := by
  induction ds with
  | nil =>
    cases tail with
    | nil => rfl
    | cons c t =>
      rw [List.nil_append, List.takeWhile_cons, htail c rfl]
      rfl
  | cons c cs ih =>
    rw [List.cons_append, List.takeWhile_cons, hall c (List.mem_cons_self _ _)]
    simp only [if_true]
    rw [ih (fun x hx => hall x (List.mem_cons_of_mem _ hx))]

theorem isDigitC_not_sign (c : Char) (h : isDigitC c = true) : c ≠ '-' ∧ c ≠ '+' := by
  have := isDigitC_toNat c h
  constructor
  · intro e; subst e; revert h; decide
  · intro e; subst e; revert h; decide

/-- What `stoi` reads from a run of digits followed by text that does not start with a
digit. -/
theorem stoi_digits (ds tail : Str) (hne : ds ≠ []) (hall : ∀ c ∈ ds, isDigitC c = true)
    (htail : ∀ c, tail.head? = some c → isDigitC c = false) :
    stoi (ds ++ tail) =
      (if ds.foldl (fun (acc : Int) (c : Char) => acc * 10 + ((c.toNat - 48 : Nat) : Int)) 0
          < -2147483648 ∨
        2147483647 <
          ds.foldl (fun (acc : Int) (c : Char) => acc * 10 + ((c.toNat - 48 : Nat) : Int)) 0
       then none
       else some
        (ds.foldl (fun (acc : Int) (c : Char) => acc * 10 + ((c.toNat - 48 : Nat) : Int)) 0)) := by
  cases ds with
  | nil => exact absurd rfl hne
  | cons c cs =>
    have hc := hall c (List.mem_cons_self _ _)
    have hsp := isDigitC_not_space c hc
    obtain ⟨hm, hp⟩ := isDigitC_not_sign c hc
    have hdw : (c :: cs ++ tail).dropWhile isSpaceC = c :: cs ++ tail := by
      rw [List.cons_append, List.dropWhile_cons, hsp]
      rfl
    have htw := takeWhile_digits (c :: cs) tail hall htail
    unfold stoi
    simp only [hdw]
    have hh : (c :: cs ++ tail).head? = some c := rfl
    have h1 : ¬ ((c :: cs ++ tail).head? = some '-' ∨ (c :: cs ++ tail).head? = some '+') := by
      rw [hh]
      intro h
      rcases h with h | h
      · exact hm (Option.some.inj h)
      · exact hp (Option.some.inj h)
    have h2 : ¬ ((c :: cs ++ tail).head? = some '-') := fun h => h1 (Or.inl h)
    simp only [if_neg h1, htw, decide_eq_false h2, List.isEmpty_cons, Bool.false_eq_true,
      if_false]

/-- What `stoi` reads from a minus sign and a run of digits. -/
theorem stoi_minus_digits (ds tail : Str) (hne : ds ≠ []) (hall : ∀ c ∈ ds, isDigitC c = true)
    (htail : ∀ c, tail.head? = some c → isDigitC c = false) :
    stoi ('-' :: (ds ++ tail)) =
      (if -(ds.foldl (fun (acc : Int) (c : Char) => acc * 10 + ((c.toNat - 48 : Nat) : Int)) 0)
          < -2147483648 ∨
        2147483647 <
          -(ds.foldl (fun (acc : Int) (c : Char) => acc * 10 + ((c.toNat - 48 : Nat) : Int)) 0)
       then none
       else some
        (-(ds.foldl (fun (acc : Int) (c : Char) => acc * 10 + ((c.toNat - 48 : Nat) : Int)) 0)))
    := by
  have htw := takeWhile_digits ds tail hall htail
  have hdw : ('-' :: (ds ++ tail)).dropWhile isSpaceC = '-' :: (ds ++ tail) := by
    rw [List.dropWhile_cons]
    rfl
  have hemp : ds.isEmpty = false := by
    cases ds with
    | nil => exact absurd rfl hne
    | cons c cs => rfl
  unfold stoi
  simp only [hdw, List.head?_cons, true_or, if_true, List.drop_succ_cons, List.drop_zero, htw,
    hemp, decide_True, Bool.false_eq_true, if_false]

/-- The decimal representation of an `int`, followed by text that does not start with a
digit, is read back as that `int`. -/
theorem stoi_intToStr_append (n : Int) (hlo : -2147483648 ≤ n) (hhi : n ≤ 2147483647)
    (tail : Str) (htail : ∀ c, tail.head? = some c → isDigitC c = false) :
    stoi (intToStr n ++ tail) = some n := by
  obtain ⟨hne, hall, hval⟩ := natToStr_spec n.natAbs
  unfold natToStr at hne hall hval
  unfold intToStr
  by_cases hneg : n < 0
  · rw [if_pos hneg, List.cons_append, stoi_minus_digits _ _ hne hall htail, hval]
    have e : -((n.natAbs : Nat) : Int) = n := by omega
    rw [e, if_neg (by omega)]
  · rw [if_neg hneg, stoi_digits _ _ hne hall htail, hval]
    have e : ((n.natAbs : Nat) : Int) = n := by omega
    rw [e, if_neg (by omega)]

/-- A token whose first character is neither white space, nor a sign, nor a digit, and the
empty token, are not read. -/
theorem stoi_of_no_number (token : Str)
    (h : ∀ c, token.head? = some c →
      isSpaceC c = false ∧ c ≠ '-' ∧ c ≠ '+' ∧ isDigitC c = false) :
    stoi token = none := by
  cases token with
  | nil => rfl
  | cons c cs =>
    obtain ⟨hs, hm, hp, hd⟩ := h c rfl
    have hdw : (c :: cs).dropWhile isSpaceC = c :: cs := by
      rw [List.dropWhile_cons, hs]
      rfl
    have h1 : ¬ ((c :: cs).head? = some '-' ∨ (c :: cs).head? = some '+') := by
      intro h
      rcases h with h | h
      · exact hm (Option.some.inj h)
      · exact hp (Option.some.inj h)
    unfold stoi
    simp only [hdw, if_neg h1, List.takeWhile_cons, hd, Bool.false_eq_true, if_false,
      List.isEmpty_nil, if_true]

theorem assignField_apiReading (record : APIData) (fieldCount : Nat) (token : Str)
    (h : 3 ≤ fieldCount) :
    (assignField record fieldCount token).apiReading = record.apiReading := by
  match fieldCount, h with
  | 3, _ => rfl
  | n + 4, _ => rfl

/-- From the fourth field on, the value read into `apiReading` is not changed. -/
theorem parseFields_apiReading (line : Str) : ∀ (record : APIData) (fieldCount : Nat)
    (token : Str), 3 ≤ fieldCount →
    (parseFields record fieldCount token line).apiReading = record.apiReading := by
  induction line with
  | nil => intro record fieldCount token _; rfl
  | cons c cs ih =>
    intro record fieldCount token h
    rw [parseFields]
    by_cases hc : c = ','
    · rw [if_pos hc, ih _ _ _ (by omega), assignField_apiReading _ _ _ h]
    · rw [if_neg hc, ih _ _ _ h]

theorem stoi_intToStr_out_of_range (n : Int) (h : n < -2147483648 ∨ 2147483647 < n) :
    stoi (intToStr n) = none := by
  obtain ⟨hne, hall, hval⟩ := natToStr_spec n.natAbs
  unfold natToStr at hne hall hval
  have ht : ∀ c, ([] : Str).head? = some c → isDigitC c = false := fun c hc => by
    simp at hc
  unfold intToStr
  by_cases hneg : n < 0
  · have e : -((n.natAbs : Nat) : Int) = n := by omega
    have := stoi_minus_digits _ [] hne hall ht
    rw [List.append_nil, hval, e, if_pos h] at this
    rw [if_pos hneg, this]
  · have e : ((n.natAbs : Nat) : Int) = n := by omega
    have := stoi_digits _ [] hne hall ht
    rw [List.append_nil, hval, e, if_pos h] at this
    rw [if_neg hneg, this]

/-- C29 (counterexample): the third field "12abc" is not the decimal representation of an
integer, yet the line is loaded with `apiReading` 12, and so are " 12" and "+12"; the fields
"abc", "" and "2147483648" give 0. -/
theorem digits_before_text_are_read :
    loadAPIData 0 ["Ipoh,Perak,12abc,Good,2025-11-29".toList] =
      [⟨"Ipoh".toList, "Perak".toList, 12, "Good".toList, "2025-11-29".toList⟩] ∧
    (∀ n : Int, "12abc".toList ≠ intToStr n) ∧
    stoi "12abc".toList = some 12 ∧ stoi " 12".toList = some 12 ∧
    stoi "+12".toList = some 12 ∧ stoi "abc".toList = none ∧ stoi [] = none ∧
    stoi "2147483648".toList = none ∧ stoi "-2147483648".toList = some (-2147483648) := by
  refine ⟨by decide, ?_, by decide, by decide, by decide, by decide, by decide, by decide,
    by decide⟩
  intro n e
  by_cases hr : n < -2147483648 ∨ 2147483647 < n
  · have h := stoi_intToStr_out_of_range n hr
    rw [← e] at h
    revert h
    decide
  · have h := stoi_intToStr_append n (by omega) (by omega) [] (by simp)
    have e1 : stoi "12abc".toList = some 12 := by decide
    rw [List.append_nil, ← e, e1] at h
    have hn : n = 12 := (Option.some.inj h).symm
    subst hn
    revert e
    decide

/-- C29 (amended): for every data line with at least three commas, written as three fields
without a comma, each followed by a comma, and a remainder, the line is loaded as one reading
whose `apiReading` is what `stoi` reads from the third field, and 0 when `stoi` throws. When
the third field is the decimal representation of an `int`, alone or followed by text that
does not start with a digit, `apiReading` is that `int`; when it is the decimal
representation of an integer outside the range of `int`, or is empty, or starts with a
character that is neither white space, nor a sign, nor a digit, `apiReading` is 0. -/
theorem apiReading_is_stoi_of_third_field (junk : Int) (f1 f2 f3 rest : Str)
    (h0 : f1.head? ≠ some '#') (h1 : ',' ∉ f1) (h2 : ',' ∉ f2) (h3 : ',' ∉ f3) :
    loadAPIData junk [f1 ++ ',' :: (f2 ++ ',' :: (f3 ++ ',' :: rest))] =
      [parseLine junk (f1 ++ ',' :: (f2 ++ ',' :: (f3 ++ ',' :: rest)))] ∧
    (parseLine junk (f1 ++ ',' :: (f2 ++ ',' :: (f3 ++ ',' :: rest)))).apiReading =
      (stoi f3).getD 0 ∧
    (∀ (n : Int) (tail : Str), -2147483648 ≤ n → n ≤ 2147483647 →
      (∀ c, tail.head? = some c → isDigitC c = false) → f3 = intToStr n ++ tail →
      (parseLine junk (f1 ++ ',' :: (f2 ++ ',' :: (f3 ++ ',' :: rest)))).apiReading = n) ∧
    (∀ n : Int, n < -2147483648 ∨ 2147483647 < n → f3 = intToStr n →
      (parseLine junk (f1 ++ ',' :: (f2 ++ ',' :: (f3 ++ ',' :: rest)))).apiReading = 0) ∧
    ((∀ c, f3.head? = some c →
        isSpaceC c = false ∧ c ≠ '-' ∧ c ≠ '+' ∧ isDigitC c = false) →
      (parseLine junk (f1 ++ ',' :: (f2 ++ ',' :: (f3 ++ ',' :: rest)))).apiReading = 0) := by
  have hapi : (parseLine junk (f1 ++ ',' :: (f2 ++ ',' :: (f3 ++ ',' :: rest)))).apiReading =
      (stoi f3).getD 0 := by
    unfold parseLine
    rw [parseFields_field _ _ _ _ h1, parseFields_field _ _ _ _ h2,
      parseFields_field _ _ _ _ h3, parseFields_apiReading _ _ _ _ (by omega)]
    rfl
  refine ⟨?_, hapi, ?_, ?_, ?_⟩
  · apply loadAPIData_single
    · cases f1 <;> simp
    · cases f1 with
      | nil => simp
      | cons c cs => simpa using h0
  · intro n tail hlo hhi htail e
    rw [hapi, e, stoi_intToStr_append n hlo hhi tail htail]
    rfl
  · intro n hr e
    rw [hapi, e, stoi_intToStr_out_of_range n hr]
    rfl
  · intro h
    rw [hapi, stoi_of_no_number f3 h]
    rfl

theorem apiReading_is_stoi_of_third_field_witness :
    (parseLine 0 ("Ipoh".toList ++ ',' :: ("Perak".toList ++ ',' :: ("12abc".toList ++ ',' ::
      "Good,2025-11-29".toList)))).apiReading = 12 :=
  (apiReading_is_stoi_of_third_field 0 "Ipoh".toList "Perak".toList "12abc".toList
    "Good,2025-11-29".toList (by decide) (by decide) (by decide) (by decide)).2.2.1
    12 "abc".toList (by decide) (by decide) (by decide) (by decide)

/-! ## The "today" shortcut -/

/-- Without the word "today" the first branch of `laterSteps` is not taken. -/
theorem laterStepsWithoutShortcut_eq (fmt : Option ℚ → Str) (store : List APIData) (rnd : Nat)
    (u : Str) (h : found (toLower u) "today".toList = false) :
    laterStepsWithoutShortcut fmt store rnd u = laterSteps fmt store rnd u := by
  unfold laterStepsWithoutShortcut laterSteps
  simp only [h, Bool.false_and, Bool.false_eq_true, if_false]

/-- C30: the cascade with the shortcut branch removed returns the same response as
`generateResponse` for every store and utterance; an utterance whose lower-cased form holds
"today" has the extracted date "2025-11-29" and is answered by the ranking detector, by the
health detector, or by the date-scoped report for "2025-11-29" (of the first matched reading's
district, or of the whole date when no reading is matched), so `generateResponse` never
reaches the shortcut with such an utterance. -/
theorem today_shortcut_never_taken (fmt : Option ℚ → Str) (store : List APIData) (rnd : Nat)
    (u : Str) :
    generateResponseWithoutShortcut fmt store rnd u = generateResponse fmt store rnd u ∧
    (found (toLower u) "today".toList = true →
      extractDateFromQuery u = "2025-11-29".toList ∧
      ((getRanking fmt store u ≠ [] ∧
          generateResponse fmt store rnd u = getRanking fmt store u) ∨
        (getRanking fmt store u = [] ∧ getHealthAdvisoryWithLocation store u ≠ [] ∧
          generateResponse fmt store rnd u = getHealthAdvisoryWithLocation store u) ∨
        (getRanking fmt store u = [] ∧ getHealthAdvisoryWithLocation store u = [] ∧
          ∃ data, firstAreaMatch store u = some data ∧
            generateResponse fmt store rnd u =
              getDataForAreaAndDate store data.district "2025-11-29".toList) ∨
        (getRanking fmt store u = [] ∧ getHealthAdvisoryWithLocation store u = [] ∧
          firstAreaMatch store u = none ∧
          generateResponse fmt store rnd u =
            getDataForDate fmt store "2025-11-29".toList))) := by
  constructor
  · by_cases hd : extractDateFromQuery u = []
    · have htoday : found (toLower u) "today".toList = false := by
        cases ht : found (toLower u) "today".toList
        · rfl
        · rw [extractDateFromQuery_today u ht] at hd
          exact absurd hd (by decide)
      unfold generateResponseWithoutShortcut generateResponse
      simp only [laterStepsWithoutShortcut_eq fmt store rnd u htoday]
    · have he : (extractDateFromQuery u).isEmpty = false := by
        cases h : extractDateFromQuery u with
        | nil => exact absurd h hd
        | cons c cs => rfl
      unfold generateResponseWithoutShortcut generateResponse
      simp only [he, Bool.not_false, if_true]
  · intro ht
    have hd := extractDateFromQuery_today u ht
    have hdne : extractDateFromQuery u ≠ [] := by rw [hd]; decide
    refine ⟨hd, ?_⟩
    by_cases hr : getRanking fmt store u = []
    · by_cases hh : getHealthAdvisoryWithLocation store u = []
      · have hg := generateResponse_of_date fmt store rnd u hr hh hdne
        rw [hd] at hg
        cases hf : firstAreaMatch store u with
        | none =>
          rw [hf] at hg
          exact Or.inr (Or.inr (Or.inr ⟨hr, hh, rfl, hg⟩))
        | some data =>
          rw [hf] at hg
          exact Or.inr (Or.inr (Or.inl ⟨hr, hh, data, rfl, hg⟩))
      · exact Or.inr (Or.inl ⟨hr, hh, generateResponse_of_health fmt store rnd u hr hh⟩)
    · exact Or.inl ⟨hr, generateResponse_of_ranking fmt store rnd u hr⟩

theorem today_shortcut_never_taken_witness :
    extractDateFromQuery "today api".toList = "2025-11-29".toList ∧
    generateResponseWithoutShortcut sampleFmt sampleStore 0 "today api".toList =
      generateResponse sampleFmt sampleStore 0 "today api".toList :=
  ⟨((today_shortcut_never_taken sampleFmt sampleStore 0 "today api".toList).2 (by decide)).1,
    (today_shortcut_never_taken sampleFmt sampleStore 0 "today api".toList).1⟩

/-! ## The reading of the single-area report -/

/-- C31 (counterexample): on `petalingStore` the utterance "petaling today" is matched by the
reading of Petaling (dated 2025-11-28), and the date-scoped report for 2025-11-29 shows the
reading of Petaling Jaya, whose lower-cased district holds "petaling": the reading reported is
not matched by the utterance and has another district than the first matched reading. -/
theorem report_of_unmatched_reading :
    firstAreaMatch petalingStore "petaling today".toList =
      some ⟨"Petaling".toList, "Selangor".toList, 40, "Good".toList, "2025-11-28".toList⟩ ∧
    extractDateFromQuery "petaling today".toList = "2025-11-29".toList ∧
    generateResponse sampleFmt petalingStore 0 "petaling today".toList =
      concat [
        "Air Quality in ".toList, "Petaling Jaya".toList, ", ".toList, "Selangor".toList,
        " on ".toList, "2025-11-29".toList, ":\n".toList,
        "• API Reading: ".toList, "70".toList, "\n".toList,
        "• Status: ".toList, "Moderate".toList, "\n".toList,
        "• Advice: ".toList, getHealthAdvice "Moderate".toList, "\n".toList] ∧
    isAreaMatch "petaling today".toList "Petaling Jaya".toList "Selangor".toList = false := by
  decide

/-- C31 (amended): when `generateResponse` answers the date-scoped step with a single-area
report (the ranking and health detectors are silent, a date `d` is extracted, `m` is the first
store reading matched by the utterance, and the lookup finds a reading `r`), the response is
the report of `r`, and `r` is the first store reading dated `d` whose lower-cased district or
lower-cased state holds the lower-cased district of `m`; `m` itself is matched by the
utterance. -/
theorem area_date_report_reading (fmt : Option ℚ → Str) (store : List APIData) (rnd : Nat)
    (u : Str) (m r : APIData)
    (hrank : getRanking fmt store u = [])
    (hhealth : getHealthAdvisoryWithLocation store u = [])
    (hdate : extractDateFromQuery u ≠ [])
    (hm : firstAreaMatch store u = some m)
    (hr : store.find? (fun data =>
        (found (toLower data.district) (toLower m.district) ||
          found (toLower data.state) (toLower m.district)) &&
        decide (data.date = extractDateFromQuery u)) = some r) :
    generateResponse fmt store rnd u =
      concat [
        "Air Quality in ".toList, r.district, ", ".toList, r.state, " on ".toList,
        extractDateFromQuery u, ":\n".toList,
        "• API Reading: ".toList, intToStr r.apiReading, "\n".toList,
        "• Status: ".toList, r.status, "\n".toList,
        "• Advice: ".toList, getHealthAdvice r.status, "\n".toList,
        changeLine store r (extractDateFromQuery u)] ∧
    m ∈ store ∧ isAreaMatch u m.district m.state = true ∧
    r ∈ store ∧ r.date = extractDateFromQuery u ∧
    (found (toLower r.district) (toLower m.district) = true ∨
      found (toLower r.state) (toLower m.district) = true) ∧
    (∃ before later : List APIData, store = before ++ r :: later ∧
      ∀ x ∈ before, ¬ ((found (toLower x.district) (toLower m.district) = true ∨
        found (toLower x.state) (toLower m.district) = true) ∧
        x.date = extractDateFromQuery u)) := by
  have hg := generateResponse_of_date fmt store rnd u hrank hhealth hdate
  rw [hm] at hg
  simp only at hg
  unfold firstAreaMatch at hm
  have hm2 := List.find?_some hm
  have hmmem := List.mem_of_find?_eq_some hm
  have hr2 := List.find?_some hr
  have hrmem := List.mem_of_find?_eq_some hr
  simp only [Bool.and_eq_true, Bool.or_eq_true, decide_eq_true_eq] at hr2
  refine ⟨?_, hmmem, hm2, hrmem, hr2.2, hr2.1, ?_⟩
  · rw [hg]
    unfold getDataForAreaAndDate
    rw [hr]
  · obtain ⟨-, before, later, hstore, hbefore⟩ := List.find?_eq_some.mp hr
    refine ⟨before, later, hstore, ?_⟩
    intro x hx hcon
    have := hbefore x hx
    simp only [Bool.and_eq_true, Bool.or_eq_true, decide_eq_true_eq, Bool.not_eq_true',
      Bool.not_eq_eq_eq_not, Bool.not_true] at this
    have hpos : ((found (toLower x.district) (toLower m.district) ||
        found (toLower x.state) (toLower m.district)) &&
        decide (x.date = extractDateFromQuery u)) = true := by
      simp only [Bool.and_eq_true, Bool.or_eq_true, decide_eq_true_eq]
      exact hcon
    rw [hpos] at this
    exact absurd this (by decide)

theorem area_date_report_reading_witness :
    generateResponse sampleFmt petalingStore 0 "petaling today".toList =
      concat [
        "Air Quality in ".toList, "Petaling Jaya".toList, ", ".toList, "Selangor".toList,
        " on ".toList, extractDateFromQuery "petaling today".toList, ":\n".toList,
        "• API Reading: ".toList, intToStr 70, "\n".toList,
        "• Status: ".toList, "Moderate".toList, "\n".toList,
        "• Advice: ".toList, getHealthAdvice "Moderate".toList, "\n".toList,
        changeLine petalingStore
          ⟨"Petaling Jaya".toList, "Selangor".toList, 70, "Moderate".toList,
            "2025-11-29".toList⟩
          (extractDateFromQuery "petaling today".toList)] :=
  (area_date_report_reading sampleFmt petalingStore 0 "petaling today".toList
    ⟨"Petaling".toList, "Selangor".toList, 40, "Good".toList, "2025-11-28".toList⟩
    ⟨"Petaling Jaya".toList, "Selangor".toList, 70, "Moderate".toList, "2025-11-29".toList⟩
    (by decide) (by decide) (by decide) (by decide) (by decide)).1

/-! ## Shape of the extracted date -/

theorem digitsAt_take (s : Str) (k : Nat) (h : digitsAt s k = true) :
    (s.take k).length = k ∧ (s.take k).all isDigitC = true := by
  unfold digitsAt at h
  simp only [Bool.and_eq_true, decide_eq_true_eq] at h
  exact ⟨by rw [List.length_take]; omega, h.2⟩

theorem tryDayMonth_day (s : Str) (k : Nat) (day mo : Str)
    (h : tryDayMonth s k = some (day, mo)) : day.length = k ∧ day.all isDigitC = true := by
  unfold tryDayMonth at h
  split at h
  · next hd =>
    split at h
    · simp only [Option.some.injEq, Prod.mk.injEq] at h
      rw [← h.1]
      exact digitsAt_take s k hd
    · exact absurd h (by simp)
  · exact absurd h (by simp)

/-- The day captured by the day-first pattern is one or two digits. -/
theorem searchDayMonth_day (u day mo : Str) (h : searchDayMonth u = some (day, mo)) :
    (day.length = 1 ∨ day.length = 2) ∧ day.all isDigitC = true := by
  induction u with
  | nil => exact absurd h (by simp [searchDayMonth])
  | cons c cs ih =>
    unfold searchDayMonth at h
    split at h
    · next r hr =>
      simp only [Option.some.injEq] at h
      subst h
      unfold matchDayMonthAt at hr
      split at hr
      · next r2 h2 =>
        simp only [Option.some.injEq] at hr
        subst hr
        obtain ⟨h3, h4⟩ := tryDayMonth_day _ _ _ _ h2
        exact ⟨Or.inr h3, h4⟩
      · obtain ⟨h3, h4⟩ := tryDayMonth_day _ _ _ _ hr
        exact ⟨Or.inl h3, h4⟩
    · exact ih h

theorem matchMonthDayAt_some (s mo day : Str) (h : matchMonthDayAt s = some (mo, day)) :
    toLower mo ∈ monthAbbrevs ∧ (day.length = 1 ∨ day.length = 2) ∧
      day.all isDigitC = true := by
  unfold matchMonthDayAt at h
  split at h
  · next month rest hm =>
    have hmem := matchMonth_some _ _ _ hm
    simp only at h
    split at h
    · next h2 =>
      simp only [Option.some.injEq, Prod.mk.injEq] at h
      obtain ⟨h3, h4⟩ := digitsAt_take _ _ h2
      rw [← h.1, ← h.2]
      exact ⟨hmem, Or.inr h3, h4⟩
    · split at h
      · next h1 =>
        simp only [Option.some.injEq, Prod.mk.injEq] at h
        obtain ⟨h3, h4⟩ := digitsAt_take _ _ h1
        rw [← h.1, ← h.2]
        exact ⟨hmem, Or.inl h3, h4⟩
      · exact absurd h (by simp)
  · exact absurd h (by simp)

/-- The captures of the month-first pattern: a month abbreviation and one or two digits. -/
theorem searchMonthDay_some (u mo day : Str) (h : searchMonthDay u = some (mo, day)) :
    toLower mo ∈ monthAbbrevs ∧ (day.length = 1 ∨ day.length = 2) ∧
      day.all isDigitC = true := by
  induction u with
  | nil => exact absurd h (by simp [searchMonthDay])
  | cons c cs ih =>
    unfold searchMonthDay at h
    split at h
    · next r hr =>
      simp only [Option.some.injEq] at h
      subst h
      exact matchMonthDayAt_some _ _ _ hr
    · exact ih h

/-- Every month abbreviation has a code in the month table, one of "01" to "12". -/
theorem months_codes_range :
    ∀ a ∈ monthAbbrevs, (mapGet? months a).isSome = true ∧
      (mapGet? months a).getD [] ∈
        ["01", "02", "03", "04", "05", "06", "07", "08", "09", "10", "11", "12"].map
          String.toList := by
  decide

/-- The string built from a captured day and month. -/
theorem buildDate_shape (day mo : Str) (hmo : toLower mo ∈ monthAbbrevs)
    (hlen : day.length = 1 ∨ day.length = 2) (hdig : day.all isDigitC = true) :
    ∃ (mm : Str) (d1 d2 : Char),
      mm ∈ ["01", "02", "03", "04", "05", "06", "07", "08", "09", "10", "11", "12"].map
        String.toList ∧
      isDigitC d1 = true ∧ isDigitC d2 = true ∧
      buildDate day mo = some (concat ["2025-".toList, mm, "-".toList, [d1, d2]]) := by
  obtain ⟨hsome, hrange⟩ := months_codes_range _ hmo
  obtain ⟨code, hcode⟩ := Option.isSome_iff_exists.mp hsome
  rw [hcode] at hrange
  simp only [Option.getD_some] at hrange
  rcases hlen with hlen | hlen
  · obtain ⟨d, rfl⟩ := List.length_eq_one.mp hlen
    simp only [List.all_cons, List.all_nil, Bool.and_true] at hdig
    refine ⟨code, '0', d, hrange, by decide, hdig, ?_⟩
    simp only [buildDate, hcode, List.length_singleton, if_true]
  · obtain ⟨d1, d2, rfl⟩ := List.length_eq_two.mp hlen
    simp only [List.all_cons, List.all_nil, Bool.and_true, Bool.and_eq_true] at hdig
    refine ⟨code, d1, d2, hrange, hdig.1, hdig.2, ?_⟩
    simp only [buildDate, hcode, List.length_cons, List.length_nil]
    rfl

/-- C32: for every utterance, `extractDateFromQuery` returns the empty string or a string
"2025-MM-DD" of exactly 10 characters in which MM is one of "01" to "12" and DD is two decimal
digits. The day is not range-checked: for all digits d1 and d2 the utterance "d1d2 nov"
yields "2025-11-d1d2", so "00 nov" yields 2025-11-00, "99 nov" yields 2025-11-99 and "31 feb"
yields 2025-02-31. -/
theorem extractDateFromQuery_shape (u : Str) :
    (extractDateFromQuery u = [] ∨
      ∃ (mm : Str) (d1 d2 : Char),
        mm ∈ ["01", "02", "03", "04", "05", "06", "07", "08", "09", "10", "11", "12"].map
          String.toList ∧
        isDigitC d1 = true ∧ isDigitC d2 = true ∧
        extractDateFromQuery u = concat ["2025-".toList, mm, "-".toList, [d1, d2]] ∧
        (extractDateFromQuery u).length = 10) ∧
    (∀ d1 d2 : Char, isDigitC d1 = true → isDigitC d2 = true →
      extractDateFromQuery ([d1, d2] ++ " nov".toList) = "2025-11-".toList ++ [d1, d2]) ∧
    extractDateFromQuery "00 nov".toList = "2025-11-00".toList ∧
    extractDateFromQuery "99 nov".toList = "2025-11-99".toList ∧
    extractDateFromQuery "31 feb".toList = "2025-02-31".toList := by
  have hlen10 : ∀ (mm : Str) (d1 d2 : Char),
      mm ∈ ["01", "02", "03", "04", "05", "06", "07", "08", "09", "10", "11", "12"].map
        String.toList →
      (concat ["2025-".toList, mm, "-".toList, [d1, d2]]).length = 10 := by
    intro mm d1 d2 hmm
    simp only [List.map_cons, List.map_nil, List.mem_cons, List.mem_singleton,
      List.not_mem_nil, or_false] at hmm
    rcases hmm with h | h | h | h | h | h | h | h | h | h | h | h <;> (subst h; rfl)
  have hshape : ∀ r : Str,
      (∃ (mm : Str) (d1 d2 : Char),
        mm ∈ ["01", "02", "03", "04", "05", "06", "07", "08", "09", "10", "11", "12"].map
          String.toList ∧
        isDigitC d1 = true ∧ isDigitC d2 = true ∧
        some r = some (concat ["2025-".toList, mm, "-".toList, [d1, d2]])) →
      ∃ (mm : Str) (d1 d2 : Char),
        mm ∈ ["01", "02", "03", "04", "05", "06", "07", "08", "09", "10", "11", "12"].map
          String.toList ∧
        isDigitC d1 = true ∧ isDigitC d2 = true ∧
        r = concat ["2025-".toList, mm, "-".toList, [d1, d2]] ∧ r.length = 10 := by
    rintro r ⟨mm, d1, d2, hmm, h1, h2, hr⟩
    have e := Option.some.inj hr
    exact ⟨mm, d1, d2, hmm, h1, h2, e, by rw [e]; exact hlen10 mm d1 d2 hmm⟩
  refine ⟨?_, ?_, by decide, by decide, by decide⟩
  · unfold extractDateFromQuery
    by_cases ht : found (toLower u) "today".toList = true
    · right
      simp only [ht, if_true]
      exact ⟨"11".toList, '2', '9', by decide, by decide, by decide, rfl, rfl⟩
    · rw [if_neg ht]
      by_cases hy : found (toLower u) "yesterday".toList = true
      · right
        simp only [hy, if_true]
        exact ⟨"11".toList, '2', '8', by decide, by decide, by decide, rfl, rfl⟩
      · rw [if_neg hy]
        cases h1 : searchDayMonth u with
        | some m =>
          obtain ⟨day, mo⟩ := m
          obtain ⟨hl, hd⟩ := searchDayMonth_day u day mo h1
          obtain ⟨mm, d1, d2, hmm, hd1, hd2, hb⟩ :=
            buildDate_shape day mo (searchDayMonth_some u day mo h1) hl hd
          right
          simp only [Option.bind, hb]
          exact hshape _ ⟨mm, d1, d2, hmm, hd1, hd2, rfl⟩
        | none =>
          simp only [Option.bind]
          cases h2 : searchMonthDay u with
          | some m =>
            obtain ⟨mo, day⟩ := m
            obtain ⟨hmo, hl, hd⟩ := searchMonthDay_some u mo day h2
            obtain ⟨mm, d1, d2, hmm, hd1, hd2, hb⟩ := buildDate_shape day mo hmo hl hd
            right
            simp only [hb]
            exact hshape _ ⟨mm, d1, d2, hmm, hd1, hd2, rfl⟩
          | none => left; rfl
  · intro d1 d2 h1 h2
    have hdig : [d1, d2].all isDigitC = true := by
      simp only [List.all_cons, List.all_nil, Bool.and_true, h1, h2, Bool.and_self]
    have hmem : toLower ['n', 'o', 'v'] ∈ monthAbbrevs := by decide
    obtain ⟨ht, hy, -, -⟩ := no_today_in_short_date [d1, d2] 'n' 'o' 'v' (Or.inr rfl) hdig
    have hs := searchDayMonth_day_first [d1, d2] 'n' 'o' 'v' [] (Or.inr rfl) hdig hmem
    have hcode : mapGet? months (toLower ['n', 'o', 'v']) = some "11".toList := by decide
    have e : [d1, d2] ++ " nov".toList = [d1, d2] ++ ' ' :: ['n', 'o', 'v'] := rfl
    rw [e]
    unfold extractDateFromQuery
    simp only [ht, hy, Bool.false_eq_true, if_false, hs, Option.bind, buildDate, hcode]
    rfl

/-! ## Every response is non-empty -/

theorem ne_nil_of_head {s : Str} {c : Char} (h : s.head? = some c) : s ≠ [] := by
  intro e
  rw [e] at h
  exact absurd h (by simp)

theorem concat_ne_nil (xs : List Str) (h : ∃ a ∈ xs, a ≠ []) : concat xs ≠ [] := by
  induction xs with
  | nil =>
    obtain ⟨a, ha, -⟩ := h
    exact absurd ha (List.not_mem_nil _)
  | cons x xs ih =>
    obtain ⟨a, ha, hne⟩ := h
    have e : concat (x :: xs) = x ++ concat xs := rfl
    rw [e]
    intro hnil
    obtain ⟨h1, h2⟩ := List.append_eq_nil.mp hnil
    rcases List.mem_cons.mp ha with hax | hax
    · exact hne (hax ▸ h1)
    · exact ih ⟨a, hax, hne⟩ h2

theorem getRanking_ne_nil_or (fmt : Option ℚ → Str) (store : List APIData) (u : Str) :
    getRanking fmt store u = [] ↔
      ∀ kw ∈ ["rank", "cleanest", "best", "most polluted", "worst", "dirtiest", "ranking",
        "top", "list"].map String.toList, found (toLower u) kw = false := by
  constructor
  · intro h
    obtain ⟨h1, h2, h3, h4, h5, h6, h7, h8, h9⟩ := getRanking_eq_nil fmt store u h
    intro kw hkw
    simp only [List.map_cons, List.map_nil, List.mem_cons, List.mem_singleton,
      List.not_mem_nil, or_false] at hkw
    rcases hkw with e | e | e | e | e | e | e | e | e <;> (subst e; assumption)
  · intro h
    unfold getRanking
    simp only [h "rank".toList (by simp), h "cleanest".toList (by simp),
      h "best".toList (by simp), h "most polluted".toList (by simp),
      h "worst".toList (by simp), h "dirtiest".toList (by simp),
      h "ranking".toList (by simp), h "top".toList (by simp), h "list".toList (by simp),
      Bool.or_self, Bool.false_eq_true, if_false]

theorem buildDate_ne_nil (day mo r : Str) (h : buildDate day mo = some r) : r ≠ [] := by
  unfold buildDate at h
  simp only at h
  split at h
  · simp only [Option.some.injEq] at h
    rw [← h]
    exact concat_ne_nil _ ⟨"2025-".toList, List.mem_cons_self _ _, by decide⟩
  · exact absurd h (by simp)

theorem buildDate_isSome (day mo : Str) (h : toLower mo ∈ monthAbbrevs) :
    ∃ r, buildDate day mo = some r := by
  obtain ⟨code, hcode⟩ := Option.isSome_iff_exists.mp (months_has_abbrevs _ h)
  unfold buildDate
  simp only [hcode]
  exact ⟨_, rfl⟩

/-- The date extraction is empty exactly when neither word and neither pattern occurs. -/
theorem extractDateFromQuery_eq_nil (u : Str) :
    extractDateFromQuery u = [] ↔
      found (toLower u) "today".toList = false ∧ found (toLower u) "yesterday".toList = false ∧
      searchDayMonth u = none ∧ searchMonthDay u = none := by
  unfold extractDateFromQuery
  simp only
  cases ht : found (toLower u) "today".toList
  · cases hy : found (toLower u) "yesterday".toList
    · simp only [Bool.false_eq_true, if_false, true_and]
      cases h1 : searchDayMonth u with
      | some m =>
        obtain ⟨day, mo⟩ := m
        obtain ⟨r, hr⟩ := buildDate_isSome day mo (searchDayMonth_some u day mo h1)
        simp only [Option.bind, hr]
        constructor
        · intro e; exact absurd e (buildDate_ne_nil day mo r hr)
        · intro e; exact absurd e.1 (by simp)
      | none =>
        simp only [Option.bind, true_and]
        cases h2 : searchMonthDay u with
        | some m =>
          obtain ⟨mo, day⟩ := m
          obtain ⟨hmo, -, -⟩ := searchMonthDay_some u mo day h2
          obtain ⟨r, hr⟩ := buildDate_isSome day mo hmo
          simp only [hr]
          constructor
          · intro e; exact absurd e (buildDate_ne_nil day mo r hr)
          · intro e; exact absurd e (by simp)
        | none => simp only
    · simp only [Bool.false_eq_true, if_false, if_true]
      constructor
      · intro e; exact absurd e (by decide)
      · intro e; exact absurd e.2.1 (by decide)
  · simp only [if_true]
    constructor
    · intro e; exact absurd e (by decide)
    · intro e; exact absurd e.1 (by decide)

theorem analyzeByMonth_ne_nil (fmt : Option ℚ → Str) (store : List APIData) (u : Str)
    (h : (found (toLower u) "november".toList || found (toLower u) "october".toList) = true) :
    analyzeByMonth fmt store u ≠ [] := by
  unfold analyzeByMonth
  simp only
  cases ho : found (toLower u) "october".toList
  · have hn : found (toLower u) "november".toList = true := by
      rw [ho, Bool.or_false] at h; exact h
    simp only [hn, if_true, Bool.false_eq_true, if_false]
    refine concat_ne_nil _ ⟨_, List.mem_cons_of_mem _ (List.mem_cons_self _ _), ?_⟩
    exact concat_ne_nil _ ⟨"November 2025 Analysis (29 days):\n".toList,
      List.mem_cons_self _ _, by decide⟩
  · simp only [if_true]
    refine concat_ne_nil _ ⟨_, List.mem_cons_self _ _, ?_⟩
    cases he : (october_data store).isEmpty
    · simp only [Bool.false_eq_true, if_false]
      exact concat_ne_nil _ ⟨"October 2025 Analysis (3 days):\n".toList,
        List.mem_cons_self _ _, by decide⟩
    · simp only [if_true]
      decide

theorem knowledge_base_answers_ne_nil : ∀ p ∈ knowledge_base_, p.2 ≠ [] := by
  decide

theorem default_responses_ne_nil : ∀ r ∈ default_responses_, r ≠ [] := by
  decide

theorem laterSteps_ne_nil (fmt : Option ℚ → Str) (store : List APIData) (rnd : Nat) (u : Str) :
    laterSteps fmt store rnd u ≠ [] := by
  unfold laterSteps
  simp only
  split_ifs with h1 h2 h3 h4 h5 h6 h7 h8 h9 h10 h11
  · cases hf : firstAreaMatch store u with
    | some data =>
      simp only
      rcases getDataForAreaAndDate_head store data.district "2025-11-29".toList with h | h <;>
        exact ne_nil_of_head h
    | none =>
      simp only
      rcases getDataForDate_head fmt store "2025-11-29".toList with h | h <;>
        exact ne_nil_of_head h
  · unfold analyzeTrends
    simp only
    split_ifs
    all_goals first
      | decide
      | exact concat_ne_nil _ ⟨_, List.mem_cons_self _ _, by decide⟩
  · unfold getHistoricalSummary
    split_ifs
    · decide
    · exact concat_ne_nil _ ⟨_, List.mem_cons_self _ _, by decide⟩
  · exact analyzeByMonth_ne_nil fmt store u h4
  · unfold compareAreasOrTime
    exact concat_ne_nil _ ⟨_, List.mem_cons_self _ _, by decide⟩
  · unfold getWorstDays
    split_ifs
    · decide
    · exact concat_ne_nil _ ⟨_, List.mem_cons_self _ _, by decide⟩
  · unfold getWorstAreas
    split_ifs
    · decide
    · exact concat_ne_nil _ ⟨_, List.mem_cons_self _ _, by decide⟩
  · unfold getBestDays
    split_ifs
    · decide
    · exact concat_ne_nil _ ⟨_, List.mem_cons_self _ _, by decide⟩
  · unfold getBestAreas
    split_ifs
    · decide
    · exact concat_ne_nil _ ⟨_, List.mem_cons_self _ _, by decide⟩
  · unfold getAllAreas
    split_ifs
    · decide
    · exact concat_ne_nil _ ⟨_, List.mem_cons_self _ _, by decide⟩
  · unfold getStatistics
    split_ifs
    · decide
    · exact concat_ne_nil _ ⟨_, List.mem_cons_self _ _, by decide⟩
  · cases hf : firstAreaMatch store u with
    | some data =>
      simp only
      unfold getAreaInfoWithHistory
      cases areaHistory store data.district data.state with
      | nil => exact concat_ne_nil _ ⟨_, List.mem_cons_self _ _, by decide⟩
      | cons a0 rest => exact concat_ne_nil _ ⟨_, List.mem_cons_self _ _, by decide⟩
    | none =>
      simp only
      cases hk : knowledge_base_.find? (fun pair => found (toLower u) pair.1) with
      | some pair =>
        exact knowledge_base_answers_ne_nil pair (List.mem_of_find?_eq_some hk)
      | none => exact default_responses_ne_nil _ (getRandomResponse_mem rnd)

/-- The value of every response: whatever the store, the utterance and the random number,
the result of `generateResponse` is never the empty string. The one integer division it can
reach, in `getHistoricalSummary`, has a non-zero divisor on a non-empty store, and the index
used by `getRandomResponse` lies within the five default responses. The three detectors return
the empty string only for "no match": `getRanking` exactly when none of its nine keywords
occurs, `getHealthAdvisoryWithLocation` exactly when no health keyword occurs, and
`extractDateFromQuery` exactly when neither "today" nor "yesterday" occurs and neither date
pattern matches. This is the value returned when the two `regex_search` calls return. -/
theorem generateResponse_nonempty (fmt : Option ℚ → Str) (store : List APIData) (rnd : Nat)
    (u : Str) :
    generateResponse fmt store rnd u ≠ [] ∧
    (store ≠ [] → countUniqueDistricts store ≠ 0) ∧
    rnd % default_responses_.length < default_responses_.length ∧
    (getRanking fmt store u = [] ↔
      ∀ kw ∈ ["rank", "cleanest", "best", "most polluted", "worst", "dirtiest", "ranking",
        "top", "list"].map String.toList, found (toLower u) kw = false) ∧
    (getHealthAdvisoryWithLocation store u = [] ↔ health_question u = false) ∧
    (extractDateFromQuery u = [] ↔
      found (toLower u) "today".toList = false ∧ found (toLower u) "yesterday".toList = false ∧
      searchDayMonth u = none ∧ searchMonthDay u = none) := by
  refine ⟨?_, countUniqueDistricts_pos store, Nat.mod_lt _ (by decide),
    getRanking_ne_nil_or fmt store u, getHealthAdvisoryWithLocation_eq_nil store u,
    extractDateFromQuery_eq_nil u⟩
  by_cases hr : getRanking fmt store u = []
  · by_cases hh : getHealthAdvisoryWithLocation store u = []
    · by_cases hd : extractDateFromQuery u = []
      · rw [generateResponse_of_no_date fmt store rnd u hr hh hd]
        exact laterSteps_ne_nil fmt store rnd u
      · rw [generateResponse_of_date fmt store rnd u hr hh hd]
        cases hf : firstAreaMatch store u with
        | some data =>
          simp only
          rcases getDataForAreaAndDate_head store data.district (extractDateFromQuery u)
            with h | h <;> exact ne_nil_of_head h
        | none =>
          simp only
          rcases getDataForDate_head fmt store (extractDateFromQuery u) with h | h <;>
            exact ne_nil_of_head h
    · rw [generateResponse_of_health fmt store rnd u hr hh]
      exact hh
  · rw [generateResponse_of_ranking fmt store rnd u hr]
    exact hr

/-! ## Counting the areas (`countUniqueDistricts`) -/

theorem keysSorted_foldPut {α V : Type} (key : α → Str) (val : α → V) (l : List α)
    (m0 : List (Str × V)) (h : KeysSorted m0) :
    KeysSorted (l.foldl (fun m d => mapPut m (key d) (val d)) m0) := by
  induction l generalizing m0 with
  | nil => exact h
  | cons d l ih =>
    rw [List.foldl_cons]
    exact ih _ (keysSorted_mapPut _ _ _ h)

theorem mem_keys_foldPut {α V : Type} (key : α → Str) (val : α → V) (l : List α)
    (m0 : List (Str × V)) (k : Str) :
    k ∈ (l.foldl (fun m d => mapPut m (key d) (val d)) m0).map Prod.fst ↔
      k ∈ m0.map Prod.fst ∨ ∃ d ∈ l, key d = k := by
  induction l generalizing m0 with
  | nil =>
    simp only [List.foldl_nil, List.not_mem_nil, false_and, exists_false, or_false]
  | cons d l ih =>
    rw [List.foldl_cons, ih, mem_keys_mapPut]
    constructor
    · rintro ((h | h) | ⟨x, hx, hk⟩)
      · exact Or.inr ⟨d, List.mem_cons_self _ _, h.symm⟩
      · exact Or.inl h
      · exact Or.inr ⟨x, List.mem_cons_of_mem _ hx, hk⟩
    · rintro (h | ⟨x, hx, hk⟩)
      · exact Or.inl (Or.inr h)
      · rcases List.mem_cons.mp hx with e | hx
        · subst e; exact Or.inl (Or.inl hk.symm)
        · exact Or.inr ⟨x, hx, hk⟩

/-- The value of `countUniqueDistricts` is the number of distinct strings
`district + state`. -/
theorem countUniqueDistricts_eq (store : List APIData) :
    countUniqueDistricts store =
      ((store.map (fun d => d.district ++ d.state)).dedup).length := by
  unfold countUniqueDistricts
  have hs := keysSorted_foldPut (fun d : APIData => d.district ++ d.state) (fun _ => true)
    store [] keysSorted_nil
  rw [← List.length_map _ Prod.fst]
  apply List.Perm.length_eq
  rw [List.perm_ext_iff_of_nodup (keysSorted_nodup _ hs) (List.nodup_dedup _)]
  intro k
  rw [mem_keys_foldPut, List.mem_dedup]
  constructor
  · rintro (h | h)
    · exact absurd h (List.not_mem_nil _)
    · exact List.mem_map.mpr h
  · intro h
    exact Or.inr (List.mem_map.mp h)

/-- C34 (the code at the failing input): `countUniqueDistricts` keys its map by
`district + state` with nothing between the two, so the readings ("KualaLumpur", "") and
("Kuala", "Lumpur") count as one: it returns 1 on `joinedStore`, which holds two distinct
(district, state) pairs and for which `calculateAreaAverages`, keyed by
`district + ", " + state`, returns two areas. On every store the value returned is the
number of distinct strings `district + state`; it equals the number of distinct pairs
whenever joining district and state is one-to-one on the pairs of the store. -/
theorem countUniqueDistricts_joins_without_separator :
    countUniqueDistricts joinedStore = 1 ∧
    ((joinedStore.map (fun d => (d.district, d.state))).dedup).length = 2 ∧
    (calculateAreaAverages joinedStore).length = 2 ∧
    (∀ store : List APIData,
      countUniqueDistricts store =
        ((store.map (fun d => d.district ++ d.state)).dedup).length) ∧
    (∀ store : List APIData,
      (∀ a ∈ store, ∀ b ∈ store, a.district ++ a.state = b.district ++ b.state →
        a.district = b.district ∧ a.state = b.state) →
      countUniqueDistricts store =
        ((store.map (fun d => (d.district, d.state))).dedup).length) := by
  refine ⟨by decide, by decide, by decide!, countUniqueDistricts_eq, ?_⟩
  intro store hinj
  rw [countUniqueDistricts_eq]
  have hmap : store.map (fun d => d.district ++ d.state) =
      (store.map (fun d => (d.district, d.state))).map (fun p => p.1 ++ p.2) := by
    rw [List.map_map]
    rfl
  rw [hmap]
  have hinj2 : ∀ p ∈ store.map (fun d => (d.district, d.state)),
      ∀ q ∈ store.map (fun d => (d.district, d.state)),
      p.1 ++ p.2 = q.1 ++ q.2 → p = q := by
    intro p hp q hq e
    obtain ⟨a, ha, rfl⟩ := List.mem_map.mp hp
    obtain ⟨b, hb, rfl⟩ := List.mem_map.mp hq
    obtain ⟨h1, h2⟩ := hinj a ha b hb e
    exact Prod.ext h1 h2
  generalize store.map (fun d => (d.district, d.state)) = ps at hinj2
  rw [← List.length_map ps.dedup (fun p => p.1 ++ p.2)]
  apply List.Perm.length_eq
  rw [List.perm_ext_iff_of_nodup (List.nodup_dedup _)]
  · intro k
    simp only [List.mem_dedup, List.mem_map]
  · rw [List.nodup_map_iff_inj_on (List.nodup_dedup _)]
    intro p hp q hq e
    exact hinj2 p (List.mem_dedup.mp hp) q (List.mem_dedup.mp hq) e

/-! ## A digit followed by blanks -/

theorem found_of_head_absent (hay : Str) (c : Char) (rest : Str) (h : c ∉ hay) :
    found hay (c :: rest) = false := by
  induction hay with
  | nil => rfl
  | cons x xs ih =>
    have hx : x ≠ c := fun e => h (by rw [e]; exact List.mem_cons_self _ _)
    have hxs : c ∉ xs := fun hm => h (List.mem_cons_of_mem _ hm)
    simp only [found, startsWith, hx, decide_False, Bool.false_and, Bool.false_or, ih hxs]

theorem toLower_digit_blanks (n : Nat) :
    toLower ('1' :: List.replicate n ' ') = '1' :: List.replicate n ' ' := by
  unfold toLower
  rw [List.map_cons, List.map_replicate]
  rfl

theorem found_digit_blanks (n : Nat) (c : Char) (rest : Str) (h1 : c ≠ '1') (h2 : c ≠ ' ') :
    found (toLower ('1' :: List.replicate n ' ')) (c :: rest) = false := by
  rw [toLower_digit_blanks]
  apply found_of_head_absent
  intro hm
  rcases List.mem_cons.mp hm with e | e
  · exact h1 e
  · exact h2 (List.eq_of_mem_replicate e)

theorem dropSpaces_blanks (n : Nat) : dropSpaces (List.replicate n ' ') = [] := by
  induction n with
  | zero => rfl
  | succ n ih =>
    rw [List.replicate_succ, dropSpaces, if_pos (by decide), ih]

/-- C33 (the code at the failing input): the utterance made of the digit 1 followed by `n`
blanks, for every `n` and on every store, is answered by neither the ranking nor the health
detector and holds neither "today" nor "yesterday", so `extractDateFromQuery` hands all of it
to `regex_search`. At the first position the day-first pattern reads the digit, and what
follows the digit is `n` characters that its `\s*` consumes to the last before the month
alternative can fail. The depth that the library's matcher reaches on these `n` blanks, and
with it the stack it needs, is not part of the embedding. -/
theorem digit_blanks_reach_regex_search (fmt : Option ℚ → Str) (store : List APIData) (n : Nat) :
    getRanking fmt store ('1' :: List.replicate n ' ') = [] ∧
    getHealthAdvisoryWithLocation store ('1' :: List.replicate n ' ') = [] ∧
    found (toLower ('1' :: List.replicate n ' ')) "today".toList = false ∧
    found (toLower ('1' :: List.replicate n ' ')) "yesterday".toList = false ∧
    digitsAt ('1' :: List.replicate n ' ') 1 = true ∧
    (('1' :: List.replicate n ' ').drop 1).length = n ∧
    dropSpaces (('1' :: List.replicate n ' ').drop 1) = [] := by
  have hf : ∀ (c : Char) (rest : Str), c ≠ '1' → c ≠ ' ' →
      found (toLower ('1' :: List.replicate n ' ')) (c :: rest) = false :=
    fun c rest h1 h2 => found_digit_blanks n c rest h1 h2
  have hd : dropSpaces (('1' :: List.replicate n ' ').drop 1) = [] := by
    rw [List.drop_succ_cons, List.drop_zero]
    exact dropSpaces_blanks n
  have hdig : digitsAt ('1' :: List.replicate n ' ') 1 = true := by
    simp only [digitsAt, List.length_cons, List.take_succ_cons, List.take_zero, List.all_cons,
      List.all_nil, Bool.and_true, Bool.and_eq_true, decide_eq_true_eq]
    exact ⟨by omega, by decide⟩
  refine ⟨?_, ?_, hf _ _ (by decide) (by decide), hf _ _ (by decide) (by decide), hdig, ?_,
    hd⟩
  rotate_left 2
  · rw [List.drop_succ_cons, List.drop_zero, List.length_replicate]
  · unfold getRanking
    simp only [show "rank".toList = 'r' :: "ank".toList from rfl,
      show "cleanest".toList = 'c' :: "leanest".toList from rfl,
      show "best".toList = 'b' :: "est".toList from rfl,
      show "most polluted".toList = 'm' :: "ost polluted".toList from rfl,
      show "worst".toList = 'w' :: "orst".toList from rfl,
      show "dirtiest".toList = 'd' :: "irtiest".toList from rfl,
      show "ranking".toList = 'r' :: "anking".toList from rfl,
      show "top".toList = 't' :: "op".toList from rfl,
      show "list".toList = 'l' :: "ist".toList from rfl,
      hf 'r' _ (by decide) (by decide), hf 'c' _ (by decide) (by decide),
      hf 'b' _ (by decide) (by decide), hf 'm' _ (by decide) (by decide),
      hf 'w' _ (by decide) (by decide), hf 'd' _ (by decide) (by decide),
      hf 't' _ (by decide) (by decide), hf 'l' _ (by decide) (by decide),
      Bool.or_self, Bool.false_eq_true, if_false]
  · rw [getHealthAdvisoryWithLocation_eq_nil]
    unfold health_question
    simp only [show "go out".toList = 'g' :: "o out".toList from rfl,
      show "go outside".toList = 'g' :: "o outside".toList from rfl,
      show "outdoor".toList = 'o' :: "utdoor".toList from rfl,
      show "exercise".toList = 'e' :: "xercise".toList from rfl,
      show "workout".toList = 'w' :: "orkout".toList from rfl,
      show "jog".toList = 'j' :: "og".toList from rfl,
      show "run".toList = 'r' :: "un".toList from rfl,
      show "walk".toList = 'w' :: "alk".toList from rfl,
      show "healthy".toList = 'h' :: "ealthy".toList from rfl,
      show "safe".toList = 's' :: "afe".toList from rfl,
      show "haze".toList = 'h' :: "aze".toList from rfl,
      hf 'g' _ (by decide) (by decide), hf 'o' _ (by decide) (by decide),
      hf 'e' _ (by decide) (by decide), hf 'w' _ (by decide) (by decide),
      hf 'j' _ (by decide) (by decide), hf 'r' _ (by decide) (by decide),
      hf 'h' _ (by decide) (by decide), hf 's' _ (by decide) (by decide), Bool.or_self]

/-! ## The entries printed by the rankings -/

theorem count_concat (c : Char) (xs : List Str) :
    (concat xs).count c = (xs.map (fun x => x.count c)).sum := by
  induction xs with
  | nil => rfl
  | cons x xs ih =>
    have e : concat (x :: xs) = x ++ concat xs := rfl
    rw [e, List.count_append, ih, List.map_cons, List.sum_cons]

/-- When every piece printed by the loop holds `c` once, the text of the loop holds `c` as
often as the loop runs. -/
theorem count_concat_enumFrom {α : Type} (c : Char) (f : Nat × α → Str) (l : List α) :
    ∀ k : Nat, (∀ i : Nat, ∀ p ∈ l, (f (i, p)).count c = 1) →
    (concat ((l.enumFrom k).map f)).count c = l.length := by
  induction l with
  | nil => intro k _; rfl
  | cons a l ih =>
    intro k h
    have e : concat (((a :: l).enumFrom k).map f) =
        f (k, a) ++ concat ((l.enumFrom (k + 1)).map f) := rfl
    rw [e, List.count_append, h k a (List.mem_cons_self _ _),
      ih (k + 1) (fun i p hp => h i p (List.mem_cons_of_mem _ hp)), List.length_cons]
    omega

theorem natToStr_no_newline (n : Nat) : (natToStr n).count '\n' = 0 := by
  rw [List.count_eq_zero]
  intro h
  have := (natToStr_spec n).2.1 _ h
  revert this
  decide

theorem rank_marker_no_newline (i : Nat) (a b c : Str) (ha : a.count '\n' = 0)
    (hb : b.count '\n' = 0) (hc : c.count '\n' = 0) :
    (if i = 0 then a else if i = 1 then b else if i = 2 then c
      else natToStr (i + 1) ++ ". ".toList).count '\n' = 0 := by
  split_ifs
  · exact ha
  · exact hb
  · exact hc
  · rw [List.count_append, natToStr_no_newline]
    rfl

theorem areaKey_no_newline (store : List APIData)
    (hkey : ∀ d ∈ store, '\n' ∉ d.district ∧ '\n' ∉ d.state)
    (p : Str × ℚ) (hp : p ∈ calculateAreaAverages store) : p.1.count '\n' = 0 := by
  have hk : p.1 ∈ (calculateAreaAverages store).map Prod.fst := List.mem_map_of_mem _ hp
  obtain ⟨d, hd, hdk⟩ := (mem_areaKeys store p.1).mp hk
  rw [← hdk, List.count_append, List.count_append,
    List.count_eq_zero.mpr (hkey d hd).1, List.count_eq_zero.mpr (hkey d hd).2]
  rfl

theorem status_no_newline (q : ℚ) :
    (getStatusFromAPI q).count '\n' = 0 ∧ (getStatusColor (getStatusFromAPI q)).count '\n' = 0 := by
  unfold getStatusFromAPI
  split_ifs <;> exact ⟨by decide, by decide⟩

/-- C13: with `n` the number of distinct area keys of the store, the cleanest ranking and the
most-polluted ranking are their two header lines followed by one line
"marker key - API: mean" for each of the first `min 10 n` elements of their sorted sequence,
and the complete ranking is its two header lines followed by one line
"marker key - API: mean (status)" for each of the `n` elements of the ascending sequence.
When no district, no state and no rendered mean holds a line feed, the cleanest and the
most-polluted ranking are texts of exactly `2 + min 10 n` lines and the complete ranking is a
text of exactly `2 + n` lines. -/
theorem ranking_entry_counts (fmt : Option ℚ → Str) (store : List APIData) :
    (getCleanestAreasRanking fmt store =
      concat ["🏆 CLEANEST AREAS RANKING (Average API - Lower is Better):\n".toList,
        List.replicate 45 '=' ++ "\n".toList,
        concat (((sortedAscending store).take 10).enum.map (fun e =>
          concat [
            if e.1 = 0 then "🥇 ".toList else if e.1 = 1 then "🥈 ".toList
            else if e.1 = 2 then "🥉 ".toList else natToStr (e.1 + 1) ++ ". ".toList,
            e.2.1, " - API: ".toList, fmt (some e.2.2), "\n".toList]))] ∧
      ((sortedAscending store).take 10).length =
        min 10 ((store.map (fun d => d.district ++ ", ".toList ++ d.state)).dedup).length) ∧
    (getMostPollutedAreasRanking fmt store =
      concat ["⚠️ MOST POLLUTED AREAS RANKING (Average API - Higher is Worse):\n".toList,
        List.replicate 49 '=' ++ "\n".toList,
        concat (((sortedDescending store).take 10).enum.map (fun e =>
          concat [
            if e.1 = 0 then "🔴 ".toList else if e.1 = 1 then "🟠 ".toList
            else if e.1 = 2 then "🟡 ".toList else natToStr (e.1 + 1) ++ ". ".toList,
            e.2.1, " - API: ".toList, fmt (some e.2.2), "\n".toList]))] ∧
      ((sortedDescending store).take 10).length =
        min 10 ((store.map (fun d => d.district ++ ", ".toList ++ d.state)).dedup).length) ∧
    (getCompleteRanking fmt store =
      concat ["📊 COMPLETE AIR QUALITY RANKING:\n".toList,
        List.replicate 31 '=' ++ "\n".toList,
        concat ((sortedAscending store).enum.map (fun e =>
          concat [
            if e.1 = 0 then "🥇 ".toList else if e.1 = 1 then "🥈 ".toList
            else if e.1 = 2 then "🥉 ".toList else natToStr (e.1 + 1) ++ ". ".toList,
            e.2.1, " - API: ".toList, fmt (some e.2.2), " (".toList,
            getStatusColor (getStatusFromAPI e.2.2), getStatusFromAPI e.2.2,
            "\x1b[0m".toList, ")\n".toList]))] ∧
      (sortedAscending store).length =
        ((store.map (fun d => d.district ++ ", ".toList ++ d.state)).dedup).length) ∧
    ((∀ d ∈ store, '\n' ∉ d.district ∧ '\n' ∉ d.state) →
      (∀ p ∈ calculateAreaAverages store, '\n' ∉ fmt (some p.2)) →
      (getCleanestAreasRanking fmt store).count '\n' =
        2 + min 10 ((store.map (fun d => d.district ++ ", ".toList ++ d.state)).dedup).length ∧
      (getMostPollutedAreasRanking fmt store).count '\n' =
        2 + min 10 ((store.map (fun d => d.district ++ ", ".toList ++ d.state)).dedup).length ∧
      (getCompleteRanking fmt store).count '\n' =
        2 + ((store.map (fun d => d.district ++ ", ".toList ++ d.state)).dedup).length) := by
  have hn := calculateAreaAverages_length store
  have ha : (sortedAscending store).length = (calculateAreaAverages store).length :=
    stdSort_length _ _
  have hd : (sortedDescending store).length = (calculateAreaAverages store).length :=
    stdSort_length _ _
  have hpa : ∀ p ∈ sortedAscending store, p ∈ calculateAreaAverages store :=
    fun p hp => (stdSort_perm _ _).subset hp
  have hpd : ∀ p ∈ sortedDescending store, p ∈ calculateAreaAverages store :=
    fun p hp => (stdSort_perm _ _).subset hp
  have hla : ((sortedAscending store).take 10).length =
      min 10 ((store.map (fun d => d.district ++ ", ".toList ++ d.state)).dedup).length := by
    rw [List.length_take, ha, hn]
  have hld : ((sortedDescending store).take 10).length =
      min 10 ((store.map (fun d => d.district ++ ", ".toList ++ d.state)).dedup).length := by
    rw [List.length_take, hd, hn]
  have e1 : getCleanestAreasRanking fmt store =
      concat ["🏆 CLEANEST AREAS RANKING (Average API - Lower is Better):\n".toList,
        List.replicate 45 '=' ++ "\n".toList,
        concat (((sortedAscending store).take 10).enum.map (fun e =>
          concat [
            if e.1 = 0 then "🥇 ".toList else if e.1 = 1 then "🥈 ".toList
            else if e.1 = 2 then "🥉 ".toList else natToStr (e.1 + 1) ++ ". ".toList,
            e.2.1, " - API: ".toList, fmt (some e.2.2), "\n".toList]))] := rfl
  have e2 : getMostPollutedAreasRanking fmt store =
      concat ["⚠️ MOST POLLUTED AREAS RANKING (Average API - Higher is Worse):\n".toList,
        List.replicate 49 '=' ++ "\n".toList,
        concat (((sortedDescending store).take 10).enum.map (fun e =>
          concat [
            if e.1 = 0 then "🔴 ".toList else if e.1 = 1 then "🟠 ".toList
            else if e.1 = 2 then "🟡 ".toList else natToStr (e.1 + 1) ++ ". ".toList,
            e.2.1, " - API: ".toList, fmt (some e.2.2), "\n".toList]))] := rfl
  have e3 : getCompleteRanking fmt store =
      concat ["📊 COMPLETE AIR QUALITY RANKING:\n".toList,
        List.replicate 31 '=' ++ "\n".toList,
        concat ((sortedAscending store).enum.map (fun e =>
          concat [
            if e.1 = 0 then "🥇 ".toList else if e.1 = 1 then "🥈 ".toList
            else if e.1 = 2 then "🥉 ".toList else natToStr (e.1 + 1) ++ ". ".toList,
            e.2.1, " - API: ".toList, fmt (some e.2.2), " (".toList,
            getStatusColor (getStatusFromAPI e.2.2), getStatusFromAPI e.2.2,
            "\x1b[0m".toList, ")\n".toList]))] := by
    unfold getCompleteRanking completeEntry sortedAscending
    simp only [ite_self]
  refine ⟨⟨e1, hla⟩, ⟨e2, hld⟩, ⟨e3, by rw [ha, hn]⟩, ?_⟩
  intro hkey hfmt
  have hentry : ∀ (a b c : Str), a.count '\n' = 0 → b.count '\n' = 0 → c.count '\n' = 0 →
      ∀ i : Nat, ∀ p ∈ calculateAreaAverages store,
      (concat [
        if i = 0 then a else if i = 1 then b else if i = 2 then c
        else natToStr (i + 1) ++ ". ".toList,
        p.1, " - API: ".toList, fmt (some p.2), "\n".toList]).count '\n' = 1 := by
    intro a b c ha hb hc i p hp
    rw [count_concat]
    simp only [List.map_cons, List.map_nil, List.sum_cons, List.sum_nil,
      rank_marker_no_newline i a b c ha hb hc, areaKey_no_newline store hkey p hp,
      List.count_eq_zero.mpr (hfmt p hp)]
    rfl
  have hcomplete : ∀ i : Nat, ∀ p ∈ calculateAreaAverages store,
      (concat [
        if i = 0 then "🥇 ".toList else if i = 1 then "🥈 ".toList
        else if i = 2 then "🥉 ".toList else natToStr (i + 1) ++ ". ".toList,
        p.1, " - API: ".toList, fmt (some p.2), " (".toList,
        getStatusColor (getStatusFromAPI p.2), getStatusFromAPI p.2,
        "\x1b[0m".toList, ")\n".toList]).count '\n' = 1 := by
    intro i p hp
    rw [count_concat]
    simp only [List.map_cons, List.map_nil, List.sum_cons, List.sum_nil,
      rank_marker_no_newline i _ _ _ (show "🥇 ".toList.count '\n' = 0 by decide)
        (show "🥈 ".toList.count '\n' = 0 by decide) (show "🥉 ".toList.count '\n' = 0 by decide),
      areaKey_no_newline store hkey p hp, List.count_eq_zero.mpr (hfmt p hp),
      (status_no_newline p.2).1, (status_no_newline p.2).2]
    rfl
  refine ⟨?_, ?_, ?_⟩
  · rw [e1, count_concat]
    simp only [List.map_cons, List.map_nil, List.sum_cons, List.sum_nil, List.enum]
    rw [count_concat_enumFrom '\n' _ _ 0 (fun i p hp =>
      hentry _ _ _ (by decide) (by decide) (by decide) i p
        (hpa p (List.mem_of_mem_take hp))), hla]
    have h1 : "🏆 CLEANEST AREAS RANKING (Average API - Lower is Better):\n".toList.count '\n' = 1 := by
      decide
    have h2 : (List.replicate 45 '=' ++ "\n".toList).count '\n' = 1 := by decide
    rw [h1, h2]
    omega
  · rw [e2, count_concat]
    simp only [List.map_cons, List.map_nil, List.sum_cons, List.sum_nil, List.enum]
    rw [count_concat_enumFrom '\n' _ _ 0 (fun i p hp =>
      hentry _ _ _ (by decide) (by decide) (by decide) i p
        (hpd p (List.mem_of_mem_take hp))), hld]
    have h1 : "⚠️ MOST POLLUTED AREAS RANKING (Average API - Higher is Worse):\n".toList.count '\n' = 1 := by
      decide
    have h2 : (List.replicate 49 '=' ++ "\n".toList).count '\n' = 1 := by decide
    rw [h1, h2]
    omega
  · rw [e3, count_concat]
    simp only [List.map_cons, List.map_nil, List.sum_cons, List.sum_nil, List.enum]
    rw [count_concat_enumFrom '\n' _ _ 0 (fun i p hp => hcomplete i p (hpa p hp)), ha, hn]
    have h1 : "📊 COMPLETE AIR QUALITY RANKING:\n".toList.count '\n' = 1 := by decide
    have h2 : (List.replicate 31 '=' ++ "\n".toList).count '\n' = 1 := by decide
    rw [h1, h2]
    omega

/-- Witness for C13: on the sample store, whose two areas have means rendered "73" and "30",
each of the three rankings is a text of four lines. -/
theorem ranking_entry_counts_witness :
    (getCleanestAreasRanking sampleFmt sampleStore).count '\n' = 4 ∧
    (getMostPollutedAreasRanking sampleFmt sampleStore).count '\n' = 4 ∧
    (getCompleteRanking sampleFmt sampleStore).count '\n' = 4 := by
  have h := (ranking_entry_counts sampleFmt sampleStore).2.2.2 (by decide) (by decide!)
  have hn : ((sampleStore.map (fun d => d.district ++ ", ".toList ++ d.state)).dedup).length
      = 2 := by decide
  rw [hn] at h
  exact h

end AirPollutantAI
